import Mathlib

/-!
# MaxScale: the Avro codec and the replication event handler

A shallow embedding of the codec of `avro/maxavro.c`, of the event handler of
`avro_rbr.c`, of `valid_ip` of `fwfilter.c` and of the seeding of
`random_jkiss.c`.

* `uint64_t` values are natural numbers; every operation that can leave the
  64-bit range is followed by an explicit `% U64`.
* `uint8_t` loop counters are natural numbers reduced `% 256` after `++`.
* A byte of a buffer or of a file is a `Byte` (`Fin 256`).
* A `FILE` is an in-memory byte sequence with a position; reads past the end
  return fewer items, writes always complete.
* C loops are run with an iteration budget; `none` means the budget ran out or
  a store fell outside its buffer.
-/

namespace MaxScale

/-! ## Machine words and bytes -/

/-- The modulus of `uint64_t` arithmetic. -/
def U64 : Nat := 2 ^ 64

/-- One octet, as stored in buffers and files. -/
abbrev Byte := Fin 256

/-- Conversion to `uint8_t`: keeps the low eight bits. -/
def toByte (x : Nat) : Byte := ⟨x % 256, Nat.mod_lt x (by decide)⟩

/-- The conversion of an unsigned value to `int` of 32 bits, as in
`newrand = random_jkiss_devrand()` and in `const int coldata_size = ...`: the
low 32 bits are kept and values from `2 ^ 31` on become negative. -/
def to_int (r : Nat) : Int :=
  if r % 2 ^ 32 < 2 ^ 31 then ((r % 2 ^ 32 : Nat) : Int) else ((r % 2 ^ 32 : Nat) : Int) - 2 ^ 32

/-- The constant `#define MAX_INTEGER_SIZE 10`. -/
def MAX_INTEGER_SIZE : Nat := 10

/-- The zigzag decode `#define avro_decode(n) ((n >> 1) ^ -(n & 1))` on a
`uint64_t` operand: the shift is logical and the negation is modulo `2^64`. -/
def avro_decode (n : Nat) : Nat := (n >>> 1) ^^^ ((U64 - (n &&& 1)) % U64)

/-- The zigzag encode `#define encode_long(n) ((n << 1) ^ (n >> 63))` on a
`uint64_t` operand: the left shift wraps modulo `2^64` and the right shift is
logical. -/
def encode_long (n : Nat) : Nat := ((n <<< 1) % U64) ^^^ (n >>> 63)

/-- The continuation test `#define more_bytes(b) (b & 0x80)`; nonzero means true. -/
def more_bytes (b : Nat) : Nat := b &&& 0x80

/-! ## Streams -/

/-- A C stream: its content and the current position. -/
structure FILE where
  data : List Byte
  pos : Nat
  deriving DecidableEq, Repr

/-- The call `fread(ptr, 1, n, stream)`: the bytes stored through `ptr` (their
number is the return value) and the advanced stream. -/
def fread (n : Nat) (stream : FILE) : List Byte × FILE :=
  let got := (stream.data.drop stream.pos).take n
  (got, { stream with pos := stream.pos + got.length })

/-- The call `fwrite(ptr, 1, n, stream)` with `bytes` the `n` bytes at `ptr`:
the bytes are stored at the position (a gap left by a seek past the end reads
as zeros), the position advances, and the return value is `n`. -/
def fwrite (bytes : List Byte) (stream : FILE) : Nat × FILE :=
  let gap := List.replicate (stream.pos - stream.data.length) (0 : Byte)
  (bytes.length,
   { data := stream.data.take stream.pos ++ gap ++ bytes
              ++ stream.data.drop (stream.pos + bytes.length),
     pos := stream.pos + bytes.length })

/-- Modelled from the spec: the header `maxavro.h` with `enum maxavro_error` is
missing; these are the error codes `maxavro.c` names, with the spec's
`Truncated`, `OutOfMemory` and `IntegerOverflow` being the last three. -/
inductive maxavro_error where
  | MAXAVRO_ERR_NONE
  | MAXAVRO_ERR_IO
  | MAXAVRO_ERR_MEMORY
  | MAXAVRO_ERR_VALUE_OVERFLOW
  deriving DecidableEq, Repr

open maxavro_error

/-- Modelled from the spec: the header `maxavro.h` with `maxavro_file_t` is
missing; these are the two fields `maxavro.c` uses, the stream and the code of
the last error. -/
structure maxavro_file_t where
  file : FILE
  last_error : maxavro_error
  deriving DecidableEq, Repr

/-! ## Integers -/

/-- The `do ... while (more_bytes(byte))` loop of `maxavro_read_integer`, one
call per iteration. The result is the return value, the cell behind `dest`
(`none` for a null pointer) and the file. -/
def read_integer_loop :
    Nat → maxavro_file_t → Option Nat → Nat → Nat → Option (Bool × Option Nat × maxavro_file_t)
  | 0, _, _, _, _ => none
  | fuel + 1, file, dest, rval, nread =>
    if nread ≥ MAX_INTEGER_SIZE then
      some (false, dest, { file with last_error := MAXAVRO_ERR_VALUE_OVERFLOW })
    else
      let got := (fread 1 file.file).1
      let rdsz := got.length
      let file := { file with file := (fread 1 file.file).2 }
      if rdsz ≠ 1 then
        if rdsz ≠ 0 then
          some (false, dest, { file with last_error := MAXAVRO_ERR_IO })
        else
          some (false, dest, file)
      else
        let byte := (got.headD 0).val
        let rval := rval ||| (((byte &&& 0x7f) <<< (nread * 7)) % U64)
        let nread := (nread + 1) % 256
        if more_bytes byte ≠ 0 then
          read_integer_loop fuel file dest rval nread
        else
          some (true, dest.map (fun _ => avro_decode rval), file)

/-- The function `maxavro_read_integer(file, dest)`. `dest` is `none` for a null
pointer and otherwise the current content of the cell. -/
def maxavro_read_integer (file : maxavro_file_t) (dest : Option Nat) :
    Option (Bool × Option Nat × maxavro_file_t) :=
  read_integer_loop (MAX_INTEGER_SIZE + 1) file dest 0 0

/-- The store `buffer[i] = b`; `none` when `i` is outside the buffer. -/
def buffer_set (buffer : List Byte) (i : Nat) (b : Byte) : Option (List Byte) :=
  if i < buffer.length then some (buffer.set i b) else none

/-- The `while (more_bytes(encval))` loop of `maxavro_encode_integer`; the
result is the buffer, `nbytes` and `encval` at loop exit. -/
def encode_integer_loop : Nat → List Byte → Nat → Nat → Option (List Byte × Nat × Nat)
  | 0, _, _, _ => none
  | fuel + 1, buffer, nbytes, encval =>
    if more_bytes encval ≠ 0 then
      match buffer_set buffer nbytes (toByte (0x80 ||| (0x7f &&& encval))) with
      | none => none
      | some buffer => encode_integer_loop fuel buffer ((nbytes + 1) % 256) (encval >>> 7)
    else
      some (buffer, nbytes, encval)

/-- The function `maxavro_encode_integer(buffer, val)`: the buffer after the
call and the return value. -/
def maxavro_encode_integer (buffer : List Byte) (val : Nat) : Option (List Byte × Nat) :=
  match encode_integer_loop 64 buffer 0 (encode_long val) with
  | none => none
  | some (buffer, nbytes, encval) =>
    match buffer_set buffer nbytes (toByte encval) with
    | none => none
    | some buffer => some (buffer, (nbytes + 1) % 256)

/-- The `while (more_bytes(encval))` loop of `avro_length_integer`; the result
is `nbytes` at loop exit. -/
def length_integer_loop : Nat → Nat → Nat → Option Nat
  | 0, _, _ => none
  | fuel + 1, nbytes, encval =>
    if more_bytes encval ≠ 0 then
      length_integer_loop fuel ((nbytes + 1) % 256) (encval >>> 7)
    else
      some nbytes

/-- The function `avro_length_integer(val)`. -/
def avro_length_integer (val : Nat) : Option Nat :=
  length_integer_loop 64 0 (encode_long val)

/-- The function `maxavro_write_integer(file, val)`. The local buffer of
`MAX_INTEGER_SIZE` bytes starts out zeroed here; only bytes stored by
`maxavro_encode_integer` are written out. -/
def maxavro_write_integer (file : FILE) (val : Nat) : Option (Bool × FILE) :=
  match maxavro_encode_integer (List.replicate MAX_INTEGER_SIZE 0) val with
  | none => none
  | some (buffer, n) =>
    let nbytes := n % 256
    let w := fwrite (buffer.take nbytes) file
    some (w.1 == nbytes, w.2)

/-! ## Strings -/

/-- The call `strlen(str)`: the number of characters before the first NUL of
the characters at `str`. -/
def strlen (str : List Byte) : Nat := (str.takeWhile (fun c => c ≠ 0)).length

/-- The call `memcpy(dest, src, n)`: the first `n` bytes of `dest` are replaced;
`none` when `n` bytes are not available on either side. -/
def memcpy (dest src : List Byte) (n : Nat) : Option (List Byte) :=
  if n ≤ dest.length ∧ n ≤ src.length then some (src.take n ++ dest.drop n) else none

/-- The function `maxavro_read_string(file)`. `malloc n` tells whether an
allocation of `n` bytes succeeds. The result is the allocated buffer `key`
(`none` for `NULL`) and the file; the whole result is `none` when `fread` stores
more bytes than were allocated, which needs `len + 1` to wrap to 0. -/
def maxavro_read_string (malloc : Nat → Bool) (file : maxavro_file_t) :
    Option (Option (List Byte) × maxavro_file_t) :=
  match maxavro_read_integer file (some 0) with
  | none => none
  | some (ok, dest, file) =>
    if ok then
      let len := dest.getD 0
      let size := (len + 1) % U64
      if malloc size then
        let got := (fread len file.file).1
        let file := { file with file := (fread len file.file).2 }
        let nread := got.length
        if size < nread then
          none
        else if nread = len then
          some (some (got ++ [0]), file)
        else if nread ≠ 0 then
          some (none, { file with last_error := MAXAVRO_ERR_IO })
        else
          some (none, file)
      else
        some (none, { file with last_error := MAXAVRO_ERR_MEMORY })
    else
      some (none, file)

/-- The function `maxavro_encode_string(dest, str)`: the buffer after the call
and the return value. -/
def maxavro_encode_string (dest str : List Byte) : Option (List Byte × Nat) :=
  let slen := strlen str
  match maxavro_encode_integer dest slen with
  | none => none
  | some (dest, ilen) =>
    match memcpy dest str slen with
    | none => none
    | some dest => some (dest, (slen + ilen) % U64)

/-- The function `maxavro_write_string(file, str)`. -/
def maxavro_write_string (file : FILE) (str : List Byte) : Option (Bool × FILE) :=
  let len := strlen str
  match maxavro_write_integer file len with
  | none => none
  | some (ok, file) =>
    if ok then
      let w := fwrite (str.take len) file
      some (w.1 == len, w.2)
    else
      some (false, file)

/-- The function `avro_length_string(str)`. -/
def avro_length_string (str : List Byte) : Option Nat :=
  let slen := strlen str
  match avro_length_integer slen with
  | none => none
  | some ilen => some ((slen + ilen) % U64)

/-! ## Floats and doubles -/

/-- The body shared by `maxavro_read_float` and `maxavro_read_double`, `width`
being `sizeof(*dest)`. `dest` is the object representation of `*dest`; `fread`
stores the bytes it got over its first bytes. -/
def read_fixed (width : Nat) (file : maxavro_file_t) (dest : List Byte) :
    Bool × List Byte × maxavro_file_t :=
  let got := (fread width file.file).1
  let file := { file with file := (fread width file.file).2 }
  let dest := got ++ dest.drop got.length
  let nread := got.length
  if nread ≠ width ∧ nread ≠ 0 then
    (false, dest, { file with last_error := MAXAVRO_ERR_IO })
  else
    (decide (nread = width), dest, file)

/-- The function `maxavro_read_float(file, dest)`, with `sizeof(float) = 4`. -/
def maxavro_read_float (file : maxavro_file_t) (dest : List Byte) :
    Bool × List Byte × maxavro_file_t :=
  read_fixed 4 file dest

/-- The function `maxavro_read_double(file, dest)`, with `sizeof(double) = 8`. -/
def maxavro_read_double (file : maxavro_file_t) (dest : List Byte) :
    Bool × List Byte × maxavro_file_t :=
  read_fixed 8 file dest

/-! ## Maps -/

/-- Modelled from the spec: the header `maxavro.h` with `maxavro_map_t` is
missing; a node has the fields `maxavro.c` uses, the key and value buffers and
the block count. The `next` pointers are the tail of a list of nodes, and the
empty list is the `NULL` pointer. -/
structure maxavro_map_t where
  key : List Byte
  value : List Byte
  blocks : Nat
  deriving DecidableEq, Repr

/-- The `for (long i = 0; i < blocks; i++)` loop of `maxavro_map_read`, given
the number of iterations left. `calloc` tells whether the allocation of a node
succeeds. The inner `none` is the early `return NULL`. -/
def map_read_block (malloc : Nat → Bool) (calloc : Bool) :
    Nat → maxavro_file_t → List maxavro_map_t →
      Option (Option (List maxavro_map_t) × maxavro_file_t)
  | 0, file, rval => some (some rval, file)
  | n + 1, file, rval =>
    if calloc then
      match maxavro_read_string malloc file with
      | none => none
      | some (none, file) => some (none, file)
      | some (some key, file) =>
        match maxavro_read_string malloc file with
        | none => none
        | some (none, file) => some (none, file)
        | some (some value, file) =>
          map_read_block malloc calloc n file
            ({ key := key, value := value, blocks := 0 } :: rval)
    else
      some (none, { file with last_error := MAXAVRO_ERR_MEMORY })

/-- The `while (blocks > 0)` loop of `maxavro_map_read`. The inner `none` is the
early `return NULL`. -/
def map_read_loop (malloc : Nat → Bool) (calloc : Bool) :
    Nat → Nat → maxavro_file_t → List maxavro_map_t →
      Option (Option (List maxavro_map_t) × maxavro_file_t)
  | 0, _, _, _ => none
  | fuel + 1, blocks, file, rval =>
    if blocks > 0 then
      match map_read_block malloc calloc blocks file rval with
      | none => none
      | some (none, file) => some (none, file)
      | some (some rval, file) =>
        match maxavro_read_integer file (some blocks) with
        | none => none
        | some (ok, dest, file) =>
          if ok then
            map_read_loop malloc calloc fuel (dest.getD 0) file rval
          else
            some (none, file)
    else
      some (some rval, file)

/-- The function `maxavro_map_read(file)`: the returned list (empty for `NULL`)
and the file. Every pass of the `while` loop reads at least one byte, so the
number of bytes left bounds the number of passes. -/
def maxavro_map_read (malloc : Nat → Bool) (calloc : Bool) (file : maxavro_file_t) :
    Option (List maxavro_map_t × maxavro_file_t) :=
  match maxavro_read_integer file (some 0) with
  | none => none
  | some (ok, dest, file) =>
    if ok then
      match map_read_loop malloc calloc ((file.file.data.drop file.file.pos).length + 1)
          (dest.getD 0) file [] with
      | none => none
      | some (rval, file) => some (rval.getD [], file)
    else
      some ([], file)

/-- The `while (map)` loop of `avro_map_encode`. -/
def map_encode_loop : List maxavro_map_t → List Byte → Nat → Option (List Byte × Nat)
  | [], dest, len => some (dest, len)
  | m :: next, dest, len =>
    match maxavro_encode_string dest m.key with
    | none => none
    | some (dest, n1) =>
      match maxavro_encode_string dest m.value with
      | none => none
      | some (dest, n2) => map_encode_loop next dest ((((len + n1) % U64) + n2) % U64)

/-- The function `avro_map_encode(dest, map)`: the buffer after the call and the
return value; `none` for a `NULL` map, whose `blocks` cannot be read. -/
def avro_map_encode (dest : List Byte) (map : List maxavro_map_t) :
    Option (List Byte × Nat) :=
  match map with
  | [] => none
  | m :: _ =>
    match maxavro_encode_integer dest m.blocks with
    | none => none
    | some (dest, len) =>
      match map_encode_loop map dest len with
      | none => none
      | some (dest, len) =>
        match maxavro_encode_integer dest 0 with
        | none => none
        | some (dest, n) => some (dest, (len + n) % U64)

/-! ## The replication event handler (`avro_rbr.c`): table-map events -/

/-- Modelled from the spec: the headers `avrorouter.h` and `mysql_binlog.h` are
missing; the constants `avro_rbr.c` names are the fields, taken as parameters.
`sizeof_active_maps` is the value of `sizeof(router->active_maps)` and
`PATH_MAX` the bound of the file path buffer. -/
structure constants where
  WRITE_ROWS_EVENTv0 : Nat
  WRITE_ROWS_EVENTv1 : Nat
  WRITE_ROWS_EVENTv2 : Nat
  UPDATE_ROWS_EVENTv0 : Nat
  UPDATE_ROWS_EVENTv1 : Nat
  UPDATE_ROWS_EVENTv2 : Nat
  DELETE_ROWS_EVENTv0 : Nat
  DELETE_ROWS_EVENTv1 : Nat
  DELETE_ROWS_EVENTv2 : Nat
  TABLE_DUMMY_ID : Nat
  ROW_EVENT_END_STATEMENT : Nat
  BINLOG_EVENT_HDR_LEN : Nat
  sizeof_active_maps : Nat
  sizeof_table_ident : Nat
  PATH_MAX : Nat
  TABLE_COL_TYPE_DECIMAL : Nat
  TABLE_COL_TYPE_TINY : Nat
  TABLE_COL_TYPE_SHORT : Nat
  TABLE_COL_TYPE_LONG : Nat
  TABLE_COL_TYPE_FLOAT : Nat
  TABLE_COL_TYPE_DOUBLE : Nat
  TABLE_COL_TYPE_LONGLONG : Nat
  TABLE_COL_TYPE_INT24 : Nat
  TABLE_COL_TYPE_VARCHAR : Nat
  TABLE_COL_TYPE_BIT : Nat
  TABLE_COL_TYPE_TIMESTAMP2 : Nat
  TABLE_COL_TYPE_DATETIME2 : Nat
  TABLE_COL_TYPE_TIME2 : Nat
  TABLE_COL_TYPE_NEWDECIMAL : Nat
  TABLE_COL_TYPE_ENUM : Nat
  TABLE_COL_TYPE_SET : Nat
  TABLE_COL_TYPE_BLOB : Nat
  TABLE_COL_TYPE_VAR_STRING : Nat
  TABLE_COL_TYPE_STRING : Nat
  deriving DecidableEq, Repr

/-- Modelled from the spec: the header with `REP_HEADER` is missing; these are
the fields `avro_rbr.c` reads. -/
structure REP_HEADER where
  event_type : Nat
  event_size : Nat
  timestamp : Nat
  deriving DecidableEq, Repr

/-- Modelled from the spec: the header with `TABLE_CREATE` is missing; these are
the fields `avro_rbr.c` reads of a create definition. -/
structure TABLE_CREATE where
  columns : Nat
  column_names : List String
  version : Nat
  deriving DecidableEq, Repr

/-- Modelled from the spec: the header with `TABLE_MAP` is missing; these are
the fields `avro_rbr.c` reads of a mapping. `table_create` is `none` for a
null pointer. -/
structure TABLE_MAP where
  id : Nat
  version : Nat
  columns : Nat
  column_types : List Byte
  column_metadata : List Byte
  column_metadata_size : Nat
  database : String
  table : String
  table_create : Option TABLE_CREATE
  deriving DecidableEq, Repr

/-- A value stored in a field of an Avro record by one of the `avro_value_set_*`
calls; `float` holds the integer that the code converts to a floating value. -/
inductive avro_value where
  | null
  | int (i : Int)
  | float (i : Int)
  | string (s : List Byte)
  | bytes (b : List Byte)
  deriving DecidableEq, Repr

/-- The record `avro_rbr.c` fills: the six fields `prepare_record` sets, `none`
until set, and the column fields by name. -/
structure avro_record where
  domain : Option Nat
  server_id : Option Nat
  sequence : Option Nat
  event_number : Option Nat
  timestamp : Option Nat
  event_type : Option Int
  columns : List (String × avro_value)
  deriving DecidableEq, Repr

/-- Modelled from the spec: the header with `AVRO_TABLE` is missing; an output
handle is the path and schema it was opened with and the records appended to
its file so far. -/
structure AVRO_TABLE where
  filepath : String
  json_schema : String
  records : List avro_record
  deriving DecidableEq, Repr

/-- Modelled from the spec: the header with the GTID position type is missing;
the four fields `prepare_record` uses, as unbounded counters. -/
structure gtid_pos where
  domain : Nat
  server_id : Nat
  seq : Nat
  event_num : Nat
  deriving DecidableEq, Repr

/-- Modelled from the spec: the header with `AVRO_INSTANCE` is missing; these
are the fields `avro_rbr.c` uses. A hashtable is a list of key/value entries,
and `active_maps` lists the non-null slots by index; a mapping held both in
`table_maps` and in a slot of `active_maps` is one object, kept equal in both. -/
structure AVRO_INSTANCE where
  event_type_hdr_lens : List Nat
  created_tables : List (String × TABLE_CREATE)
  table_maps : List (String × TABLE_MAP)
  open_tables : List (String × AVRO_TABLE)
  active_maps : List (Nat × TABLE_MAP)
  avrodir : String
  gtid : gtid_pos
  deriving DecidableEq, Repr

/-- What the handler does to the outside: log entries (with the format string),
notifications to the clients, the schema files saved, the output files the
handler tried to open and the tables marked as used. -/
inductive effect where
  | MXS_ERROR (format : String)
  | MXS_WARNING (format : String)
  | MXS_DEBUG (format : String)
  | notify_all_clients
  | save_avro_schema (avrodir json_schema : String) (map : TABLE_MAP)
  | avro_table_alloc (filepath json_schema : String)
  | add_used_table (table : String)
  deriving DecidableEq, Repr

/-- The process state `avro_rbr.c` works on: the router instance, the three
static warning flags and the effects so far, oldest first. -/
structure avro_state where
  router : AVRO_INSTANCE
  warn_decimal : Bool
  warn_bit : Bool
  warn_large_enumset : Bool
  effects : List effect
  deriving DecidableEq, Repr

/-- Modelled from the spec: `hashtable.c` is missing; `hashtable_fetch` returns
the value stored under the key, `none` for `NULL`. -/
def hashtable_fetch {α : Type} (table : List (String × α)) (key : String) : Option α :=
  (table.find? (fun e => e.1 == key)).map (fun e => e.2)

/-- Modelled from the spec: `hashtable.c` is missing; `hashtable_delete` removes
the entry of the key, if any. -/
def hashtable_delete {α : Type} (table : List (String × α)) (key : String) :
    List (String × α) :=
  table.filter (fun e => !(e.1 == key))

/-- Modelled from the spec: `hashtable.c` is missing; `hashtable_add` stores the
value under the key unless the key is present. -/
def hashtable_add {α : Type} (table : List (String × α)) (key : String) (value : α) :
    List (String × α) :=
  if (hashtable_fetch table key).isSome then table else (key, value) :: table

/-- The read `router->active_maps[i]`. -/
def active_maps_get (slots : List (Nat × TABLE_MAP)) (i : Nat) : Option TABLE_MAP :=
  (slots.find? (fun e => e.1 == i)).map (fun e => e.2)

/-- The store `router->active_maps[i] = map`, `none` being `NULL`. -/
def active_maps_set (slots : List (Nat × TABLE_MAP)) (i : Nat) (map : Option TABLE_MAP) :
    List (Nat × TABLE_MAP) :=
  match map with
  | none => slots.filter (fun e => !(e.1 == i))
  | some m => (i, m) :: slots.filter (fun e => !(e.1 == i))

/-- Modelled from the spec: the functions of this repository that `avro_rbr.c`
calls and that are missing, taken as parameters. A pointer into the event is
the buffer and an offset. `avro_table_alloc` tells whether the output file
could be opened. The `column_is_*` tests take the column type, the `unpack_*`
helpers return what they store (`struct tm` as the list of its fields) and the
number of bytes they consumed, and the `*_consume` helpers return what they
read and the pointer after it. -/
structure externals where
  read_table_info : List Byte → Nat → Nat → Nat × String
  table_map_alloc : List Byte → Nat → Nat → TABLE_CREATE → Option TABLE_MAP
  table_map_remap : List Byte → Nat → Nat → TABLE_MAP → TABLE_MAP
  json_new_schema_from_table : TABLE_MAP → Option String
  avro_table_alloc : String → String → Bool
  leint_consume : List Byte → Nat → Nat × Nat
  lestr_consume : List Byte → Nat → List Byte × Nat
  column_is_fixed_string : Nat → Bool
  column_is_bit : Nat → Bool
  column_is_decimal : Nat → Bool
  column_is_variable_string : Nat → Bool
  column_is_blob : Nat → Bool
  column_is_temporal : Nat → Bool
  fixed_string_is_enum : Nat → Bool
  unpack_enum : List Byte → Nat → List Byte → List Byte × Nat
  unpack_temporal_value : Nat → List Byte → Nat → List Byte → List Int × Nat
  format_temporal_value : Nat → List Int → List Byte
  unpack_numeric_field : List Byte → Nat → Nat → List Byte → List Byte × Nat

/-- The decimal digits of `n`, padded with zeros on the left to `width`. -/
def decimal_padded (width n : Nat) : String :=
  let digits := toString n
  String.mk (List.replicate (width - digits.length) '0') ++ digits

/-- The call `snprintf(filepath, sizeof(filepath), "%s/%s.%06d.avro", avrodir,
table_ident, version)` with `sizeof(filepath) = PATH_MAX + 1`. -/
def avro_filepath (K : constants) (avrodir table_ident : String) (version : Nat) : String :=
  String.mk ((avrodir ++ "/" ++ table_ident ++ "." ++ decimal_padded 6 version
    ++ ".avro").toList.take K.PATH_MAX)

/-- The change a function makes through a pointer to the object stored under
the key: the first entry of the key holds the changed object. -/
def hashtable_replace {α : Type} (table : List (String × α)) (key : String) (value : α) :
    List (String × α) :=
  match table with
  | [] => []
  | e :: rest =>
    if e.1 == key then (e.1, value) :: rest else e :: hashtable_replace rest key value

/-- The branch of `handle_table_map_event` taken when
`old == NULL || old->version != create->version`. -/
def table_map_new_version (K : constants) (X : externals) (s : avro_state)
    (buf : List Byte) (ptr ev_len : Nat) (table_ident : String) (create : TABLE_CREATE)
    (old : Option TABLE_MAP) : Bool × avro_state :=
  let router := s.router
  match X.table_map_alloc buf ptr ev_len create with
  | some map =>
    match X.json_new_schema_from_table map with
    | some json_schema =>
      let filepath := avro_filepath K router.avrodir table_ident map.version
      let open_tables := hashtable_delete router.open_tables table_ident
      let effects := s.effects ++ [effect.avro_table_alloc filepath json_schema]
      if X.avro_table_alloc filepath json_schema then
        let avro_table : AVRO_TABLE :=
          { filepath := filepath, json_schema := json_schema, records := [] }
        let notify := old.isSome
        let active_maps :=
          match old with
          | some o => active_maps_set router.active_maps (o.id % K.sizeof_active_maps) none
          | none => router.active_maps
        let table_maps := hashtable_delete router.table_maps table_ident
        let table_maps := hashtable_add table_maps table_ident map
        let open_tables := hashtable_add open_tables table_ident avro_table
        let effects := effects ++ [effect.save_avro_schema router.avrodir json_schema map]
        let active_maps :=
          active_maps_set active_maps (map.id % K.sizeof_active_maps) (some map)
        let effects := effects ++ [effect.MXS_DEBUG "Table %s mapped to %lu"]
        let effects := if notify then effects ++ [effect.notify_all_clients] else effects
        (true, { s with
          router := { router with
            table_maps := table_maps, open_tables := open_tables,
            active_maps := active_maps },
          effects := effects })
      else
        (false, { s with
          router := { router with open_tables := open_tables },
          effects := effects ++
            [effect.MXS_ERROR "Failed to open new Avro file for writing."] })
    | none =>
      (false, { s with
        effects := s.effects ++ [effect.MXS_ERROR "Failed to create JSON schema."] })
  | none =>
    (false, { s with
      effects := s.effects ++ [effect.MXS_ERROR "Failed to allocate new table map."] })

/-- The branch of `handle_table_map_event` taken when the mapping `old` has the
version of the create definition. -/
def table_map_same_version (K : constants) (X : externals) (s : avro_state)
    (buf : List Byte) (ptr ev_len : Nat) (table_ident : String) (old : TABLE_MAP) :
    Bool × avro_state :=
  let router := s.router
  let active_maps := active_maps_set router.active_maps (old.id % K.sizeof_active_maps) none
  let old := X.table_map_remap buf ptr ev_len old
  let table_maps := hashtable_replace router.table_maps table_ident old
  let active_maps := active_maps_set active_maps (old.id % K.sizeof_active_maps) (some old)
  (true, { s with
    router := { router with table_maps := table_maps, active_maps := active_maps },
    effects := s.effects ++ [effect.MXS_DEBUG "Table %s re-mapped to %lu"] })

/-- The part of `handle_table_map_event` after the call of `read_table_info`,
which gave `table_ident`; `ev_len` is the post-header length of the event type. -/
def table_map_dispatch (K : constants) (X : externals) (s : avro_state)
    (buf : List Byte) (ptr ev_len : Nat) (table_ident : String) : Bool × avro_state :=
  match hashtable_fetch s.router.created_tables table_ident with
  | some create =>
    match hashtable_fetch s.router.table_maps table_ident with
    | none => table_map_new_version K X s buf ptr ev_len table_ident create none
    | some old =>
      if old.version ≠ create.version then
        table_map_new_version K X s buf ptr ev_len table_ident create (some old)
      else
        table_map_same_version K X s buf ptr ev_len table_ident old
  | none =>
    (false, { s with
      effects := s.effects ++
        [effect.MXS_WARNING ("Table map event for table '%s' read before the DDL statement "
          ++ "for that table  was read. Data will not be processed for this "
          ++ "table until a DDL statement for it is read.")] })

/-- The function `handle_table_map_event(router, hdr, ptr)`, `ptr` pointing
into the event `buf`: the return value and the state after the call. -/
def handle_table_map_event (K : constants) (X : externals) (s : avro_state)
    (hdr : REP_HEADER) (buf : List Byte) (ptr : Nat) : Bool × avro_state :=
  let ev_len := s.router.event_type_hdr_lens.getD hdr.event_type 0
  let table_ident := (X.read_table_info buf ptr ev_len).2
  table_map_dispatch K X s buf ptr ev_len table_ident

/-! ## The replication event handler (`avro_rbr.c`): row events -/

/-- The constant `#define WRITE_EVENT 0`. -/
def WRITE_EVENT : Int := 0

/-- The constant `#define UPDATE_EVENT 1`. -/
def UPDATE_EVENT : Int := 1

/-- The constant `#define UPDATE_EVENT_AFTER 2`. -/
def UPDATE_EVENT_AFTER : Int := 2

/-- The constant `#define DELETE_EVENT 3`. -/
def DELETE_EVENT : Int := 3

/-- The function `get_event_type(event)`, `event` converted to `uint8_t`: the
return value and the log entry of the `default` case. -/
def get_event_type (K : constants) (event : Nat) : Int × List effect :=
  let event := event % 256
  if event = K.WRITE_ROWS_EVENTv0 ∨ event = K.WRITE_ROWS_EVENTv1
      ∨ event = K.WRITE_ROWS_EVENTv2 then
    (WRITE_EVENT, [])
  else if event = K.UPDATE_ROWS_EVENTv0 ∨ event = K.UPDATE_ROWS_EVENTv1
      ∨ event = K.UPDATE_ROWS_EVENTv2 then
    (UPDATE_EVENT, [])
  else if event = K.DELETE_ROWS_EVENTv0 ∨ event = K.DELETE_ROWS_EVENTv1
      ∨ event = K.DELETE_ROWS_EVENTv2 then
    (DELETE_EVENT, [])
  else
    (-1, [effect.MXS_ERROR "Unexpected event type: %d (%0x)"])

/-- The function `prepare_record(router, hdr, event_type, record)`: the state
and the record after the call. -/
def prepare_record (s : avro_state) (hdr : REP_HEADER) (event_type : Int)
    (record : avro_record) : avro_state × avro_record :=
  let router := s.router
  let record := { record with domain := some router.gtid.domain }
  let record := { record with server_id := some router.gtid.server_id }
  let record := { record with sequence := some router.gtid.seq }
  let router := { router with gtid := { router.gtid with event_num := router.gtid.event_num + 1 } }
  let record := { record with event_number := some router.gtid.event_num }
  let record := { record with timestamp := some hdr.timestamp }
  let record := { record with event_type := some event_type }
  ({ s with router := router }, record)

/-- The little-endian value of the `n` bytes of `mem` from offset `ptr`, as
`memcpy` into a zeroed integer gives it; bytes past the end read as 0. -/
def le_bytes (mem : List Byte) (ptr : Nat) : Nat → Nat
  | 0 => 0
  | n + 1 => (mem.getD ptr 0).val + 256 * le_bytes mem (ptr + 1) n

/-- The value of an `int64_t` holding the 64-bit pattern `x`. -/
def to_int64 (x : Nat) : Int :=
  if x % U64 < 2 ^ 63 then (x % U64 : Nat) else ((x % U64 : Nat) : Int) - (U64 : Nat)

/-- The function `set_numeric_field_value(field, type, metadata, value)`: the
value it stores in the field, `none` when it stores nothing. -/
def set_numeric_field_value (K : constants) (type : Nat) (value : List Byte) :
    Option avro_value :=
  if type = K.TABLE_COL_TYPE_TINY then
    some (avro_value.int (to_int64 (value.getD 0 0).val))
  else if type = K.TABLE_COL_TYPE_SHORT then
    some (avro_value.int (to_int64 (le_bytes value 0 2)))
  else if type = K.TABLE_COL_TYPE_INT24 then
    some (avro_value.int (to_int64 (le_bytes value 0 3)))
  else if type = K.TABLE_COL_TYPE_LONG then
    some (avro_value.int (to_int64 (le_bytes value 0 4)))
  else if type = K.TABLE_COL_TYPE_LONGLONG then
    some (avro_value.int (to_int64 (le_bytes value 0 8)))
  else if type = K.TABLE_COL_TYPE_FLOAT then
    some (avro_value.float (to_int64 (le_bytes value 0 4)))
  else if type = K.TABLE_COL_TYPE_DOUBLE then
    some (avro_value.float (to_int64 (le_bytes value 0 8)))
  else
    none

/-- The function `bit_is_set(ptr, columns, current_column)`, `ptr` pointing
into `mem`. -/
def bit_is_set (mem : List Byte) (ptr : Nat) (_columns : Nat) (current_column : Nat) : Bool :=
  let ptr := if current_column ≥ 8 then ptr + current_column / 8 else ptr
  let current_column := if current_column ≥ 8 then current_column % 8 else current_column
  ((mem.getD ptr 0).val &&& (1 <<< current_column)) ≠ 0

/-- The function `get_metadata_len(type)`. -/
def get_metadata_len (K : constants) (type : Nat) : Nat :=
  if type = K.TABLE_COL_TYPE_STRING ∨ type = K.TABLE_COL_TYPE_VAR_STRING
      ∨ type = K.TABLE_COL_TYPE_VARCHAR ∨ type = K.TABLE_COL_TYPE_DECIMAL
      ∨ type = K.TABLE_COL_TYPE_NEWDECIMAL ∨ type = K.TABLE_COL_TYPE_ENUM
      ∨ type = K.TABLE_COL_TYPE_SET ∨ type = K.TABLE_COL_TYPE_BIT then
    2
  else if type = K.TABLE_COL_TYPE_BLOB ∨ type = K.TABLE_COL_TYPE_FLOAT
      ∨ type = K.TABLE_COL_TYPE_DOUBLE ∨ type = K.TABLE_COL_TYPE_DATETIME2
      ∨ type = K.TABLE_COL_TYPE_TIMESTAMP2 ∨ type = K.TABLE_COL_TYPE_TIME2 then
    1
  else
    0

/-- The call `avro_value_get_by_name(record, name, &field, NULL)` followed by a
store of `value` into `field`; the record has a field of every name asked for. -/
def record_set (record : avro_record) (name : String) (value : avro_value) : avro_record :=
  { record with
    columns := (name, value) :: record.columns.filter (fun e => !(e.1 == name)) }

/-- The characters of the C string at the start of `chars`: those before the
first NUL. -/
def c_string (chars : List Byte) : List Byte := chars.takeWhile (fun c => c ≠ 0)

/-- The characters `snprintf` prints for `"%hhu"`. -/
def print_hhu (b : Byte) : List Byte :=
  (toString b.val).toList.map (fun c => toByte c.toNat)

/-- The table `int dig_bytes[] = {0, 1, 1, 2, 2, 3, 3, 4, 4, 4}` read at an
`int` index; `none` outside the table. -/
def dig_bytes (i : Int) : Option Int :=
  if 0 ≤ i ∧ i < 10 then ([0, 1, 1, 2, 2, 3, 3, 4, 4, 4] : List Int)[i.toNat]? else none

/-- The variables of `process_row_event_data` that change in its loop,
together with the process state. -/
structure row_state where
  s : avro_state
  record : avro_record
  ptr : Nat
  npresent : Nat
  metadata_offset : Nat
  extra_bits : Nat
  deriving DecidableEq, Repr

/-- The block of `process_row_event_data` run for column `i` when its bit in
`columns_present` is set; `name` is `create->column_names[i]` and `null_bitmap`
the offset of the null bitmap in the event `buf`. `none` when `dig_bytes` is
read outside the table. -/
def process_present_column (K : constants) (X : externals) (map : TABLE_MAP)
    (buf : List Byte) (null_bitmap i : Nat) (name : String) (st : row_state) :
    Option row_state :=
  let ncolumns := map.columns
  let type := (map.column_types.getD i 0).val
  let metadata := map.column_metadata
  let off := st.metadata_offset
  let st := { st with npresent := st.npresent + 1 }
  let done (st : row_state) : Option row_state :=
    some { st with metadata_offset := st.metadata_offset + get_metadata_len K type }
  if bit_is_set buf null_bitmap ncolumns i then
    done { st with record := record_set st.record name avro_value.null }
  else if X.column_is_fixed_string type then
    if X.fixed_string_is_enum (metadata.getD off 0).val then
      let unpacked := X.unpack_enum buf st.ptr (metadata.drop off)
      let bytes := unpacked.2
      let strval := print_hhu (unpacked.1.getD 0 0)
      let s :=
        if bytes > 1 ∧ st.s.warn_large_enumset = true then
          { st.s with
            warn_large_enumset := true,
            effects := st.s.effects ++
              [effect.MXS_WARNING "ENUM/SET values larger than 255 values aren't supported."] }
        else st.s
      done { st with
        s := s, record := record_set st.record name (avro_value.string strval),
        ptr := st.ptr + bytes }
    else
      let bytes := (buf.getD st.ptr 0).val
      let str := (buf.drop (st.ptr + 1)).take bytes
      done { st with
        record := record_set st.record name (avro_value.string (c_string str)),
        ptr := st.ptr + (bytes + 1) }
  else if X.column_is_bit type then
    let width := (metadata.getD off 0).val + (metadata.getD (off + 1) 0).val * 8
    let bits_in_nullmap := min width st.extra_bits
    let extra_bits := st.extra_bits - bits_in_nullmap
    let width := width - bits_in_nullmap
    let bytes := width / 8
    let s :=
      if st.s.warn_bit = false then
        { st.s with
          warn_bit := true,
          effects := st.s.effects ++
            [effect.MXS_WARNING "BIT is not currently supported, values are stored as 0."] }
      else st.s
    done { st with
      s := s, extra_bits := extra_bits,
      record := record_set st.record name (avro_value.int 0), ptr := st.ptr + bytes }
  else if X.column_is_decimal type then
    let dec_dig : Int := 9
    let precision : Int := (metadata.getD off 0).val
    let decimals : Int := (metadata.getD (off + 1) 0).val
    let ipart := precision - decimals
    let ipart1 := Int.tdiv ipart dec_dig
    let fpart1 := Int.tdiv decimals dec_dig
    let ipart2 := ipart - ipart1 * dec_dig
    let fpart2 := decimals - fpart1 * dec_dig
    match dig_bytes ipart2, dig_bytes fpart2 with
    | some d1, some d2 =>
      let ibytes := ipart1 * 4 + d1
      let fbytes := fpart1 * 4 + d2
      let ptr := ((st.ptr : Int) + (ibytes + fbytes)).toNat
      let s :=
        if st.s.warn_decimal = false then
          { st.s with
            warn_decimal := true,
            effects := st.s.effects ++
              [effect.MXS_WARNING
                "DECIMAL is not currently supported, values are stored as 0."] }
        else st.s
      done { st with
        s := s, ptr := ptr, record := record_set st.record name (avro_value.int 0) }
    | _, _ => none
  else if X.column_is_variable_string type then
    let consumed := X.lestr_consume buf st.ptr
    done { st with
      record := record_set st.record name (avro_value.string (c_string consumed.1)),
      ptr := consumed.2 }
  else if X.column_is_blob type then
    let bytes := (metadata.getD off 0).val
    let len := le_bytes buf st.ptr bytes % U64
    let ptr := st.ptr + bytes
    done { st with
      record := record_set st.record name (avro_value.bytes ((buf.drop ptr).take len)),
      ptr := ptr + len }
  else if X.column_is_temporal type then
    let unpacked := X.unpack_temporal_value type buf st.ptr (metadata.drop off)
    let str := X.format_temporal_value type unpacked.1
    done { st with
      record := record_set st.record name (avro_value.string (c_string str)),
      ptr := st.ptr + unpacked.2 }
  else
    let unpacked := X.unpack_numeric_field buf st.ptr type (metadata.drop off)
    let record :=
      match set_numeric_field_value K type unpacked.1 with
      | some v => record_set st.record name v
      | none => st.record
    done { st with record := record, ptr := st.ptr + unpacked.2 }

/-- The `for (long i = 0; i < map->columns && npresent < ncolumns; i++)` loop of
`process_row_event_data`, given the number of columns from `i` on. `none` when
`create->column_names[i]` is read past the names of the create definition. -/
def row_columns_loop (K : constants) (X : externals) (map : TABLE_MAP) (create : TABLE_CREATE)
    (buf : List Byte) (columns_present : List Byte) (null_bitmap : Nat) :
    Nat → Nat → row_state → Option row_state
  | 0, _, st => some st
  | n + 1, i, st =>
    if st.npresent < map.columns then
      match create.column_names[i]? with
      | none => none
      | some name =>
        if bit_is_set columns_present 0 map.columns i then
          match process_present_column K X map buf null_bitmap i name st with
          | none => none
          | some st => row_columns_loop K X map create buf columns_present null_bitmap n (i + 1) st
        else
          row_columns_loop K X map create buf columns_present null_bitmap n (i + 1) st
    else
      some st

/-- The function `process_row_event_data(map, create, record, ptr,
columns_present)`, `ptr` pointing into the event `buf`: the state, the record
and the returned pointer. -/
def process_row_event_data (K : constants) (X : externals) (s : avro_state) (map : TABLE_MAP)
    (create : TABLE_CREATE) (record : avro_record) (buf : List Byte) (ptr : Nat)
    (columns_present : List Byte) : Option (avro_state × avro_record × Nat) :=
  let ncolumns := map.columns
  let extra_bits := ((ncolumns + 7) / 8) * 8 - ncolumns
  let null_bitmap := ptr
  let ptr := ptr + (ncolumns + 7) / 8
  match row_columns_loop K X map create buf columns_present null_bitmap map.columns 0
      { s := s, record := record, ptr := ptr, npresent := 0, metadata_offset := 0,
        extra_bits := extra_bits } with
  | none => none
  | some st => some (st.s, st.record, st.ptr)

/-- The variables of `handle_row_event` that change in its row loop: the
process state, the record, the pointer and the records appended to the file of
the table, oldest first. -/
structure rows_state where
  s : avro_state
  record : avro_record
  ptr : Nat
  appended : List avro_record
  deriving DecidableEq, Repr

/-- The body of the row loop of `handle_row_event`: one row, with its second
image when the event is an update. `none` when `process_row_event_data` reads
outside a table. -/
def row_event_body (K : constants) (X : externals) (hdr : REP_HEADER) (map : TABLE_MAP)
    (create : TABLE_CREATE) (buf : List Byte) (col_present : List Byte) (st : rows_state) :
    Option rows_state :=
  let event_type := (get_event_type K hdr.event_type).1
  let s := { st.s with effects := st.s.effects ++ (get_event_type K hdr.event_type).2 }
  let prepared := prepare_record s hdr event_type st.record
  match process_row_event_data K X prepared.1 map create prepared.2 buf st.ptr col_present with
  | none => none
  | some (s, record, ptr) =>
    let appended := st.appended ++ [record]
    if event_type = UPDATE_EVENT then
      let prepared := prepare_record s hdr UPDATE_EVENT_AFTER record
      match process_row_event_data K X prepared.1 map create prepared.2 buf ptr col_present with
      | none => none
      | some (s, record, ptr) =>
        some { s := s, record := record, ptr := ptr, appended := appended ++ [record] }
    else
      some { s := s, record := record, ptr := ptr, appended := appended }

/-- The value of `hdr->event_size - BINLOG_EVENT_HDR_LEN`: `event_size` is a
`uint32_t`, so the subtraction is done in unsigned arithmetic of 32 bits and
wraps around when the declared size is below the length of the header. -/
def row_event_limit (K : constants) (hdr : REP_HEADER) : Int :=
  ((hdr.event_size : Int) - (K.BINLOG_EVENT_HDR_LEN : Int)) % 2 ^ 32

/-- The loop `while (ptr - start < hdr->event_size - BINLOG_EVENT_HDR_LEN)` of
`handle_row_event`, `start` being the offset of the event in `buf`; the
difference of the pointers is signed, of 64 bits, and the unsigned limit is
converted to it. `none` when the iteration budget runs out or the body gives
`none`. -/
def row_event_loop (K : constants) (X : externals) (hdr : REP_HEADER) (map : TABLE_MAP)
    (create : TABLE_CREATE) (buf : List Byte) (col_present : List Byte) (start : Nat) :
    Nat → rows_state → Option rows_state
  | 0, _ => none
  | fuel + 1, st =>
    if (st.ptr : Int) - (start : Int) < row_event_limit K hdr then
      match row_event_body K X hdr map create buf col_present st with
      | none => none
      | some st => row_event_loop K X hdr map create buf col_present start fuel st
    else
      some st

/-- The record `avro_generic_value_new` creates: no field is set. -/
def new_record : avro_record :=
  { domain := none, server_id := none, sequence := none, event_number := none,
    timestamp := none, event_type := none, columns := [] }

/-- The call `snprintf(table_ident, sizeof(table_ident), "%s.%s", database,
table)`. -/
def table_ident_of (K : constants) (map : TABLE_MAP) : String :=
  String.mk ((map.database ++ "." ++ map.table).toList.take (K.sizeof_table_ident - 1))

/-- The pointer of `handle_row_event` after the table id, flags, extra data,
column count and column bitmaps, together with the table id, the flags, the
column count and the bitmap of the columns present. The column count is a
`uint64_t` and `coldata_size` is `(ncolumns + 7) / 8`, computed in 64 bits and
stored in an `int`. A negative size, with which the declaration of the arrays
is undefined in C, leaves the arrays empty and moves the pointer back, as far
as the start of `buf`. -/
def row_event_header (K : constants) (X : externals) (router : AVRO_INSTANCE)
    (hdr : REP_HEADER) (buf : List Byte) (ptr : Nat) : Nat × Nat × Nat × List Byte × Nat :=
  let table_id_size := if router.event_type_hdr_lens.getD hdr.event_type 0 = 6 then 4 else 6
  let table_id := le_bytes buf ptr table_id_size
  let ptr := ptr + table_id_size
  let flags := le_bytes buf ptr 2
  let ptr := ptr + 2
  let ptr :=
    if hdr.event_type > K.DELETE_ROWS_EVENTv1 then
      ptr + (2 + le_bytes buf ptr 2)
    else ptr
  let ncolumns := (X.leint_consume buf ptr).1 % U64
  let ptr := (X.leint_consume buf ptr).2
  let coldata_size := to_int (((ncolumns + 7) % U64) / 8)
  let col_present := (buf.drop ptr).take coldata_size.toNat
  let ptr := ((ptr : Int) + coldata_size).toNat
  let ptr :=
    if hdr.event_type = K.UPDATE_ROWS_EVENTv1 ∨ hdr.event_type = K.UPDATE_ROWS_EVENTv2 then
      ((ptr : Int) + coldata_size).toNat
    else ptr
  (table_id, flags, ncolumns, col_present, ptr)

/-- The function `handle_row_event(router, hdr, ptr)`, `ptr` pointing into the
event `buf`, with an iteration budget for the row loop: the return value and
the state after the call. -/
def handle_row_event (K : constants) (X : externals) (fuel : Nat) (s : avro_state)
    (hdr : REP_HEADER) (buf : List Byte) (ptr : Nat) : Option (Bool × avro_state) :=
  let router := s.router
  let start := ptr
  let table_id_size := if router.event_type_hdr_lens.getD hdr.event_type 0 = 6 then 4 else 6
  let table_id := le_bytes buf ptr table_id_size
  let flags := le_bytes buf (ptr + table_id_size) 2
  if table_id = K.TABLE_DUMMY_ID ∧ flags &&& K.ROW_EVENT_END_STATEMENT ≠ 0 then
    some (true, s)
  else
    let parsed := row_event_header K X router hdr buf ptr
    let ncolumns := parsed.2.2.1
    let col_present := parsed.2.2.2.1
    let ptr := parsed.2.2.2.2
    match active_maps_get router.active_maps (table_id % K.sizeof_active_maps) with
    | some map =>
      let table_ident := table_ident_of K map
      let table := hashtable_fetch router.open_tables table_ident
      let create := map.table_create
      match table, create with
      | some table, some create =>
        if ncolumns = map.columns then
          match row_event_loop K X hdr map create buf col_present start fuel
              { s := s, record := new_record, ptr := ptr, appended := [] } with
          | none => none
          | some st =>
            let table := { table with records := table.records ++ st.appended }
            some (true, { st.s with
              router := { st.s.router with
                open_tables := hashtable_replace st.s.router.open_tables table_ident table },
              effects := st.s.effects ++ [effect.add_used_table table_ident] })
        else
          some (false, { s with
            effects := s.effects ++
              [effect.MXS_ERROR ("Row event and table map event have different column counts."
                ++ " Only full row image is currently supported.")] })
      | none, _ =>
        some (false, { s with
          effects := s.effects ++
            [effect.MXS_ERROR ("Avro file handle was not found for table %s.%s. See earlier"
              ++ " errors for more details.")] })
      | some _, none =>
        some (false, { s with
          effects := s.effects ++
            [effect.MXS_ERROR ("Create table statement for %s.%s was not found from the "
              ++ "binary logs or the stored schema was not correct.")] })
    | none =>
      some (false, { s with
        effects := s.effects ++
          [effect.MXS_ERROR ("Row event for unknown table mapped to ID %lu. Data will not "
            ++ "be processed.")] })

/-! ## The IP address check of the firewall filter (`fwfilter.c`) -/

/-- Modelled from the spec: the C library function `isdigit` on a character of
the string: true for the ten decimal digits. -/
def isdigit (c : Byte) : Bool := decide (48 ≤ c.val ∧ c.val ≤ 57)

/-- The decimal value of a string of decimal digits, most significant first. -/
def decimal_value (digits : List Byte) : Nat :=
  digits.foldl (fun acc c => 10 * acc + (c.val - 48)) 0

/-- Modelled from the spec: the C library function `atoi` on a C string that
holds decimal digits only, as every string `valid_ip` passes does: the decimal
value, 0 for the empty string; `none` when the value does not fit an `int`,
where the behaviour of `atoi` is undefined. -/
def atoi (cmpbuff : List Byte) : Option Int :=
  if decimal_value cmpbuff < 2 ^ 31 then some (decimal_value cmpbuff : Int) else none

/-- The `while (source < end && (int)(dest - cmpbuff) < 32 && valid)` loop of
`valid_ip`: the characters from `source` up to `end`, which is the terminating
NUL of the string, the characters copied to `cmpbuff` since `dest` was reset,
and `valid`. The result is the return value, `none` where `atoi` is
undefined. -/
def valid_ip_loop : List Byte → List Byte → Bool → Option Bool
  | [], _, valid => some valid
  | c :: source, cmpbuff, valid =>
    if cmpbuff.length < 32 ∧ valid = true then
      if c.val = 46 ∨ c.val = 47 ∨ c.val = 32 ∨ c.val = 0 then
        match atoi cmpbuff with
        | none => none
        | some octval =>
          let valid := decide (octval < 256 ∧ octval > -1)
          if c.val = 47 ∨ c.val = 0 ∨ c.val = 32 then
            some valid
          else
            valid_ip_loop source [] valid
      else if isdigit c then
        valid_ip_loop source (cmpbuff ++ [c]) valid
      else
        some false
    else
      some valid

/-- The function `valid_ip(str)`: `str` holds the bytes of the buffer, and the
string ends at its first NUL, where `strchr(str, 0)` points. -/
def valid_ip (str : List Byte) : Option Bool :=
  valid_ip_loop (str.takeWhile (fun c => c ≠ 0)) [] true

/-! ## The random number generator (`random_jkiss.c`) -/

/-- The four seed variables `x`, `y`, `z`, `c` of `random_jkiss.c`, each an
`unsigned int` of 32 bits, and the flag `init`. -/
structure jkiss_state where
  x : Nat
  y : Nat
  z : Nat
  c : Nat
  init : Bool
  deriving DecidableEq, Repr

/-- The values the seed variables are declared with. -/
def jkiss_initial : jkiss_state :=
  { x := 123456789, y := 987654321, z := 43219876, c := 6543217, init := false }

/-- The conversion of an `int` to `unsigned int` of 32 bits. -/
def to_unsigned (i : Int) : Nat := (i % 2 ^ 32).toNat

/-- The part of `random_jkiss` after the initialisation: one step of the
generator, the returned number and the state. -/
def random_jkiss_step (st : jkiss_state) : Nat × jkiss_state :=
  let x := (314527869 * st.x + 1234567) % 2 ^ 32
  let y := st.y ^^^ ((st.y <<< 5) % 2 ^ 32)
  let y := y ^^^ (y >>> 7)
  let y := y ^^^ ((y <<< 22) % 2 ^ 32)
  let t := (4294584393 * st.z + st.c) % 2 ^ 64
  let c := (t >>> 32) % 2 ^ 32
  let z := t % 2 ^ 32
  ((x + y + z) % 2 ^ 32, { st with x := x, y := y, z := z, c := c })

/-- The section of `random_init_jkiss` between `spinlock_acquire` and
`spinlock_release`: the four seed variables are set from the four values that
`random_jkiss_devrand` returns, a value of 0 leaving the variable as it is. -/
def random_init_jkiss_seed (devrand : Nat → Nat) (st : jkiss_state) : jkiss_state :=
  let newrand := to_int (devrand 0)
  let st := if newrand ≠ 0 then { st with x := to_unsigned newrand } else st
  let newrand := to_int (devrand 1)
  let st := if newrand ≠ 0 then { st with y := to_unsigned newrand } else st
  let newrand := to_int (devrand 2)
  let st := if newrand ≠ 0 then { st with z := to_unsigned newrand } else st
  let newrand := to_int (devrand 3)
  if newrand ≠ 0 then
    { st with c := to_unsigned (Int.tmod newrand 698769068 + 1) }
  else st

/-- The warm-up loop `for (i = 0; i < 100; i++) random_jkiss();` of
`random_init_jkiss`, `init` being true while it runs. -/
def random_jkiss_warm_up : Nat → jkiss_state → jkiss_state
  | 0, st => st
  | n + 1, st => random_jkiss_warm_up n (random_jkiss_step st).2

/-- The function `random_init_jkiss()`, given the values that the four calls of
`random_jkiss_devrand` return. -/
def random_init_jkiss (devrand : Nat → Nat) (st : jkiss_state) : jkiss_state :=
  random_jkiss_warm_up 100 (random_init_jkiss_seed devrand st)

/-- The function `random_jkiss()`: the returned number and the state. -/
def random_jkiss (devrand : Nat → Nat) (st : jkiss_state) : Nat × jkiss_state :=
  let st := if st.init = false then random_init_jkiss devrand { st with init := true } else st
  random_jkiss_step st

/-! ## Reference notions used to state the properties -/

/-- The number whose base-128 digits, least significant first and starting at
digit position `i`, are the low seven bits of the given bytes. -/
def varint_sum : List Byte → Nat → Nat
  | [], _ => 0
  | b :: bs, i => ((b.val &&& 0x7f) <<< (7 * i)) + varint_sum bs (i + 1)

/-- A byte whose continuation bit `0x80` is set. -/
def continues (b : Byte) : Prop := more_bytes b.val ≠ 0

instance (b : Byte) : Decidable (continues b) :=
  inferInstanceAs (Decidable (more_bytes b.val ≠ 0))

/-- A terminated varint: a non-empty byte sequence in which every byte but the
last has the continuation bit set and the last has it clear. -/
def is_varint : List Byte → Prop
  | [] => False
  | [b] => ¬ continues b
  | b :: c :: cs => continues b ∧ is_varint (c :: cs)

instance is_varint_decidable : (bs : List Byte) → Decidable (is_varint bs)
  | [] => inferInstanceAs (Decidable False)
  | [b] => inferInstanceAs (Decidable (¬ continues b))
  | b :: c :: cs =>
    have := is_varint_decidable (c :: cs)
    inferInstanceAs (Decidable (continues b ∧ is_varint (c :: cs)))

/-- The stream `stream` moved forward by `n` bytes. -/
def advance (file : maxavro_file_t) (n : Nat) : maxavro_file_t :=
  { file with file := { file.file with pos := file.file.pos + n } }

/-- The bytes of the stream from its position on. -/
def remaining (file : maxavro_file_t) : List Byte :=
  file.file.data.drop file.file.pos

/-- The next `MAX_INTEGER_SIZE` bytes of the stream exist and all have the
continuation bit set. -/
def unterminated (file : maxavro_file_t) : Prop :=
  MAX_INTEGER_SIZE ≤ (remaining file).length ∧
    ∀ c ∈ (remaining file).take MAX_INTEGER_SIZE, continues c

instance (file : maxavro_file_t) : Decidable (unterminated file) :=
  inferInstanceAs (Decidable (MAX_INTEGER_SIZE ≤ (remaining file).length ∧
    ∀ c ∈ (remaining file).take MAX_INTEGER_SIZE, continues c))

/-- The bytes `maxavro_encode_integer` stores for `val` in a fresh buffer of
`MAX_INTEGER_SIZE` bytes: the first `n` bytes, `n` being its return value. -/
def encoded_integer (val : Nat) : Option (List Byte) :=
  (maxavro_encode_integer (List.replicate MAX_INTEGER_SIZE 0) val).map
    (fun r => r.1.take r.2)

/-- A stream positioned at the start of the given bytes, with no error recorded. -/
def source_of (bytes : List Byte) : maxavro_file_t :=
  { file := { data := bytes, pos := 0 }, last_error := MAXAVRO_ERR_NONE }

/-- A string on the wire: the bytes of its length and its characters. -/
structure wire_string where
  len_bytes : List Byte
  payload : List Byte
  deriving DecidableEq, Repr

/-- The length bytes are a terminated varint of at most `MAX_INTEGER_SIZE`
bytes whose decoded value is the number of characters, a non-negative
`int64_t`. -/
def wire_string.ok (w : wire_string) : Prop :=
  is_varint w.len_bytes ∧ w.len_bytes.length ≤ MAX_INTEGER_SIZE ∧
    avro_decode (varint_sum w.len_bytes 0 % U64) = w.payload.length ∧
    w.payload.length < 2 ^ 63

instance (w : wire_string) : Decidable w.ok :=
  inferInstanceAs (Decidable (is_varint w.len_bytes ∧ w.len_bytes.length ≤ MAX_INTEGER_SIZE ∧
    avro_decode (varint_sum w.len_bytes 0 % U64) = w.payload.length ∧
    w.payload.length < 2 ^ 63))

/-- The bytes of a string on the wire. -/
def wire_string.bytes (w : wire_string) : List Byte := w.len_bytes ++ w.payload

/-- A block of a map on the wire: the bytes of its count and its key/value pairs. -/
structure wire_block where
  count_bytes : List Byte
  pairs : List (wire_string × wire_string)
  deriving DecidableEq, Repr

/-- The bytes of the pairs of a block. -/
def pairs_bytes (ps : List (wire_string × wire_string)) : List Byte :=
  (ps.map (fun p => p.1.bytes ++ p.2.bytes)).flatten

/-- The count bytes are a terminated varint whose decoded value is the number
of pairs, which is positive, and every key and value is a string on the wire. -/
def wire_block.ok (b : wire_block) : Prop :=
  is_varint b.count_bytes ∧ b.count_bytes.length ≤ MAX_INTEGER_SIZE ∧
    avro_decode (varint_sum b.count_bytes 0 % U64) = b.pairs.length ∧
    0 < b.pairs.length ∧ ∀ p ∈ b.pairs, p.1.ok ∧ p.2.ok

instance (b : wire_block) : Decidable b.ok :=
  inferInstanceAs (Decidable (is_varint b.count_bytes ∧
    b.count_bytes.length ≤ MAX_INTEGER_SIZE ∧
    avro_decode (varint_sum b.count_bytes 0 % U64) = b.pairs.length ∧
    0 < b.pairs.length ∧ ∀ p ∈ b.pairs, p.1.ok ∧ p.2.ok))

/-- The bytes of a block on the wire. -/
def wire_block.bytes (b : wire_block) : List Byte := b.count_bytes ++ pairs_bytes b.pairs

/-- A map on the wire: its blocks and the bytes of the final zero count. -/
structure wire_map where
  blocks : List wire_block
  terminator : List Byte
  deriving DecidableEq, Repr

/-- Every block is well formed and the terminator is a varint decoding to 0. -/
def wire_map.ok (w : wire_map) : Prop :=
  (∀ b ∈ w.blocks, b.ok) ∧ is_varint w.terminator ∧
    w.terminator.length ≤ MAX_INTEGER_SIZE ∧
    avro_decode (varint_sum w.terminator 0 % U64) = 0

instance (w : wire_map) : Decidable w.ok :=
  inferInstanceAs (Decidable ((∀ b ∈ w.blocks, b.ok) ∧ is_varint w.terminator ∧
    w.terminator.length ≤ MAX_INTEGER_SIZE ∧
    avro_decode (varint_sum w.terminator 0 % U64) = 0))

/-- The bytes of the blocks of a map. -/
def blocks_bytes (bs : List wire_block) : List Byte := (bs.map wire_block.bytes).flatten

/-- The bytes of a map on the wire. -/
def wire_map.bytes (w : wire_map) : List Byte := blocks_bytes w.blocks ++ w.terminator

/-- The node `maxavro_map_read` builds for a pair: the two buffers with their
terminators, in a zeroed node. -/
def node_of (p : wire_string × wire_string) : maxavro_map_t :=
  { key := p.1.payload ++ [0], value := p.2.payload ++ [0], blocks := 0 }

/-- The nodes of the pairs of the given blocks, in wire order. -/
def nodes_of (bs : List wire_block) : List maxavro_map_t :=
  (bs.map (fun b => b.pairs.map node_of)).flatten

/-- The number of calls of `notify_all_clients` among the effects. -/
def notifications (effects : List effect) : Nat :=
  effects.count effect.notify_all_clients

/-- The post-header length `handle_table_map_event` looks up for the event. -/
def event_hdr_len (s : avro_state) (hdr : REP_HEADER) : Nat :=
  s.router.event_type_hdr_lens.getD hdr.event_type 0

/-- The table identity `handle_table_map_event` reads from the event. -/
def event_table_ident (X : externals) (s : avro_state) (hdr : REP_HEADER) (buf : List Byte)
    (ptr : Nat) : String :=
  (X.read_table_info buf ptr (event_hdr_len s hdr)).2

/-- A create definition exists for the table identity, a prior mapping of that
identity exists with another version, and the new mapping, its schema and its
output handle are set up successfully. -/
def set_up_for (K : constants) (X : externals) (s : avro_state) (buf : List Byte)
    (ptr ev_len : Nat) (table_ident : String) : Prop :=
  ∃ create old map json_schema,
    hashtable_fetch s.router.created_tables table_ident = some create ∧
    hashtable_fetch s.router.table_maps table_ident = some old ∧
    old.version ≠ create.version ∧
    X.table_map_alloc buf ptr ev_len create = some map ∧
    X.json_new_schema_from_table map = some json_schema ∧
    X.avro_table_alloc (avro_filepath K s.router.avrodir table_ident map.version)
      json_schema = true

/-- The condition `set_up_for` for the table identity of the event. -/
def schema_change_set_up (K : constants) (X : externals) (s : avro_state) (hdr : REP_HEADER)
    (buf : List Byte) (ptr : Nat) : Prop :=
  set_up_for K X s buf ptr (event_hdr_len s hdr) (event_table_ident X s hdr buf ptr)

/-- The state after the create definitions were replaced, as the handling of a
DDL statement between two events does. -/
def with_created_tables (s : avro_state) (created : List (String × TABLE_CREATE)) :
    avro_state :=
  { s with router := { s.router with created_tables := created } }

/-- A sample of the constants: the values of the MySQL replication protocol,
1024 slots of 8 bytes in `active_maps`. -/
def sample_constants : constants :=
  { WRITE_ROWS_EVENTv0 := 20, UPDATE_ROWS_EVENTv0 := 21, DELETE_ROWS_EVENTv0 := 22,
    WRITE_ROWS_EVENTv1 := 23, UPDATE_ROWS_EVENTv1 := 24, DELETE_ROWS_EVENTv1 := 25,
    WRITE_ROWS_EVENTv2 := 30, UPDATE_ROWS_EVENTv2 := 31, DELETE_ROWS_EVENTv2 := 32,
    TABLE_DUMMY_ID := 0xffffff, ROW_EVENT_END_STATEMENT := 1, BINLOG_EVENT_HDR_LEN := 19,
    sizeof_active_maps := 8192, sizeof_table_ident := 258, PATH_MAX := 4096,
    TABLE_COL_TYPE_DECIMAL := 0, TABLE_COL_TYPE_TINY := 1, TABLE_COL_TYPE_SHORT := 2,
    TABLE_COL_TYPE_LONG := 3, TABLE_COL_TYPE_FLOAT := 4, TABLE_COL_TYPE_DOUBLE := 5,
    TABLE_COL_TYPE_LONGLONG := 8, TABLE_COL_TYPE_INT24 := 9, TABLE_COL_TYPE_VARCHAR := 15,
    TABLE_COL_TYPE_BIT := 16, TABLE_COL_TYPE_TIMESTAMP2 := 17,
    TABLE_COL_TYPE_DATETIME2 := 18, TABLE_COL_TYPE_TIME2 := 19,
    TABLE_COL_TYPE_NEWDECIMAL := 246, TABLE_COL_TYPE_ENUM := 247, TABLE_COL_TYPE_SET := 248,
    TABLE_COL_TYPE_BLOB := 252, TABLE_COL_TYPE_VAR_STRING := 253,
    TABLE_COL_TYPE_STRING := 254 }

/-- The table id at the start of a sample event: 4 bytes when the post-header
length is 6 and 6 bytes otherwise. -/
def sample_table_id (buf : List Byte) (ptr len : Nat) : Nat :=
  if len = 6 then le_bytes buf ptr 4 else le_bytes buf ptr 6

/-- A sample create definition of three columns with the given version. -/
def sample_create (version : Nat) : TABLE_CREATE :=
  { columns := 3, column_names := ["a", "b", "c"], version := version }

/-- A sample mapping of the table `db.t` with the given id for the given create
definition: it takes the version and the columns of the create definition. -/
def sample_map (id : Nat) (create : TABLE_CREATE) : TABLE_MAP :=
  { id := id, version := create.version, columns := create.columns, column_types := [],
    column_metadata := [], column_metadata_size := 0, database := "db", table := "t",
    table_create := some create }

/-- The sample of `table_map_alloc`: the sample mapping with the id of the
event, always allocated. -/
def sample_table_map_alloc (buf : List Byte) (ptr len : Nat) (create : TABLE_CREATE) :
    Option TABLE_MAP :=
  some (sample_map (sample_table_id buf ptr len) create)

/-- The sample of `table_map_remap`: the mapping takes the id of the event. -/
def sample_table_map_remap (buf : List Byte) (ptr len : Nat) (map : TABLE_MAP) : TABLE_MAP :=
  { map with id := sample_table_id buf ptr len }

/-- The sample of `lestr_consume`: one length byte and that many characters. -/
def sample_lestr_consume (buf : List Byte) (ptr : Nat) : List Byte × Nat :=
  ((buf.drop (ptr + 1)).take (buf.getD ptr 0).val, ptr + 1 + (buf.getD ptr 0).val)

/-- A sample of the external helpers: every table-map event is for the table
`db.t` with the id in its first bytes, all set-up steps succeed, counts and
lengths are one byte, and no column type is of a special kind. -/
def sample_externals : externals :=
  { read_table_info := fun buf ptr len => (sample_table_id buf ptr len, "db.t"),
    table_map_alloc := sample_table_map_alloc,
    table_map_remap := sample_table_map_remap,
    json_new_schema_from_table := fun _ => some "schema",
    avro_table_alloc := fun _ _ => true,
    leint_consume := fun buf ptr => ((buf.getD ptr 0).val, ptr + 1),
    lestr_consume := sample_lestr_consume,
    column_is_fixed_string := fun _ => false,
    column_is_bit := fun _ => false,
    column_is_decimal := fun _ => false,
    column_is_variable_string := fun _ => false,
    column_is_blob := fun _ => false,
    column_is_temporal := fun _ => false,
    fixed_string_is_enum := fun _ => false,
    unpack_enum := fun _ _ _ => ([], 0),
    unpack_temporal_value := fun _ _ _ _ => ([], 0),
    format_temporal_value := fun _ _ => [],
    unpack_numeric_field := fun buf ptr _ _ => ((buf.drop ptr).take 1, 1) }

/-- A sample state: the create definition of `db.t` has the given version, the
post-header length of every event type is 8, and nothing is mapped or open. -/
def sample_state (version : Nat) : avro_state :=
  { router :=
      { event_type_hdr_lens := List.replicate 40 8,
        created_tables := [("db.t", sample_create version)],
        table_maps := [], open_tables := [], active_maps := [],
        avrodir := "/avro",
        gtid := { domain := 0, server_id := 1, seq := 5, event_num := 0 } },
    warn_decimal := false, warn_bit := false, warn_large_enumset := false,
    effects := [] }

/-- A sample table-map event header. -/
def sample_table_map_hdr : REP_HEADER :=
  { event_type := 19, event_size := 40, timestamp := 1000 }

/-- A sample table-map event: the table id 7 in six bytes. -/
def sample_table_map_event : List Byte := [7, 0, 0, 0, 0, 0]

/-- The sample state after a first table-map event for `db.t` at version 1,
with the create definition then at the given version. -/
def sample_mapped_state (version : Nat) : avro_state :=
  with_created_tables
    (handle_table_map_event sample_constants sample_externals (sample_state 1)
      sample_table_map_hdr sample_table_map_event 0).2
    [("db.t", sample_create version)]

/-- The variables of the loop of `process_row_event_data` that decide where the
row ends. -/
def cursor_of (st : row_state) : Nat × Nat × Nat × Nat :=
  (st.ptr, st.npresent, st.metadata_offset, st.extra_bits)

/-- The six fields of a record that `prepare_record` sets. -/
def record_head (r : avro_record) :
    Option Nat × Option Nat × Option Nat × Option Nat × Option Nat × Option Int :=
  (r.domain, r.server_id, r.sequence, r.event_number, r.timestamp, r.event_type)

/-- The event type codes of the three kinds of row events. -/
def write_codes (K : constants) : List Nat :=
  [K.WRITE_ROWS_EVENTv0, K.WRITE_ROWS_EVENTv1, K.WRITE_ROWS_EVENTv2]

/-- The event type codes of update events. -/
def update_codes (K : constants) : List Nat :=
  [K.UPDATE_ROWS_EVENTv0, K.UPDATE_ROWS_EVENTv1, K.UPDATE_ROWS_EVENTv2]

/-- The event type codes of delete events. -/
def delete_codes (K : constants) : List Nat :=
  [K.DELETE_ROWS_EVENTv0, K.DELETE_ROWS_EVENTv1, K.DELETE_ROWS_EVENTv2]

/-- The event type, as `uint8_t`, is one of the write codes. -/
def is_write_rows (K : constants) (event : Nat) : Prop := event % 256 ∈ write_codes K

/-- The event type, as `uint8_t`, is one of the update codes. -/
def is_update_rows (K : constants) (event : Nat) : Prop := event % 256 ∈ update_codes K

/-- The event type, as `uint8_t`, is one of the delete codes. -/
def is_delete_rows (K : constants) (event : Nat) : Prop := event % 256 ∈ delete_codes K

instance (K : constants) (event : Nat) : Decidable (is_write_rows K event) :=
  inferInstanceAs (Decidable (event % 256 ∈ write_codes K))

instance (K : constants) (event : Nat) : Decidable (is_update_rows K event) :=
  inferInstanceAs (Decidable (event % 256 ∈ update_codes K))

instance (K : constants) (event : Nat) : Decidable (is_delete_rows K event) :=
  inferInstanceAs (Decidable (event % 256 ∈ delete_codes K))

/-- The codes of the three kinds of row events differ, as the labels of the
`switch` in `get_event_type` must. -/
def codes_distinct (K : constants) : Prop :=
  (∀ c ∈ write_codes K, c ∉ update_codes K ∧ c ∉ delete_codes K) ∧
    ∀ c ∈ update_codes K, c ∉ delete_codes K

instance (K : constants) : Decidable (codes_distinct K) :=
  inferInstanceAs (Decidable ((∀ c ∈ write_codes K, c ∉ update_codes K ∧ c ∉ delete_codes K) ∧
    ∀ c ∈ update_codes K, c ∉ delete_codes K))

/-- A process state in which nothing is recorded. -/
def blank_state : avro_state :=
  { router :=
      { event_type_hdr_lens := [], created_tables := [], table_maps := [], open_tables := [],
        active_maps := [], avrodir := "",
        gtid := { domain := 0, server_id := 0, seq := 0, event_num := 0 } },
    warn_decimal := false, warn_bit := false, warn_large_enumset := false, effects := [] }

/-- The offset just after the row image that starts at `ptr`: the pointer
`process_row_event_data` returns, which depends neither on the process state
nor on the record. -/
def row_image_end (K : constants) (X : externals) (map : TABLE_MAP) (create : TABLE_CREATE)
    (buf col_present : List Byte) (ptr : Nat) : Option Nat :=
  (process_row_event_data K X blank_state map create new_record buf ptr col_present).map
    (fun r => r.2.2)

/-- The offset just after the row entry that starts at `ptr`: an entry of an
update event holds two row images, the before and the after image, and an
entry of any other event one. -/
def row_entry_end (K : constants) (X : externals) (hdr : REP_HEADER) (map : TABLE_MAP)
    (create : TABLE_CREATE) (buf col_present : List Byte) (ptr : Nat) : Option Nat :=
  if is_update_rows K hdr.event_type then
    (row_image_end K X map create buf col_present ptr).bind
      (row_image_end K X map create buf col_present)
  else
    row_image_end K X map create buf col_present ptr

/-- The row entries of an event: starting at `ptr`, the entries end at the
offsets `ends`, every entry starts before the declared end of the event, which
is `limit` bytes after `start`, and the last entry ends at or after it. -/
def row_entries (next : Nat → Option Nat) (start : Nat) (limit : Int) :
    Nat → List Nat → Prop
  | ptr, [] => ¬ ((ptr : Int) - (start : Int) < limit)
  | ptr, q :: ends =>
    (ptr : Int) - (start : Int) < limit ∧ next ptr = some q ∧ row_entries next start limit q ends

instance row_entries_decidable (next : Nat → Option Nat) (start : Nat) (limit : Int) :
    (ptr : Nat) → (ends : List Nat) → Decidable (row_entries next start limit ptr ends)
  | ptr, [] => inferInstanceAs (Decidable (¬ ((ptr : Int) - (start : Int) < limit)))
  | ptr, q :: ends =>
    have := row_entries_decidable next start limit q ends
    inferInstanceAs (Decidable ((ptr : Int) - (start : Int) < limit ∧ next ptr = some q ∧
      row_entries next start limit q ends))

/-- The event-kind tags of the records of one row entry, given the value of
`get_event_type`. -/
def entry_tags (kind : Int) : List (Option Int) :=
  if kind = UPDATE_EVENT then [some UPDATE_EVENT, some UPDATE_EVENT_AFTER] else [some kind]

/-- The event numbers `base + 1`, ..., `base + n`, as stored in records. -/
def event_numbers (base n : Nat) : List (Option Nat) :=
  (List.range n).map (fun k => some (base + 1 + k))

/-- The router with the event number of its GTID advanced by `n`. -/
def advance_event_num (router : AVRO_INSTANCE) (n : Nat) : AVRO_INSTANCE :=
  { router with gtid := { router.gtid with event_num := router.gtid.event_num + n } }

/-- The record carries the domain, server id and sequence of the GTID and the
timestamp of the header. -/
def stamped (gtid : gtid_pos) (hdr : REP_HEADER) (r : avro_record) : Prop :=
  r.domain = some gtid.domain ∧ r.server_id = some gtid.server_id ∧
    r.sequence = some gtid.seq ∧ r.timestamp = some hdr.timestamp

instance (gtid : gtid_pos) (hdr : REP_HEADER) (r : avro_record) :
    Decidable (stamped gtid hdr r) :=
  inferInstanceAs (Decidable (r.domain = some gtid.domain ∧
    r.server_id = some gtid.server_id ∧ r.sequence = some gtid.seq ∧
    r.timestamp = some hdr.timestamp))

/-- The table id `handle_row_event` reads at the start of the event. -/
def row_event_table_id (s : avro_state) (hdr : REP_HEADER) (buf : List Byte) (ptr : Nat) :
    Nat :=
  le_bytes buf ptr (if s.router.event_type_hdr_lens.getD hdr.event_type 0 = 6 then 4 else 6)

/-- The flags `handle_row_event` reads after the table id. -/
def row_event_flags (s : avro_state) (hdr : REP_HEADER) (buf : List Byte) (ptr : Nat) : Nat :=
  le_bytes buf
    (ptr + (if s.router.event_type_hdr_lens.getD hdr.event_type 0 = 6 then 4 else 6)) 2

/-- The column count `handle_row_event` reads from the event. -/
def row_event_ncolumns (K : constants) (X : externals) (s : avro_state) (hdr : REP_HEADER)
    (buf : List Byte) (ptr : Nat) : Nat :=
  (row_event_header K X s.router hdr buf ptr).2.2.1

/-- The bitmap of the columns present that `handle_row_event` reads. -/
def row_event_col_present (K : constants) (X : externals) (s : avro_state) (hdr : REP_HEADER)
    (buf : List Byte) (ptr : Nat) : List Byte :=
  (row_event_header K X s.router hdr buf ptr).2.2.2.1

/-- The offset at which `handle_row_event` starts to read rows. -/
def row_event_rows_start (K : constants) (X : externals) (s : avro_state) (hdr : REP_HEADER)
    (buf : List Byte) (ptr : Nat) : Nat :=
  (row_event_header K X s.router hdr buf ptr).2.2.2.2

/-- The row event is accepted: it is not the release marker (dummy table id with
the end-of-statement flag), its table id has the active mapping `map`, the
output handle `table` of that mapping is open, the mapping has the create
definition `create`, and the column count of the event is that of the mapping. -/
def accepted_row_event (K : constants) (X : externals) (s : avro_state) (hdr : REP_HEADER)
    (buf : List Byte) (ptr : Nat) (map : TABLE_MAP) (table : AVRO_TABLE)
    (create : TABLE_CREATE) : Prop :=
  ¬ (row_event_table_id s hdr buf ptr = K.TABLE_DUMMY_ID ∧
      row_event_flags s hdr buf ptr &&& K.ROW_EVENT_END_STATEMENT ≠ 0) ∧
  active_maps_get s.router.active_maps
    (row_event_table_id s hdr buf ptr % K.sizeof_active_maps) = some map ∧
  hashtable_fetch s.router.open_tables (table_ident_of K map) = some table ∧
  map.table_create = some create ∧
  row_event_ncolumns K X s hdr buf ptr = map.columns

instance (K : constants) (X : externals) (s : avro_state) (hdr : REP_HEADER)
    (buf : List Byte) (ptr : Nat) (map : TABLE_MAP) (table : AVRO_TABLE)
    (create : TABLE_CREATE) : Decidable (accepted_row_event K X s hdr buf ptr map table create) :=
  inferInstanceAs (Decidable (
    ¬ (row_event_table_id s hdr buf ptr = K.TABLE_DUMMY_ID ∧
        row_event_flags s hdr buf ptr &&& K.ROW_EVENT_END_STATEMENT ≠ 0) ∧
    active_maps_get s.router.active_maps
      (row_event_table_id s hdr buf ptr % K.sizeof_active_maps) = some map ∧
    hashtable_fetch s.router.open_tables (table_ident_of K map) = some table ∧
    map.table_create = some create ∧
    row_event_ncolumns K X s hdr buf ptr = map.columns))

/-- The event holds the row entries ending at `ends`: they start where
`handle_row_event` starts to read rows and fill the event up to its declared
size. -/
def holds_row_entries (K : constants) (X : externals) (s : avro_state) (hdr : REP_HEADER)
    (buf : List Byte) (ptr : Nat) (map : TABLE_MAP) (create : TABLE_CREATE)
    (ends : List Nat) : Prop :=
  row_entries
    (row_entry_end K X hdr map create buf (row_event_col_present K X s hdr buf ptr)) ptr
    (row_event_limit K hdr)
    (row_event_rows_start K X s hdr buf ptr) ends

instance (K : constants) (X : externals) (s : avro_state) (hdr : REP_HEADER)
    (buf : List Byte) (ptr : Nat) (map : TABLE_MAP) (create : TABLE_CREATE) (ends : List Nat) :
    Decidable (holds_row_entries K X s hdr buf ptr map create ends) :=
  inferInstanceAs (Decidable (row_entries
    (row_entry_end K X hdr map create buf (row_event_col_present K X s hdr buf ptr)) ptr
    (row_event_limit K hdr)
    (row_event_rows_start K X s hdr buf ptr) ends))

/-- A sample update event over the three columns of `db.t`: table id 7 in six
bytes, flags 0, column count 3, both bitmaps `0b111`, and two row entries of
two images each, every image being its null bitmap `0b111` alone. -/
def sample_update_event : List Byte :=
  [7, 0, 0, 0, 0, 0, 0, 0, 3, 7, 7, 7, 7, 7, 7]

/-- The header of the sample update event: 15 bytes after the 19 bytes of the
event header. -/
def sample_update_hdr : REP_HEADER :=
  { event_type := 24, event_size := 34, timestamp := 1000 }

/-- The output handle of `db.t` in the sample state after the first table-map
event. -/
def sample_table : AVRO_TABLE :=
  { filepath := "/avro/db.t.000001.avro", json_schema := "schema", records := [] }

/-- The state after one more effect was recorded; nothing else changes. -/
def logged (s : avro_state) (e : effect) : avro_state :=
  { s with effects := s.effects ++ [e] }

/-- The warning `handle_table_map_event` logs when the table identity has no
create definition. -/
def create_missing_warning : effect :=
  effect.MXS_WARNING ("Table map event for table '%s' read before the DDL statement "
    ++ "for that table  was read. Data will not be processed for this "
    ++ "table until a DDL statement for it is read.")

/-- The error `handle_row_event` logs when the slot of the table id holds no
mapping. -/
def unmapped_table_error : effect :=
  effect.MXS_ERROR ("Row event for unknown table mapped to ID %lu. Data will not "
    ++ "be processed.")

/-- The error `handle_row_event` logs when the table of the mapping has no
output handle in `open_tables`. -/
def missing_handle_error : effect :=
  effect.MXS_ERROR ("Avro file handle was not found for table %s.%s. See earlier"
    ++ " errors for more details.")

/-- The error `handle_row_event` logs when the mapping has no create
definition. -/
def missing_create_error : effect :=
  effect.MXS_ERROR ("Create table statement for %s.%s was not found from the "
    ++ "binary logs or the stored schema was not correct.")

/-- The error `handle_row_event` logs when the column count of the event is not
that of the mapping. -/
def column_count_error : effect :=
  effect.MXS_ERROR ("Row event and table map event have different column counts."
    ++ " Only full row image is currently supported.")

/-- The row event is the release marker: its table id is `TABLE_DUMMY_ID` and
its flags have a bit of `ROW_EVENT_END_STATEMENT`. -/
def is_release_marker (K : constants) (s : avro_state) (hdr : REP_HEADER) (buf : List Byte)
    (ptr : Nat) : Prop :=
  row_event_table_id s hdr buf ptr = K.TABLE_DUMMY_ID ∧
    row_event_flags s hdr buf ptr &&& K.ROW_EVENT_END_STATEMENT ≠ 0

instance (K : constants) (s : avro_state) (hdr : REP_HEADER) (buf : List Byte) (ptr : Nat) :
    Decidable (is_release_marker K s hdr buf ptr) :=
  inferInstanceAs (Decidable (row_event_table_id s hdr buf ptr = K.TABLE_DUMMY_ID ∧
    row_event_flags s hdr buf ptr &&& K.ROW_EVENT_END_STATEMENT ≠ 0))

/-- The mapping in the slot of `active_maps` that the table id of the row event
selects, `none` for an empty slot. -/
def row_event_mapping (K : constants) (s : avro_state) (hdr : REP_HEADER) (buf : List Byte)
    (ptr : Nat) : Option TABLE_MAP :=
  active_maps_get s.router.active_maps (row_event_table_id s hdr buf ptr % K.sizeof_active_maps)

/-- The sample state without any create definition. -/
def sample_state_without_create : avro_state := with_created_tables (sample_state 1) []

/-- A sample write event for table id 7: flags 0, three columns, all present,
and one row whose columns are all null. -/
def sample_write_event : List Byte := [7, 0, 0, 0, 0, 0, 0, 0, 3, 7, 7]

/-- The header of the sample write event: 11 bytes after the 19 bytes of the
event header. -/
def sample_write_hdr : REP_HEADER := { event_type := 23, event_size := 30, timestamp := 1000 }

/-- The number of output handles that `open_tables` holds for the table
identity. -/
def handles_open (s : avro_state) (table_ident : String) : Nat :=
  (s.router.open_tables.map (fun e => e.1)).count table_ident

/-- A table-map event together with the create definitions that are registered
when it arrives. -/
structure table_map_step where
  created : List (String × TABLE_CREATE)
  hdr : REP_HEADER
  buf : List Byte
  ptr : Nat
  deriving DecidableEq, Repr

/-- The state after a sequence of table-map events, the create definitions
being replaced before each event as the DDL statements in between do. -/
def run_table_map_events (K : constants) (X : externals) :
    avro_state → List table_map_step → avro_state
  | s, [] => s
  | s, e :: rest =>
    run_table_map_events K X
      (handle_table_map_event K X (with_created_tables s e.created) e.hdr e.buf e.ptr).2 rest

/-- The output handle `handle_table_map_event` opens for the mapping. -/
def new_handle (K : constants) (s : avro_state) (table_ident : String) (map : TABLE_MAP)
    (json_schema : String) : AVRO_TABLE :=
  { filepath := avro_filepath K s.router.avrodir table_ident map.version,
    json_schema := json_schema, records := [] }

/-- The sample update event with the table id 8199 in place of 7: 8199 is 7
plus 8192, so both ids select slot 7 of `active_maps`. -/
def sample_other_id_event : List Byte :=
  [7, 32, 0, 0, 0, 0, 0, 0, 3, 7, 7, 7, 7, 7, 7]

/-- A sample release marker sent as a write event: the table id `0xffffff` in
six bytes, the end-of-statement flag, and bytes that are not looked at. -/
def sample_marker_event : List Byte := [255, 255, 255, 0, 0, 0, 1, 0, 3, 7, 7]

/-- The sample helpers, except that no output file can be opened. -/
def sample_failing_externals : externals :=
  { sample_externals with avro_table_alloc := fun _ _ => false }

/-- The sample state with `db.t` mapped at version 1 after a table-map event
for version 2 failed to open its output file: the mapping of version 1 is
still active and `db.t` has no output handle. -/
def sample_unopened_state : avro_state :=
  (handle_table_map_event sample_constants sample_failing_externals (sample_mapped_state 2)
    sample_table_map_hdr sample_table_map_event 0).2

/-- A sample write event for table id 7 that declares two columns. -/
def sample_two_column_event : List Byte := [7, 0, 0, 0, 0, 0, 0, 0, 2, 3, 3]

/-- The sample of `table_map_alloc` that takes the column count of the mapping
from the byte after the table id of the table-map event, not from the create
definition. -/
def sample_counting_table_map_alloc (buf : List Byte) (ptr len : Nat) (create : TABLE_CREATE) :
    Option TABLE_MAP :=
  some { sample_map (sample_table_id buf ptr len) create with
    columns := (buf.getD (ptr + 6) 0).val }

/-- The sample helpers with `sample_counting_table_map_alloc`. -/
def sample_counting_externals : externals :=
  { sample_externals with table_map_alloc := sample_counting_table_map_alloc }

/-- The sample state after a table-map event that maps table id 7 to `db.t`
with two columns, the create definition of `db.t` having three. -/
def sample_narrow_state : avro_state :=
  (handle_table_map_event sample_constants sample_counting_externals (sample_state 1)
    sample_table_map_hdr [7, 0, 0, 0, 0, 0, 2] 0).2

/-- The mapping that is active in `sample_narrow_state`. -/
def sample_narrow_map : TABLE_MAP := { sample_map 7 (sample_create 1) with columns := 2 }

/-- The sample state after a table-map event that maps table id 7 to `db.t`
with four columns, the create definition of `db.t` having three. -/
def sample_wide_state : avro_state :=
  (handle_table_map_event sample_constants sample_counting_externals (sample_state 1)
    sample_table_map_hdr [7, 0, 0, 0, 0, 0, 4] 0).2

/-- The mapping that is active in `sample_wide_state`. -/
def sample_wide_map : TABLE_MAP := { sample_map 7 (sample_create 1) with columns := 4 }

/-- A sample write event for table id 7 that declares four columns, all
present, with one row whose columns are all null. -/
def sample_four_column_event : List Byte := [7, 0, 0, 0, 0, 0, 0, 0, 4, 15, 15]

/-- The four errors with which `handle_row_event` rejects an event: unmapped
table, missing output handle, missing create definition and column-count
mismatch. -/
def rejection_errors : List effect :=
  [unmapped_table_error, missing_handle_error, missing_create_error, column_count_error]

/-- The number of bytes of the table id in a row event: 4 when the post-header
length of the event type is 6, and 6 otherwise. -/
def table_id_width (s : avro_state) (hdr : REP_HEADER) : Nat :=
  if event_hdr_len s hdr = 6 then 4 else 6

/-- The number of bytes of the extra data block that `handle_row_event` skips:
the two bytes of `extra_len` and `extra_len` bytes when the event type code is
above `DELETE_ROWS_EVENTv1`, nothing otherwise. -/
def extra_width (K : constants) (s : avro_state) (hdr : REP_HEADER) (buf : List Byte)
    (ptr : Nat) : Nat :=
  if hdr.event_type > K.DELETE_ROWS_EVENTv1 then
    2 + le_bytes buf (ptr + table_id_width s hdr + 2) 2
  else 0

/-- The number of column bitmaps `handle_row_event` passes over: two for
`UPDATE_ROWS_EVENTv1` and `UPDATE_ROWS_EVENTv2`, one for every other event
type. -/
def bitmaps_read (K : constants) (hdr : REP_HEADER) : Nat :=
  if hdr.event_type = K.UPDATE_ROWS_EVENTv1 ∨ hdr.event_type = K.UPDATE_ROWS_EVENTv2 then 2
  else 1

/-- The event type is one of the three codes of sub-version 2. -/
def is_version2_rows (K : constants) (event : Nat) : Prop :=
  event ∈ [K.WRITE_ROWS_EVENTv2, K.UPDATE_ROWS_EVENTv2, K.DELETE_ROWS_EVENTv2]

instance (K : constants) (event : Nat) : Decidable (is_version2_rows K event) :=
  inferInstanceAs (Decidable
    (event ∈ [K.WRITE_ROWS_EVENTv2, K.UPDATE_ROWS_EVENTv2, K.DELETE_ROWS_EVENTv2]))

/-- The offset of the first row body in the payload as the specification
describes it: `T + 2 + X + len(column-count) + B * ceil(n/8)`, with `B` being 2
for every update event and 1 for write and delete events. -/
def claimed_rows_offset (K : constants) (X : externals) (s : avro_state) (hdr : REP_HEADER)
    (buf : List Byte) (ptr : Nat) : Nat :=
  let t := if event_hdr_len s hdr = 6 then 4 else 6
  let x := if is_version2_rows K hdr.event_type then 2 + le_bytes buf (ptr + t + 2) 2 else 0
  let n := (X.leint_consume buf (ptr + t + 2 + x)).1
  let len := (X.leint_consume buf (ptr + t + 2 + x)).2 - (ptr + t + 2 + x)
  let b := if is_update_rows K hdr.event_type then 2 else 1
  t + 2 + x + len + b * ((n + 7) / 8)

/-- The header of the sample update event sent with the code of
`UPDATE_ROWS_EVENTv0`. -/
def sample_update_v0_hdr : REP_HEADER :=
  { event_type := 21, event_size := 34, timestamp := 1000 }

/-- The value of the field `name` of the record, `none` when the field was
never set. -/
def record_get (record : avro_record) (name : String) : Option avro_value :=
  (record.columns.find? (fun e => e.1 == name)).map (fun e => e.2)

/-- The bytes of the characters of a string literal. -/
def ip_chars (s : String) : List Byte := s.toList.map (fun c => toByte c.toNat)

/-- The value of the `width` little-endian bytes at the start of `value` read
as a signed integer of that width: the sign-aware value of the raw bytes. -/
def sign_aware (width : Nat) (value : List Byte) : Int :=
  if le_bytes value 0 width < 2 ^ (8 * width - 1) then (le_bytes value 0 width : Int)
  else (le_bytes value 0 width : Int) - 2 ^ (8 * width)

/-- The warning `process_row_event_data` logs for a BIT column. -/
def bit_warning : effect :=
  effect.MXS_WARNING "BIT is not currently supported, values are stored as 0."

/-- The warning `process_row_event_data` logs for a DECIMAL column. -/
def decimal_warning : effect :=
  effect.MXS_WARNING "DECIMAL is not currently supported, values are stored as 0."

/-- The warning `process_row_event_data` has for ENUM and SET values of more
than one byte. -/
def enumset_warning : effect :=
  effect.MXS_WARNING "ENUM/SET values larger than 255 values aren't supported."

/-- The type of column `i` of the mapping. -/
def column_type (map : TABLE_MAP) (i : Nat) : Nat := (map.column_types.getD i 0).val

/-- Column `i` takes the BIT branch of `process_row_event_data`: its type is
not a fixed string and is a BIT type. -/
def bit_column (X : externals) (map : TABLE_MAP) (i : Nat) : Prop :=
  X.column_is_fixed_string (column_type map i) = false ∧
    X.column_is_bit (column_type map i) = true

/-- Column `i` takes the DECIMAL branch of `process_row_event_data`: its type
is neither a fixed string nor a BIT type and is a DECIMAL type. -/
def decimal_column (X : externals) (map : TABLE_MAP) (i : Nat) : Prop :=
  X.column_is_fixed_string (column_type map i) = false ∧
    X.column_is_bit (column_type map i) = false ∧
    X.column_is_decimal (column_type map i) = true

/-- The BIT warning and the DECIMAL warning have each been logged once when the
flag of the type is set and not at all when it is clear. -/
def warnings_match (s : avro_state) : Prop :=
  s.effects.count bit_warning = (if s.warn_bit = true then 1 else 0) ∧
    s.effects.count decimal_warning = (if s.warn_decimal = true then 1 else 0)

/-- Column `j` of the row at `null_bitmap` is decoded and satisfies `p`: its
bit in the bitmap of the columns present is set and its bit in the null bitmap
is clear. -/
def decoded_as (p : Nat → Prop) (map : TABLE_MAP) (buf columns_present : List Byte)
    (null_bitmap j : Nat) : Prop :=
  bit_is_set columns_present 0 map.columns j = true ∧
    bit_is_set buf null_bitmap map.columns j = false ∧ p j

/-- The arguments of one call of `process_row_event_data`. -/
structure row_call where
  map : TABLE_MAP
  create : TABLE_CREATE
  record : avro_record
  buf : List Byte
  ptr : Nat
  columns_present : List Byte
  deriving DecidableEq, Repr

/-- The process state after a sequence of calls of `process_row_event_data`;
`none` when one of the calls reads outside a table. -/
def run_row_calls (K : constants) (X : externals) : avro_state → List row_call → Option avro_state
  | s, [] => some s
  | s, c :: rest =>
    match process_row_event_data K X s c.map c.create c.record c.buf c.ptr c.columns_present with
    | none => none
    | some r => run_row_calls K X r.1 rest

/-- The call decodes a column of the kind `p` that is not null. -/
def call_decodes (p : TABLE_MAP → Nat → Prop) (c : row_call) : Prop :=
  ∃ j, j < c.map.columns ∧ decoded_as (p c.map) c.map c.buf c.columns_present c.ptr j

/-- The entry `k` of the table `dig_bytes` of `process_row_event_data`. -/
def dig_bytes_at (k : Nat) : Nat := ([0, 1, 1, 2, 2, 3, 3, 4, 4, 4] : List Nat).getD k 0

/-- The precision of a DECIMAL column: the metadata byte at the offset. -/
def decimal_precision (map : TABLE_MAP) (metadata_offset : Nat) : Nat :=
  (map.column_metadata.getD metadata_offset 0).val

/-- The number of decimals of a DECIMAL column: the metadata byte after the
precision. -/
def decimal_decimals (map : TABLE_MAP) (metadata_offset : Nat) : Nat :=
  (map.column_metadata.getD (metadata_offset + 1) 0).val

/-- The index `ipart2` of the first lookup into `dig_bytes`, as the code
computes it from the precision `p` and the decimals `d` in `int` arithmetic. -/
def decimal_ipart2 (p d : Nat) : Int :=
  ((p : Int) - (d : Int)) - Int.tdiv ((p : Int) - (d : Int)) 9 * 9

/-- The index `fpart2` of the second lookup into `dig_bytes`. -/
def decimal_fpart2 (d : Nat) : Int := (d : Int) - Int.tdiv (d : Int) 9 * 9

/-- The number of bytes of a DECIMAL value of precision `p` with `d` decimals:
`4*((p-d)/9) + dig_bytes[(p-d)%9] + 4*(d/9) + dig_bytes[d%9]`. -/
def decimal_width (p d : Nat) : Nat :=
  4 * ((p - d) / 9) + dig_bytes_at ((p - d) % 9) + 4 * (d / 9) + dig_bytes_at (d % 9)

/-- The sample of `column_is_fixed_string`: the type STRING. -/
def sample_column_is_fixed_string (type : Nat) : Bool := type == 254

/-- The sample of `column_is_bit`: the type BIT. -/
def sample_column_is_bit (type : Nat) : Bool := type == 16

/-- The sample of `column_is_decimal`: the type NEWDECIMAL. -/
def sample_column_is_decimal (type : Nat) : Bool := type == 246

/-- The sample of `column_is_variable_string`: the type VARCHAR. -/
def sample_column_is_variable_string (type : Nat) : Bool := type == 15

/-- The sample of `column_is_blob`: the type BLOB. -/
def sample_column_is_blob (type : Nat) : Bool := type == 252

/-- The sample of `fixed_string_is_enum`: the types ENUM and SET. -/
def sample_fixed_string_is_enum (type : Nat) : Bool := type == 247 || type == 248

/-- The sample of `unpack_enum`: the value has as many bytes as the second
metadata byte says; they are copied and their number is returned. -/
def sample_unpack_enum (buf : List Byte) (ptr : Nat) (metadata : List Byte) : List Byte × Nat :=
  ((buf.drop ptr).take (metadata.getD 1 0).val, (metadata.getD 1 0).val)

/-- The sample helpers with the tests of the column types told apart. -/
def sample_typed_externals : externals :=
  { sample_externals with
    column_is_fixed_string := sample_column_is_fixed_string,
    column_is_bit := sample_column_is_bit,
    column_is_decimal := sample_column_is_decimal,
    column_is_variable_string := sample_column_is_variable_string,
    column_is_blob := sample_column_is_blob,
    fixed_string_is_enum := sample_fixed_string_is_enum,
    unpack_enum := sample_unpack_enum }

/-- A sample create definition of the one column `e`. -/
def sample_enum_create : TABLE_CREATE := { columns := 1, column_names := ["e"], version := 1 }

/-- A sample mapping of one ENUM column whose values take two bytes. -/
def sample_enum_map : TABLE_MAP :=
  { id := 7, version := 1, columns := 1, column_types := [254], column_metadata := [247, 2],
    column_metadata_size := 2, database := "db", table := "t",
    table_create := some sample_enum_create }

/-- A sample row of `sample_enum_map`: the null bitmap and the value `01 02`. -/
def sample_enum_row : List Byte := [0, 1, 2]

/-- A sample create definition of the columns `b` and `d`. -/
def sample_bit_decimal_create : TABLE_CREATE :=
  { columns := 2, column_names := ["b", "d"], version := 1 }

/-- A sample mapping of a BIT(8) column and a DECIMAL(10,2) column. -/
def sample_bit_decimal_map : TABLE_MAP :=
  { id := 7, version := 1, columns := 2, column_types := [16, 246],
    column_metadata := [0, 1, 10, 2], column_metadata_size := 4, database := "db",
    table := "t", table_create := some sample_bit_decimal_create }

/-- A sample row of `sample_bit_decimal_map`: the null bitmap and the five
bytes of the DECIMAL value. -/
def sample_bit_decimal_row : List Byte := [0, 1, 2, 3, 4, 5]

/-- A call of `process_row_event_data` on the sample row of
`sample_bit_decimal_map`, both columns present. -/
def sample_bit_decimal_call : row_call :=
  { map := sample_bit_decimal_map, create := sample_bit_decimal_create, record := new_record,
    buf := sample_bit_decimal_row, ptr := 0, columns_present := [3] }

/-- A sample mapping of one DECIMAL column with precision 0 and 1 decimal. -/
def sample_bad_decimal_map : TABLE_MAP :=
  { id := 7, version := 1, columns := 1, column_types := [246], column_metadata := [0, 1],
    column_metadata_size := 2, database := "db", table := "t",
    table_create := some sample_enum_create }

/-- A sample create definition of the columns `v` and `b`. -/
def sample_blob_create : TABLE_CREATE :=
  { columns := 2, column_names := ["v", "b"], version := 1 }

/-- A sample mapping of a VARCHAR column, with two metadata bytes, and a BLOB
column, whose one metadata byte says that the length takes one byte. -/
def sample_blob_map : TABLE_MAP :=
  { id := 7, version := 1, columns := 2, column_types := [15, 252],
    column_metadata := [2, 0, 1], column_metadata_size := 3, database := "db",
    table := "t", table_create := some sample_blob_create }

/-- A sample row of `sample_blob_map` in which only the BLOB column is present:
the null bitmap, the length 1 and the byte `00`, followed by the byte `41`. -/
def sample_blob_row : List Byte := [0, 1, 0, 65]

/-- The offset of the metadata of column `i` in the metadata of the mapping:
the sum of `get_metadata_len` over the columns before `i`. -/
def aligned_metadata_offset (K : constants) (map : TABLE_MAP) (i : Nat) : Nat :=
  ((List.range i).map (fun j => get_metadata_len K (column_type map j))).sum

set_option maxRecDepth 100000

theorem and_0x7f (b : Nat) : b &&& 0x7f = b % 128 :=
  Nat.and_pow_two_sub_one_eq_mod b 7

theorem and_0x80_small : ∀ r, r < 256 → r &&& 0x80 = (r / 128 % 2) * 128 := by
  decide

theorem and_0x80 (b : Nat) : b &&& 0x80 = (b / 128 % 2) * 128 := by
  have h1 : b &&& 0x80 = (b % 256) &&& 0x80 := by
    have e : (0x80 : Nat) = 0xff &&& 0x80 := by decide
    have m : b &&& 0xff = b % 256 := Nat.and_pow_two_sub_one_eq_mod b 8
    calc b &&& 0x80 = b &&& (0xff &&& 0x80) := by rw [← e]
      _ = (b &&& 0xff) &&& 0x80 := (Nat.and_assoc b 0xff 0x80).symm
      _ = (b % 256) &&& 0x80 := by rw [m]
  rw [h1, and_0x80_small (b % 256) (Nat.mod_lt b (by decide))]
  omega

theorem more_bytes_eq (b : Nat) : more_bytes b = (b / 128 % 2) * 128 := and_0x80 b

theorem or_0x80 (y : Nat) (h : y < 128) : 0x80 ||| y = 128 + y := by
  have := Nat.mul_add_lt_is_or (i := 7) (b := y) h 1
  simpa using this.symm

theorem more_bytes_of_lt (e : Nat) (h : e < 128) : more_bytes e = 0 := by
  rw [more_bytes_eq, Nat.div_eq_of_lt h]

theorem continues_toByte_or (e : Nat) : continues (toByte (0x80 ||| (0x7f &&& e))) := by
  unfold continues
  have h1 : 0x7f &&& e = e % 128 := by rw [Nat.and_comm]; exact and_0x7f e
  have h2 : e % 128 < 128 := Nat.mod_lt e (by decide)
  rw [h1, or_0x80 _ h2, more_bytes_eq]
  show (((128 + e % 128) % 256) / 128 % 2) * 128 ≠ 0
  omega

theorem not_continues_toByte (e : Nat) (h : more_bytes e = 0) : ¬ continues (toByte e) := by
  unfold continues
  rw [more_bytes_eq] at h
  rw [more_bytes_eq]
  show ¬ ((e % 256) / 128 % 2) * 128 ≠ 0
  omega

/-- On values below `2^63` the two zigzag mappings of the code are inverse. -/
theorem zigzag_small (n : Nat) (h : n < 2 ^ 63) : avro_decode (encode_long n) = n := by
  have h63 : n >>> 63 = 0 := by
    rw [Nat.shiftRight_eq_div_pow]; exact Nat.div_eq_of_lt h
  have e : encode_long n = 2 * n := by
    unfold encode_long U64
    rw [h63, Nat.xor_zero, Nat.shiftLeft_eq]
    omega
  rw [e]
  unfold avro_decode U64
  rw [Nat.shiftRight_eq_div_pow, Nat.and_one_is_mod]
  have : 2 * n % 2 = 0 := by omega
  rw [this]
  simp

/-! ## The encoding loop -/

/-- With `m + 1` seven-bit groups at most in `encval` and room for them in the
buffer, the loop of `maxavro_encode_integer` stops after `k ≤ m` stores, each of
a byte with the continuation bit, and leaves an `encval` without bit 7. -/
theorem encode_integer_loop_spec (m : Nat) :
    ∀ (fuel : Nat) (buffer : List Byte) (nbytes encval : Nat),
      m + 1 ≤ fuel → encval < 2 ^ (7 * (m + 1)) → nbytes + m < buffer.length →
      nbytes + m < 256 →
      ∃ out k e, encode_integer_loop fuel buffer nbytes encval = some (out, nbytes + k, e) ∧
        k ≤ m ∧ out.length = buffer.length ∧ more_bytes e = 0 ∧
        (∀ i, nbytes ≤ i → i < nbytes + k → ∃ b, out[i]? = some b ∧ continues b) ∧
        (∀ i, i < nbytes → out[i]? = buffer[i]?) := by
  induction m with
  | zero =>
    intro fuel buffer nbytes encval hf he _ _
    obtain ⟨f, rfl⟩ : ∃ f, fuel = f + 1 := ⟨fuel - 1, by omega⟩
    have h0 : more_bytes encval = 0 := more_bytes_of_lt encval (by simpa using he)
    refine ⟨buffer, 0, encval, ?_, le_refl _, rfl, h0, ?_, fun _ _ => rfl⟩
    · simp [encode_integer_loop, h0]
    · intro i h1 h2; omega
  | succ m ih =>
    intro fuel buffer nbytes encval hf he hb hn
    obtain ⟨f, rfl⟩ : ∃ f, fuel = f + 1 := ⟨fuel - 1, by omega⟩
    by_cases h0 : more_bytes encval = 0
    · refine ⟨buffer, 0, encval, ?_, Nat.zero_le _, rfl, h0, ?_, fun _ _ => rfl⟩
      · simp [encode_integer_loop, h0]
      · intro i h1 h2; omega
    · have hlt : nbytes < buffer.length := by omega
      have he2 : encval >>> 7 < 2 ^ (7 * (m + 1)) := by
        rw [Nat.shiftRight_eq_div_pow]
        apply Nat.div_lt_of_lt_mul
        have : 7 * (m + 1 + 1) = 7 + 7 * (m + 1) := by ring
        rw [this, Nat.pow_add] at he
        exact he
      obtain ⟨out, k, e, hrun, hk, hlen, hmore, hcont, hpre⟩ :=
        ih f (buffer.set nbytes (toByte (0x80 ||| (0x7f &&& encval)))) (nbytes + 1)
          (encval >>> 7) (by omega) he2 (by simp; omega) (by omega)
      refine ⟨out, k + 1, e, ?_, by omega, by simpa using hlen, hmore, ?_, ?_⟩
      · have hmod : (nbytes + 1) % 256 = nbytes + 1 := Nat.mod_eq_of_lt (by omega)
        simp only [encode_integer_loop, buffer_set, h0, hlt, hmod, ne_eq, not_false_eq_true,
          if_true]
        rw [hrun]
        congr 3
        omega
      · intro i h1 h2
        by_cases hi : i = nbytes
        · subst hi
          refine ⟨toByte (0x80 ||| (0x7f &&& encval)), ?_, continues_toByte_or encval⟩
          rw [hpre i (by omega)]
          simp [hlt]
        · exact hcont i (by omega) (by omega)
      · intro i hi
        rw [hpre i (by omega)]
        simp [Nat.ne_of_gt hi]

theorem encode_long_lt (v : Nat) (hv : v < U64) : encode_long v < 2 ^ 64 := by
  unfold encode_long
  unfold U64 at *
  apply Nat.xor_lt_two_pow
  · exact Nat.mod_lt _ (by decide)
  · rw [Nat.shiftRight_eq_div_pow]
    exact Nat.lt_of_le_of_lt (Nat.div_le_self v _) hv

/-- What `maxavro_encode_integer` does on a buffer of at least ten bytes when
the zigzag value is below `2^70`: between one and ten bytes are stored, all but
the last with the continuation bit. -/
theorem encode_integer_shape (buffer : List Byte) (val : Nat)
    (hb : MAX_INTEGER_SIZE ≤ buffer.length) (hv : encode_long val < 2 ^ 70) :
    ∃ out n, maxavro_encode_integer buffer val = some (out, n) ∧
      1 ≤ n ∧ n ≤ MAX_INTEGER_SIZE ∧ out.length = buffer.length ∧
      (∀ i, i + 1 < n → ∃ b, out[i]? = some b ∧ continues b) ∧
      (∃ b, out[n - 1]? = some b ∧ ¬ continues b) := by
  unfold MAX_INTEGER_SIZE at hb
  obtain ⟨out, k, e, hrun, hk, hlen, hmore, hcont, _⟩ :=
    encode_integer_loop_spec 9 64 buffer 0 (encode_long val) (by decide) hv (by omega)
      (by decide)
  have hko : k < out.length := by omega
  have hmod : (k + 1) % 256 = k + 1 := Nat.mod_eq_of_lt (by omega)
  refine ⟨out.set k (toByte e), k + 1, ?_, by omega, ?_, by simpa using hlen, ?_, ?_⟩
  · simp only [maxavro_encode_integer, hrun, Nat.zero_add, buffer_set, hko, if_true, hmod]
  · unfold MAX_INTEGER_SIZE; omega
  · intro i hi
    obtain ⟨b, hb1, hb2⟩ := hcont i (Nat.zero_le _) (by omega)
    refine ⟨b, ?_, hb2⟩
    rw [List.getElem?_set_ne (by omega)]
    exact hb1
  · refine ⟨toByte e, ?_, not_continues_toByte e hmore⟩
    simp [hko]

/-- The loop of `avro_length_integer` makes the same iterations as the loop of
`maxavro_encode_integer`. -/
theorem length_integer_loop_eq :
    ∀ (fuel : Nat) (buffer : List Byte) (nbytes encval : Nat) (out : List Byte) (k e : Nat),
      encode_integer_loop fuel buffer nbytes encval = some (out, k, e) →
      length_integer_loop fuel nbytes encval = some k := by
  intro fuel
  induction fuel with
  | zero => intro _ _ _ _ _ _ h; simp [encode_integer_loop] at h
  | succ f ih =>
    intro buffer nbytes encval out k e h
    by_cases h0 : more_bytes encval = 0
    · simp [encode_integer_loop, h0] at h
      simp [length_integer_loop, h0, h.2.1]
    · simp only [encode_integer_loop, ne_eq, h0, not_false_eq_true, if_true] at h
      simp only [length_integer_loop, ne_eq, h0, not_false_eq_true, if_true]
      cases hs : buffer_set buffer nbytes (toByte (0x80 ||| (0x7f &&& encval))) with
      | none => simp [hs] at h
      | some b2 =>
        rw [hs] at h
        exact ih b2 _ _ out k e h

/-- Whenever `maxavro_encode_integer` returns `n`, `avro_length_integer` returns
the count `k` of loop iterations, one less than the bytes stored. -/
theorem length_integer_one_short (buffer : List Byte) (val : Nat) (out : List Byte) (n : Nat)
    (h : maxavro_encode_integer buffer val = some (out, n)) :
    ∃ k, avro_length_integer val = some k ∧ n = (k + 1) % 256 := by
  unfold maxavro_encode_integer at h
  cases hl : encode_integer_loop 64 buffer 0 (encode_long val) with
  | none => simp [hl] at h
  | some r =>
    obtain ⟨o, k, e⟩ := r
    refine ⟨k, length_integer_loop_eq 64 buffer 0 (encode_long val) o k e hl, ?_⟩
    rw [hl] at h
    cases hs : buffer_set o k (toByte e) with
    | none => simp [hs] at h
    | some b2 =>
      simp [hs] at h
      exact h.2.symm

/-! ## The decoding loop -/

theorem fread_one_cons (stream : FILE) (b : Byte) (tail : List Byte)
    (hd : stream.data.drop stream.pos = b :: tail) :
    fread 1 stream = ([b], { stream with pos := stream.pos + 1 }) := by
  simp [fread, hd]

theorem fread_one_nil (stream : FILE) (hd : stream.data.drop stream.pos = []) :
    fread 1 stream = ([], stream) := by
  simp [fread, hd]

theorem remaining_advance (file : maxavro_file_t) (bs rest : List Byte)
    (hd : remaining file = bs ++ rest) : remaining (advance file bs.length) = rest := by
  unfold remaining advance at *
  simp only
  rw [← List.drop_drop, hd]
  simp

theorem advance_advance (file : maxavro_file_t) (a b : Nat) :
    advance (advance file a) b = advance file (a + b) := by
  simp [advance, Nat.add_assoc]

theorem advance_zero (file : maxavro_file_t) : advance file 0 = file := rfl

/-- One iteration of the loop of `maxavro_read_integer` when a byte is available. -/
theorem read_integer_loop_step (fuel : Nat) (file : maxavro_file_t) (dest : Option Nat)
    (rval nread : Nat) (b : Byte) (tail : List Byte) (hn : nread < MAX_INTEGER_SIZE)
    (hd : remaining file = b :: tail) :
    read_integer_loop (fuel + 1) file dest rval nread =
      if more_bytes b.val ≠ 0 then
        read_integer_loop fuel (advance file 1) dest
          (rval ||| (((b.val &&& 0x7f) <<< (nread * 7)) % U64)) ((nread + 1) % 256)
      else
        some (true,
          dest.map (fun _ => avro_decode (rval ||| (((b.val &&& 0x7f) <<< (nread * 7)) % U64))),
          advance file 1) := by
  have hn2 : ¬ nread ≥ MAX_INTEGER_SIZE := by omega
  simp only [read_integer_loop, hn2, if_false, fread_one_cons file.file b tail hd]
  simp [advance]

/-- One iteration of the loop of `maxavro_read_integer` at the end of the stream. -/
theorem read_integer_loop_eof (fuel : Nat) (file : maxavro_file_t) (dest : Option Nat)
    (rval nread : Nat) (hn : nread < MAX_INTEGER_SIZE) (hd : remaining file = []) :
    read_integer_loop (fuel + 1) file dest rval nread = some (false, dest, file) := by
  have hn2 : ¬ nread ≥ MAX_INTEGER_SIZE := by omega
  simp only [read_integer_loop, hn2, if_false, fread_one_nil file.file hd]
  simp

/-- One iteration of the loop of `maxavro_read_integer` after ten bytes. -/
theorem read_integer_loop_overflow (fuel : Nat) (file : maxavro_file_t) (dest : Option Nat)
    (rval nread : Nat) (hn : MAX_INTEGER_SIZE ≤ nread) :
    read_integer_loop (fuel + 1) file dest rval nread =
      some (false, dest, { file with last_error := MAXAVRO_ERR_VALUE_OVERFLOW }) := by
  simp [read_integer_loop, hn]

/-- Below `2^(7 * nread)` the accumulation `rval |= group << (nread * 7)` adds
the group, modulo `2^64`. -/
theorem accumulate_group (rval g nread : Nat) (hn : nread < 10) (hg : g < 128)
    (hr : rval < 2 ^ (7 * nread)) :
    rval ||| ((g <<< (nread * 7)) % U64) = (rval + g <<< (7 * nread)) % U64 := by
  have key : ∀ x, rval ||| (2 ^ (7 * nread) * x) = 2 ^ (7 * nread) * x + rval := by
    intro x
    rw [Nat.or_comm]
    exact (Nat.mul_add_lt_is_or hr x).symm
  have hx : ∃ x, (g <<< (nread * 7)) % U64 = 2 ^ (7 * nread) * x ∧
      (rval + g <<< (7 * nread)) % U64 = 2 ^ (7 * nread) * x + rval := by
    rw [Nat.shiftLeft_eq, Nat.shiftLeft_eq, Nat.mul_comm nread 7]
    unfold U64
    by_cases h9 : nread = 9
    · subst h9
      refine ⟨g % 2, ?_, ?_⟩ <;> norm_num at hr ⊢ <;> omega
    · refine ⟨g, ?_, ?_⟩ <;> interval_cases nread <;> norm_num at hr h9 ⊢ <;> omega
  obtain ⟨x, h1, h2⟩ := hx
  rw [h1, h2, key]

/-- Before the tenth byte the accumulated value stays below `2^64`. -/
theorem accumulate_group_small (rval g nread : Nat) (hn : nread < 9) (hg : g < 128)
    (hr : rval < 2 ^ (7 * nread)) :
    (rval + g <<< (7 * nread)) % U64 = rval + g <<< (7 * nread) ∧
      rval + g <<< (7 * nread) < 2 ^ (7 * (nread + 1)) := by
  rw [Nat.shiftLeft_eq]
  unfold U64
  constructor <;> interval_cases nread <;> norm_num at hr ⊢ <;> omega

theorem low_bits_lt (b : Byte) : b.val &&& 0x7f < 128 := by
  rw [and_0x7f]
  exact Nat.mod_lt _ (by decide)

/-- The loop of `maxavro_read_integer` on a terminated varint. -/
theorem read_integer_loop_accepts :
    ∀ (bytes : List Byte) (fuel : Nat) (file : maxavro_file_t) (dest : Option Nat)
      (rval nread : Nat) (rest : List Byte),
      is_varint bytes → remaining file = bytes ++ rest → bytes.length ≤ fuel →
      nread + bytes.length ≤ MAX_INTEGER_SIZE → rval < 2 ^ (7 * nread) →
      read_integer_loop fuel file dest rval nread =
        some (true,
          dest.map (fun _ => avro_decode ((rval + varint_sum bytes nread) % U64)),
          advance file bytes.length) := by
  intro bytes
  induction bytes with
  | nil => intro _ _ _ _ _ _ hv; exact absurd hv (by simp [is_varint])
  | cons b bs ih =>
    intro fuel file dest rval nread rest hv hd hf hn hr
    obtain ⟨f, rfl⟩ : ∃ f, fuel = f + 1 := ⟨fuel - 1, by simp at hf; omega⟩
    unfold MAX_INTEGER_SIZE at hn
    have hn1 : nread < 10 := by simp at hn; omega
    have hacc := accumulate_group rval (b.val &&& 0x7f) nread hn1 (low_bits_lt b) hr
    rw [read_integer_loop_step f file dest rval nread b (bs ++ rest)
      (by unfold MAX_INTEGER_SIZE; omega) (by simpa using hd), hacc]
    cases bs with
    | nil =>
      have hb : more_bytes b.val = 0 := by
        simpa [is_varint, continues] using hv
      simp [hb, varint_sum]
    | cons c cs =>
      have hb : more_bytes b.val ≠ 0 := hv.1
      have hn2 : nread < 9 := by simp at hn; omega
      obtain ⟨hs1, hs2⟩ := accumulate_group_small rval (b.val &&& 0x7f) nread hn2
        (low_bits_lt b) hr
      have hmod : (nread + 1) % 256 = nread + 1 := Nat.mod_eq_of_lt (by omega)
      have hrem : remaining (advance file 1) = (c :: cs) ++ rest := by
        have := remaining_advance file [b] ((c :: cs) ++ rest) (by simpa using hd)
        simpa using this
      rw [if_pos hb, hmod, hs1,
        ih f (advance file 1) dest _ (nread + 1) rest hv.2 hrem
          (by simp at hf ⊢; omega) (by unfold MAX_INTEGER_SIZE; simp at hn ⊢; omega) hs2,
        advance_advance]
      have e1 : varint_sum (b :: c :: cs) nread =
          (b.val &&& 0x7f) <<< (7 * nread) + varint_sum (c :: cs) (nread + 1) := rfl
      rw [e1, Nat.add_assoc]
      simp [Nat.add_comm]

/-- The loop of `maxavro_read_integer` when all bytes up to the tenth have the
continuation bit. -/
theorem read_integer_loop_rejects :
    ∀ (bs : List Byte) (fuel : Nat) (file : maxavro_file_t) (dest : Option Nat)
      (rval nread : Nat) (rest : List Byte),
      (∀ c ∈ bs, continues c) → remaining file = bs ++ rest → bs.length + 1 ≤ fuel →
      nread + bs.length = MAX_INTEGER_SIZE →
      read_integer_loop fuel file dest rval nread =
        some (false, dest,
          { advance file bs.length with last_error := MAXAVRO_ERR_VALUE_OVERFLOW }) := by
  intro bs
  induction bs with
  | nil =>
    intro fuel file dest rval nread rest _ _ hf hn
    obtain ⟨f, rfl⟩ : ∃ f, fuel = f + 1 := ⟨fuel - 1, by simp at hf; omega⟩
    rw [read_integer_loop_overflow f file dest rval nread (by simp at hn; omega)]
    rfl
  | cons b bs ih =>
    intro fuel file dest rval nread rest hc hd hf hn
    obtain ⟨f, rfl⟩ : ∃ f, fuel = f + 1 := ⟨fuel - 1, by simp at hf; omega⟩
    have hb : more_bytes b.val ≠ 0 := hc b (by simp)
    have hn10 : nread + (bs.length + 1) = 10 := by simpa [MAX_INTEGER_SIZE] using hn
    have hmod : (nread + 1) % 256 = nread + 1 := Nat.mod_eq_of_lt (by omega)
    have hrem : remaining (advance file 1) = bs ++ rest := by
      have := remaining_advance file [b] (bs ++ rest) (by simpa using hd)
      simpa using this
    rw [read_integer_loop_step f file dest rval nread b (bs ++ rest)
      (by unfold MAX_INTEGER_SIZE; omega) (by simpa using hd), if_pos hb, hmod,
      ih f (advance file 1) dest _ (nread + 1) rest
        (fun c hcm => hc c (by simp [hcm])) hrem (by simp at hf ⊢; omega)
        (by unfold MAX_INTEGER_SIZE; omega),
      advance_advance]
    simp [Nat.add_comm]

/-- The loop of `maxavro_read_integer` always returns, and it changes
`last_error` only when all bytes up to the tenth have the continuation bit. -/
theorem read_integer_loop_error :
    ∀ (fuel : Nat) (file : maxavro_file_t) (dest : Option Nat) (rval nread : Nat),
      nread ≤ MAX_INTEGER_SIZE → MAX_INTEGER_SIZE + 1 ≤ fuel + nread →
      ∃ r, read_integer_loop fuel file dest rval nread = some r ∧
        (r.2.2.last_error = file.last_error ∨
          ∃ bs rest, remaining file = bs ++ rest ∧ bs.length + nread = MAX_INTEGER_SIZE ∧
            ∀ c ∈ bs, continues c) := by
  intro fuel
  induction fuel with
  | zero => intro _ _ _ nread h1 h2; omega
  | succ f ih =>
    intro file dest rval nread h1 h2
    by_cases h10 : MAX_INTEGER_SIZE ≤ nread
    · refine ⟨_, read_integer_loop_overflow f file dest rval nread h10, Or.inr ?_⟩
      exact ⟨[], remaining file, rfl, by simp; omega, by simp⟩
    · cases hd : remaining file with
      | nil =>
        exact ⟨_, read_integer_loop_eof f file dest rval nread (by omega) hd, Or.inl rfl⟩
      | cons b tail =>
        rw [read_integer_loop_step f file dest rval nread b tail (by omega) hd]
        have hmod : (nread + 1) % 256 = nread + 1 :=
          Nat.mod_eq_of_lt (by unfold MAX_INTEGER_SIZE at h1; omega)
        by_cases hb : more_bytes b.val ≠ 0
        · rw [if_pos hb, hmod]
          obtain ⟨r, hr, hcase⟩ := ih (advance file 1) dest
            (rval ||| (((b.val &&& 0x7f) <<< (nread * 7)) % U64)) (nread + 1)
            (by omega) (by omega)
          refine ⟨r, hr, ?_⟩
          rcases hcase with h | ⟨bs, rest, hrem, hlen, hall⟩
          · exact Or.inl h
          · have htail : remaining (advance file 1) = tail := by
              have := remaining_advance file [b] tail (by simpa using hd)
              simpa using this
            refine Or.inr ⟨b :: bs, rest, ?_, by simp; omega, ?_⟩
            · rw [← htail, hrem]; rfl
            · intro c hcm
              rcases List.mem_cons.mp hcm with rfl | h
              · exact hb
              · exact hall c h
        · rw [if_neg hb]
          exact ⟨_, rfl, Or.inl rfl⟩

/-! ## The claims -/

/-- C5: for every 64-bit value `v`, `maxavro_encode_integer` stores between 1 and
10 bytes, every stored byte except the last has the continuation bit `0x80` set
and the last has it clear; no store falls outside a buffer of
`MAX_INTEGER_SIZE` bytes, so `maxavro_write_integer` completes without indexing
its buffer past the end. -/
theorem encode_integer_one_to_ten_bytes (v : Nat) (hv : v < U64) (buffer : List Byte)
    (hb : buffer.length = MAX_INTEGER_SIZE) :
    (∃ out n, maxavro_encode_integer buffer v = some (out, n) ∧
      1 ≤ n ∧ n ≤ MAX_INTEGER_SIZE ∧ out.length = MAX_INTEGER_SIZE ∧
      (∀ i, i + 1 < n → ∃ b, out[i]? = some b ∧ continues b) ∧
      (∃ b, out[n - 1]? = some b ∧ ¬ continues b)) ∧
    ∀ file, ∃ file', maxavro_write_integer file v = some (true, file') := by
  have h70 : encode_long v < 2 ^ 70 :=
    Nat.lt_trans (encode_long_lt v hv) (by decide)
  constructor
  · obtain ⟨out, n, h1, h2, h3, h4, h5, h6⟩ :=
      encode_integer_shape buffer v (by omega) h70
    exact ⟨out, n, h1, h2, h3, by omega, h5, h6⟩
  · intro file
    obtain ⟨out, n, h1, h2, h3, h4, _, _⟩ :=
      encode_integer_shape (List.replicate MAX_INTEGER_SIZE 0) v (by simp) h70
    have hmod : n % 256 = n := Nat.mod_eq_of_lt (by unfold MAX_INTEGER_SIZE at h3; omega)
    have hlen : (List.take n out).length = n := by
      rw [List.length_take, h4]
      simp
      omega
    refine ⟨(fwrite (out.take n) file).2, ?_⟩
    simp only [maxavro_write_integer, h1, hmod]
    simp [fwrite, hlen]

theorem encode_integer_one_to_ten_bytes_witness :
    (∃ out n, maxavro_encode_integer (List.replicate 10 0) 300 = some (out, n) ∧
      1 ≤ n ∧ n ≤ MAX_INTEGER_SIZE ∧ out.length = MAX_INTEGER_SIZE ∧
      (∀ i, i + 1 < n → ∃ b, out[i]? = some b ∧ continues b) ∧
      (∃ b, out[n - 1]? = some b ∧ ¬ continues b)) ∧
    ∀ file, ∃ file', maxavro_write_integer file 300 = some (true, file') :=
  encode_integer_one_to_ten_bytes 300 (by decide) (List.replicate 10 0) (by decide)

/-- C6: for every terminated varint of `k` bytes, `1 ≤ k ≤ 10`, at the position
of the source, `maxavro_read_integer` returns true, advances the source by
exactly `k` bytes, leaves `last_error` unchanged, and stores in `dest` the value
`avro_decode(r)`, `r` being the sum of `(b_i & 0x7f) << (7 * i)` truncated to 64
bits. -/
theorem read_integer_accepts_varint (file : maxavro_file_t) (dest : Option Nat)
    (bytes rest : List Byte) (hv : is_varint bytes)
    (hk : bytes.length ≤ MAX_INTEGER_SIZE) (hd : remaining file = bytes ++ rest) :
    maxavro_read_integer file dest =
      some (true, dest.map (fun _ => avro_decode (varint_sum bytes 0 % U64)),
        advance file bytes.length) ∧
    (advance file bytes.length).last_error = file.last_error := by
  refine ⟨?_, rfl⟩
  unfold maxavro_read_integer
  rw [read_integer_loop_accepts bytes (MAX_INTEGER_SIZE + 1) file dest 0 0 rest hv hd
    (by omega) (by omega) (by simp)]
  simp

theorem read_integer_accepts_varint_witness :
    maxavro_read_integer (source_of [0x80, 0x03, 0x55]) (some 0) =
      some (true, (some 0).map (fun _ => avro_decode (varint_sum [0x80, 0x03] 0 % U64)),
        advance (source_of [0x80, 0x03, 0x55]) 2) ∧
    (advance (source_of [0x80, 0x03, 0x55]) 2).last_error
      = (source_of [0x80, 0x03, 0x55]).last_error :=
  read_integer_accepts_varint (source_of [0x80, 0x03, 0x55]) (some 0) [0x80, 0x03] [0x55]
    (by decide) (by decide) rfl

theorem unterminated_iff (file : maxavro_file_t) :
    unterminated file ↔
      ∃ bs rest, remaining file = bs ++ rest ∧ bs.length = MAX_INTEGER_SIZE ∧
        ∀ c ∈ bs, continues c := by
  constructor
  · rintro ⟨h1, h2⟩
    exact ⟨(remaining file).take MAX_INTEGER_SIZE, (remaining file).drop MAX_INTEGER_SIZE,
      (List.take_append_drop _ _).symm, by simp [h1], h2⟩
  · rintro ⟨bs, rest, h1, h2, h3⟩
    refine ⟨by rw [h1]; simp; omega, ?_⟩
    rw [h1, ← h2]
    simpa using h3

/-- C7: when the next 10 bytes of the source all have the continuation bit set,
`maxavro_read_integer` returns false, sets `last_error` to
`MAXAVRO_ERR_VALUE_OVERFLOW`, leaves `dest` as it was and has advanced the source
by exactly 10 bytes; in every other case it returns with `last_error` unchanged,
so overflow is reported in that case only, and a terminated varint of 10 bytes
is accepted. -/
theorem read_integer_overflow_iff (file : maxavro_file_t) (dest : Option Nat) :
    (unterminated file →
      maxavro_read_integer file dest =
        some (false, dest,
          { advance file MAX_INTEGER_SIZE with last_error := MAXAVRO_ERR_VALUE_OVERFLOW })) ∧
    (¬ unterminated file →
      ∃ r, maxavro_read_integer file dest = some r ∧
        r.2.2.last_error = file.last_error) ∧
    (∀ bytes rest, is_varint bytes → bytes.length = MAX_INTEGER_SIZE →
      remaining file = bytes ++ rest →
      ∃ d, maxavro_read_integer file dest = some (true, d, advance file MAX_INTEGER_SIZE)) := by
  refine ⟨?_, ?_, ?_⟩
  · intro hun
    obtain ⟨bs, rest, hrem, hlen, hall⟩ := (unterminated_iff file).mp hun
    unfold maxavro_read_integer
    rw [read_integer_loop_rejects bs (MAX_INTEGER_SIZE + 1) file dest 0 0 rest hall hrem
      (by omega) (by omega), hlen]
  · intro hno
    obtain ⟨r, hr, hcase⟩ := read_integer_loop_error (MAX_INTEGER_SIZE + 1) file dest 0 0
      (Nat.zero_le _) (by omega)
    refine ⟨r, hr, ?_⟩
    rcases hcase with h | ⟨bs, rest, h1, h2, h3⟩
    · exact h
    · exact absurd ((unterminated_iff file).mpr ⟨bs, rest, h1, by simpa using h2, h3⟩) hno
  · intro bytes rest hv hlen hrem
    refine ⟨dest.map (fun _ => avro_decode ((0 + varint_sum bytes 0) % U64)), ?_⟩
    unfold maxavro_read_integer
    rw [read_integer_loop_accepts bytes (MAX_INTEGER_SIZE + 1) file dest 0 0 rest hv hrem
      (by omega) (by omega) (by simp), hlen]

theorem read_integer_overflow_iff_witness :
    unterminated (source_of (List.replicate 10 0x80 ++ [0x01])) ∧
    maxavro_read_integer (source_of (List.replicate 10 0x80 ++ [0x01])) (some 7) =
      some (false, some 7,
        { advance (source_of (List.replicate 10 0x80 ++ [0x01])) MAX_INTEGER_SIZE with
          last_error := MAXAVRO_ERR_VALUE_OVERFLOW }) ∧
    ¬ unterminated (source_of (List.replicate 9 0x80 ++ [0x01])) ∧
    (∃ r, maxavro_read_integer (source_of (List.replicate 9 0x80 ++ [0x01])) (some 7) = some r ∧
      r.2.2.last_error = (source_of (List.replicate 9 0x80 ++ [0x01])).last_error) ∧
    is_varint (List.replicate 9 0x80 ++ [0x01]) ∧
    (∃ d, maxavro_read_integer (source_of (List.replicate 9 0x80 ++ [0x01])) (some 7) =
      some (true, d, advance (source_of (List.replicate 9 0x80 ++ [0x01])) MAX_INTEGER_SIZE)) :=
  ⟨by decide,
   (read_integer_overflow_iff (source_of (List.replicate 10 0x80 ++ [0x01])) (some 7)).1
     (by decide),
   by decide,
   (read_integer_overflow_iff (source_of (List.replicate 9 0x80 ++ [0x01])) (some 7)).2.1
     (by decide),
   by decide,
   (read_integer_overflow_iff (source_of (List.replicate 9 0x80 ++ [0x01])) (some 7)).2.2
     (List.replicate 9 0x80 ++ [0x01]) [] (by decide) (by decide) (by decide)⟩

/-- C1: at `n = 2^64 - 1` (the `int64_t` value -1) the code's `encode_long` gives
`2^64 - 1` and `avro_decode` of that gives `2^63`, not `n`: on `uint64_t` the
shift `n >> 63` is logical, so the two mappings are not inverse once the top
bit is set. -/
theorem zigzag_round_trip_at_minus_one :
    encode_long (2 ^ 64 - 1) = 2 ^ 64 - 1 ∧
    avro_decode (encode_long (2 ^ 64 - 1)) = 2 ^ 63 ∧
    avro_decode (encode_long (2 ^ 64 - 1)) ≠ 2 ^ 64 - 1 := by
  decide

/-- C2: for `v = 128` `maxavro_encode_integer` writes the single byte `0x00`, and
`maxavro_read_integer` on that byte succeeds but stores 0, not 128. -/
theorem integer_round_trip_at_128 :
    encoded_integer 128 = some [0x00] ∧
    maxavro_read_integer (source_of [0x00]) (some 7) =
      some (true, some 0, advance (source_of [0x00]) 1) := by
  decide

/-- C3: for `v = 0` `avro_length_integer` returns 0 while `maxavro_encode_integer`
writes one byte and returns 1. -/
theorem length_integer_at_zero :
    avro_length_integer 0 = some 0 ∧
    maxavro_encode_integer (List.replicate MAX_INTEGER_SIZE 0) 0 =
      some (List.replicate MAX_INTEGER_SIZE 0, 1) := by
  decide

/-- C4: for `v = 128` the zigzag value is `e = 256`, `maxavro_encode_integer`
writes the single byte `0x00`, and the seven-bit groups of the written bytes
give 0: the group holding bit 8 of `e` is dropped. -/
theorem encode_integer_drops_groups_at_128 :
    encode_long 128 = 256 ∧ encoded_integer 128 = some [0x00] ∧
    varint_sum [0x00] 0 = 0 := by
  decide

/-- C8: on a source holding the single byte `0x80` the first byte is read, the
source then ends before a terminating byte, and `maxavro_read_integer` returns
false with `last_error` still `MAXAVRO_ERR_NONE`: no I/O error is recorded. -/
theorem read_integer_truncated_after_one_byte :
    maxavro_read_integer (source_of [0x80]) (some 7) =
      some (false, some 7,
        { file := { data := [0x80], pos := 1 }, last_error := MAXAVRO_ERR_NONE }) := by
  decide

/-- C9: for `s = "a"` `maxavro_encode_string` returns 2 and leaves the character
`0x61` in the first byte of `dest`, on top of the length; `maxavro_read_string`
on those 2 bytes returns `NULL` whether or not the allocation succeeds. -/
theorem encode_string_overwrites_length :
    maxavro_encode_string [0x00, 0x00] [0x61] = some ([0x61, 0x00], 2) ∧
    ∀ malloc, maxavro_read_string malloc (source_of [0x61, 0x00]) =
      some (none,
        if malloc (2 ^ 64 - 48) then
          { file := { data := [0x61, 0x00], pos := 2 }, last_error := MAXAVRO_ERR_IO }
        else
          { file := { data := [0x61, 0x00], pos := 1 }, last_error := MAXAVRO_ERR_MEMORY }) := by
  refine ⟨by decide, ?_⟩
  intro malloc
  have h : maxavro_read_integer (source_of [0x61, 0x00]) (some 0) =
      some (true, some (2 ^ 64 - 49), advance (source_of [0x61, 0x00]) 1) := by decide
  simp only [maxavro_read_string, h]
  have e : (2 : Nat) ^ 64 - 48 = 18446744073709551568 := by norm_num
  rw [e]
  cases hm : malloc 18446744073709551568 <;> simp [hm, U64, advance, source_of, fread]

/-- C10: for the string of 128 characters `a`, `maxavro_write_string` appends
the single length byte `0x00` (the zigzag value 256 loses its upper group) and
the 128 characters; `maxavro_read_string` on these 129 bytes reads length 0,
consumes one byte only and returns the empty string, or `NULL` when the
allocation fails. -/
theorem write_string_of_length_128 :
    maxavro_write_string { data := [], pos := 0 } (List.replicate 128 0x61) =
      some (true, { data := 0x00 :: List.replicate 128 0x61, pos := 129 }) ∧
    ∀ malloc, maxavro_read_string malloc (source_of (0x00 :: List.replicate 128 0x61)) =
      some (if malloc 1 then some [0x00] else none,
        { file := { data := 0x00 :: List.replicate 128 0x61, pos := 1 },
          last_error := if malloc 1 then MAXAVRO_ERR_NONE else MAXAVRO_ERR_MEMORY }) := by
  refine ⟨by decide, ?_⟩
  intro malloc
  have h : maxavro_read_integer (source_of (0x00 :: List.replicate 128 0x61)) (some 0) =
      some (true, some 0, advance (source_of (0x00 :: List.replicate 128 0x61)) 1) := by
    decide
  simp only [maxavro_read_string, h]
  cases hm : malloc 1 <;> simp [hm, U64, advance, source_of, fread]

/-! ## Strings, floats and maps -/

/-- The call `maxavro_read_integer` on a terminated varint. -/
theorem read_integer_on_varint (file : maxavro_file_t) (dest : Option Nat)
    (bytes rest : List Byte) (hv : is_varint bytes)
    (hk : bytes.length ≤ MAX_INTEGER_SIZE) (hd : remaining file = bytes ++ rest) :
    maxavro_read_integer file dest =
      some (true, dest.map (fun _ => avro_decode (varint_sum bytes 0 % U64)),
        advance file bytes.length) := by
  unfold maxavro_read_integer
  rw [read_integer_loop_accepts bytes (MAX_INTEGER_SIZE + 1) file dest 0 0 rest hv hd
    (by omega) (by omega) (by simp)]
  simp

/-- A read of `n` bytes when at least `n` bytes are left. -/
theorem fread_prefix (file : maxavro_file_t) (bs rest : List Byte)
    (hd : remaining file = bs ++ rest) :
    fread bs.length file.file = (bs, (advance file bs.length).file) := by
  unfold remaining at hd
  simp [fread, hd, advance]

/-- A read of `n` bytes when fewer than `n` bytes are left. -/
theorem fread_short (file : maxavro_file_t) (n : Nat) (h : (remaining file).length ≤ n) :
    fread n file.file = (remaining file, (advance file (remaining file).length).file) := by
  unfold remaining at *
  simp only [fread, advance]
  rw [List.take_of_length_le h]

/-- The call `maxavro_read_string` on a well-formed string when the allocation
succeeds. -/
theorem read_string_on_wire (malloc : Nat → Bool) (file : maxavro_file_t) (w : wire_string)
    (rest : List Byte) (hok : w.ok) (hd : remaining file = w.bytes ++ rest)
    (hm : malloc (w.payload.length + 1) = true) :
    maxavro_read_string malloc file =
      some (some (w.payload ++ [0]), advance file w.bytes.length) := by
  obtain ⟨hv, hk, hL, hnn⟩ := hok
  have hd1 : remaining file = w.len_bytes ++ (w.payload ++ rest) := by
    rw [hd, wire_string.bytes, List.append_assoc]
  have hrem : remaining (advance file w.len_bytes.length) = w.payload ++ rest :=
    remaining_advance file _ _ hd1
  have hsize : (w.payload.length + 1) % U64 = w.payload.length + 1 :=
    Nat.mod_eq_of_lt (by unfold U64; omega)
  simp only [maxavro_read_string, read_integer_on_varint file (some 0) w.len_bytes _ hv hk hd1,
    Option.map_some', Option.getD_some, hL, hsize, hm, if_true,
    fread_prefix (advance file w.len_bytes.length) w.payload rest hrem]
  simp [advance_advance, wire_string.bytes]
  rfl

/-- The call `maxavro_read_string` when the length was read, the allocation
succeeded and fewer payload bytes are left than the length asks for. -/
theorem read_string_on_short_payload (malloc : Nat → Bool) (file : maxavro_file_t)
    (bytes tail : List Byte) (hv : is_varint bytes) (hk : bytes.length ≤ MAX_INTEGER_SIZE)
    (hd : remaining file = bytes ++ tail)
    (hL : tail.length < avro_decode (varint_sum bytes 0 % U64))
    (hnn : avro_decode (varint_sum bytes 0 % U64) < 2 ^ 63)
    (hm : malloc (avro_decode (varint_sum bytes 0 % U64) + 1) = true) :
    maxavro_read_string malloc file =
      some (none,
        if tail.length ≠ 0 then
          { advance file (bytes.length + tail.length) with last_error := MAXAVRO_ERR_IO }
        else advance file bytes.length) := by
  have hrem : remaining (advance file bytes.length) = tail := by
    have := remaining_advance file bytes tail hd
    simpa using this
  have hsize : (avro_decode (varint_sum bytes 0 % U64) + 1) % U64 =
      avro_decode (varint_sum bytes 0 % U64) + 1 :=
    Nat.mod_eq_of_lt (by have hU : U64 = 2 ^ 64 := rfl; omega)
  have hfr := fread_short (advance file bytes.length)
    (avro_decode (varint_sum bytes 0 % U64)) (by rw [hrem]; omega)
  rw [hrem] at hfr
  simp only [maxavro_read_string, read_integer_on_varint file (some 0) bytes tail hv hk hd,
    Option.map_some', Option.getD_some, hsize, hm, if_true, hfr]
  have h1 : ¬ avro_decode (varint_sum bytes 0 % U64) + 1 < tail.length := by omega
  have h2 : ¬ tail.length = avro_decode (varint_sum bytes 0 % U64) := by omega
  simp only [h1, h2, if_false, advance_advance]
  by_cases h0 : tail.length = 0
  · simp [h0]
  · simp [h0]

/-- The call `maxavro_read_string` at the end of the source. -/
theorem read_string_at_end (malloc : Nat → Bool) (file : maxavro_file_t)
    (hd : remaining file = []) :
    maxavro_read_string malloc file = some (none, file) := by
  have h : maxavro_read_integer file (some 0) = some (false, some 0, file) :=
    read_integer_loop_eof MAX_INTEGER_SIZE file (some 0) 0 0 (by decide) hd
  simp [maxavro_read_string, h]

/-- The three outcomes of `read_fixed` for a positive width. -/
theorem read_fixed_cases (width : Nat) (hw : 0 < width) (file : maxavro_file_t)
    (dest : List Byte) :
    ((read_fixed width file dest).1 = true ↔ width ≤ (remaining file).length) ∧
    (width ≤ (remaining file).length →
      read_fixed width file dest =
        (true, (remaining file).take width ++ dest.drop width, advance file width)) ∧
    (0 < (remaining file).length → (remaining file).length < width →
      (read_fixed width file dest).1 = false ∧
      (read_fixed width file dest).2.2.last_error = MAXAVRO_ERR_IO) ∧
    ((remaining file).length = 0 → read_fixed width file dest = (false, dest, file)) := by
  have hfull : width ≤ (remaining file).length →
      read_fixed width file dest =
        (true, (remaining file).take width ++ dest.drop width, advance file width) := by
    intro h
    have hlen : (List.take width (remaining file)).length = width := by
      rw [List.length_take]; omega
    have hfr := fread_prefix file ((remaining file).take width) ((remaining file).drop width)
      (List.take_append_drop _ _).symm
    rw [hlen] at hfr
    simp [read_fixed, hfr, hlen]
    rfl
  have hpart : (remaining file).length < width →
      read_fixed width file dest =
        if (remaining file).length ≠ 0 then
          (false, remaining file ++ dest.drop (remaining file).length,
            { advance file (remaining file).length with last_error := MAXAVRO_ERR_IO })
        else (false, dest, file) := by
    intro h
    have hfr := fread_short file width (Nat.le_of_lt h)
    have hne : (remaining file).length ≠ width := by omega
    by_cases h0 : (remaining file).length = 0
    · have hnil : remaining file = [] := List.length_eq_zero.mp h0
      have hw0 : ¬ width = 0 := by omega
      rw [hnil] at hfr
      simp [read_fixed, hfr, hnil, advance_zero]
      intro hc
      exact absurd hc.symm hw0
    · simp [read_fixed, hfr, hne, h0]
  refine ⟨?_, hfull, ?_, ?_⟩
  · constructor
    · intro h
      by_contra hlt
      rw [hpart (by omega)] at h
      split at h <;> simp at h
    · intro h
      rw [hfull h]
  · intro h0 h1
    rw [hpart h1, if_pos (by omega)]
    exact ⟨rfl, rfl⟩
  · intro h0
    rw [hpart (by omega), if_neg (by omega)]

theorem pairs_bytes_cons (p : wire_string × wire_string)
    (ps : List (wire_string × wire_string)) :
    pairs_bytes (p :: ps) = p.1.bytes ++ (p.2.bytes ++ pairs_bytes ps) := by
  simp [pairs_bytes]

theorem blocks_bytes_cons (b : wire_block) (bs : List wire_block) :
    blocks_bytes (b :: bs) = b.count_bytes ++ (pairs_bytes b.pairs ++ blocks_bytes bs) := by
  simp [blocks_bytes, wire_block.bytes]

theorem nodes_of_cons (b : wire_block) (bs : List wire_block) :
    nodes_of (b :: bs) = b.pairs.map node_of ++ nodes_of bs := by
  simp [nodes_of]

theorem is_varint_length_pos (bs : List Byte) (h : is_varint bs) : 0 < bs.length := by
  cases bs with
  | nil => exact absurd h (by simp [is_varint])
  | cons b t => simp

theorem blocks_bytes_length (bs : List wire_block) (hok : ∀ b ∈ bs, b.ok) :
    bs.length ≤ (blocks_bytes bs).length := by
  induction bs with
  | nil => simp
  | cons b bs ih =>
    have h1 := is_varint_length_pos b.count_bytes (hok b (by simp)).1
    have h2 := ih (fun c hc => hok c (by simp [hc]))
    rw [blocks_bytes_cons]
    simp only [List.length_append, List.length_cons]
    omega

/-- The `for` loop of `maxavro_map_read` on the pairs of a block, all
allocations succeeding. -/
theorem map_read_block_on_pairs (malloc : Nat → Bool) (hm : ∀ n, malloc n = true) :
    ∀ (ps : List (wire_string × wire_string)) (file : maxavro_file_t)
      (rval : List maxavro_map_t) (rest : List Byte),
      (∀ p ∈ ps, p.1.ok ∧ p.2.ok) → remaining file = pairs_bytes ps ++ rest →
      map_read_block malloc true ps.length file rval =
        some (some ((ps.map node_of).reverse ++ rval),
          advance file (pairs_bytes ps).length) := by
  intro ps
  induction ps with
  | nil =>
    intro file rval rest _ _
    simp [map_read_block, pairs_bytes, advance_zero]
  | cons p ps ih =>
    intro file rval rest hok hd
    have hp := hok p (by simp)
    rw [pairs_bytes_cons, List.append_assoc, List.append_assoc] at hd
    have hk := read_string_on_wire malloc file p.1 _ hp.1 hd (hm _)
    have hd2 : remaining (advance file p.1.bytes.length) =
        p.2.bytes ++ (pairs_bytes ps ++ rest) := remaining_advance file _ _ hd
    have hv := read_string_on_wire malloc (advance file p.1.bytes.length) p.2 _ hp.2 hd2 (hm _)
    have hd3 : remaining (advance (advance file p.1.bytes.length) p.2.bytes.length) =
        pairs_bytes ps ++ rest := remaining_advance _ _ _ hd2
    have hrec := ih (advance (advance file p.1.bytes.length) p.2.bytes.length)
      (node_of p :: rval) rest (fun q hq => hok q (by simp [hq])) hd3
    simp only [List.length_cons, map_read_block, if_true, hk, hv]
    rw [show ({ key := p.1.payload ++ [0], value := p.2.payload ++ [0], blocks := 0 } :
      maxavro_map_t) = node_of p from rfl, hrec, advance_advance, advance_advance,
      pairs_bytes_cons]
    simp [Nat.add_assoc]

/-- The `while` loop of `maxavro_map_read` once the count of a block is read. -/
theorem map_read_loop_on_blocks (malloc : Nat → Bool) (hm : ∀ n, malloc n = true)
    (term : List Byte) (hterm : is_varint term) (hlen : term.length ≤ MAX_INTEGER_SIZE)
    (hzero : avro_decode (varint_sum term 0 % U64) = 0) :
    ∀ (bs : List wire_block) (fuel : Nat) (ps : List (wire_string × wire_string))
      (file : maxavro_file_t) (rval : List maxavro_map_t) (rest : List Byte),
      (∀ b ∈ bs, b.ok) → (∀ p ∈ ps, p.1.ok ∧ p.2.ok) → 0 < ps.length →
      remaining file = pairs_bytes ps ++ (blocks_bytes bs ++ (term ++ rest)) →
      bs.length + 2 ≤ fuel →
      map_read_loop malloc true fuel ps.length file rval =
        some (some ((nodes_of bs).reverse ++ ((ps.map node_of).reverse ++ rval)),
          advance file ((pairs_bytes ps).length + ((blocks_bytes bs).length + term.length))) := by
  intro bs
  induction bs with
  | nil =>
    intro fuel ps file rval rest _ hps hpos hd hf
    obtain ⟨f, rfl⟩ : ∃ f, fuel = f + 2 := ⟨fuel - 2, by simp at hf; omega⟩
    have hblk := map_read_block_on_pairs malloc hm ps file rval _ hps hd
    have hd2 : remaining (advance file (pairs_bytes ps).length) = term ++ rest := by
      have := remaining_advance file _ _ hd
      simpa [blocks_bytes] using this
    have hint := read_integer_on_varint (advance file (pairs_bytes ps).length)
      (some ps.length) term rest hterm hlen hd2
    simp only [map_read_loop, hpos, gt_iff_lt, if_true, hblk, hint, Option.map_some',
      Option.getD_some, hzero, Nat.lt_irrefl, if_false, advance_advance]
    simp [nodes_of, blocks_bytes]
  | cons b bs ih =>
    intro fuel ps file rval rest hbs hps hpos hd hf
    obtain ⟨f, rfl⟩ : ∃ f, fuel = f + 1 := ⟨fuel - 1, by simp at hf; omega⟩
    have hb := hbs b (by simp)
    have hblk := map_read_block_on_pairs malloc hm ps file rval _ hps hd
    have hd2 : remaining (advance file (pairs_bytes ps).length) =
        b.count_bytes ++ (pairs_bytes b.pairs ++ (blocks_bytes bs ++ (term ++ rest))) := by
      have := remaining_advance file _ _ hd
      simpa [blocks_bytes_cons] using this
    have hint := read_integer_on_varint (advance file (pairs_bytes ps).length)
      (some ps.length) b.count_bytes _ hb.1 hb.2.1 hd2
    have hd3 := remaining_advance _ _ _ hd2
    have hrec := ih f b.pairs
      (advance (advance file (pairs_bytes ps).length) b.count_bytes.length)
      ((ps.map node_of).reverse ++ rval) rest (fun c hc => hbs c (by simp [hc]))
      hb.2.2.2.2 hb.2.2.2.1 hd3 (by simp at hf; omega)
    simp only [advance_advance] at hrec
    simp only [map_read_loop, hpos, gt_iff_lt, if_true, hblk, hint, Option.map_some',
      Option.getD_some, hb.2.2.1, hrec, advance_advance, nodes_of_cons, blocks_bytes_cons]
    simp [Nat.add_assoc]

/-- C11: for `s = "a"` `avro_length_string` returns 1 while
`maxavro_encode_string` returns 2: the length leaves out the last byte of the
varint. -/
theorem length_string_one_short :
    avro_length_string [0x61] = some 1 ∧
    (maxavro_encode_string [0x00, 0x00] [0x61]).map Prod.snd = some 2 := by
  decide

/-- C12: when the source holds a terminated varint of at most 10 bytes whose
decoded value `L` is a non-negative `int64_t`, followed by at least `L` bytes,
and the allocation of `L + 1` bytes succeeds, `maxavro_read_string` returns a
buffer holding exactly those `L` bytes and a terminator, has advanced the source
by the varint plus `L` bytes and leaves `last_error` unchanged; for `L = 0` the
buffer is the empty string. -/
theorem read_string_returns_payload (malloc : Nat → Bool) (file : maxavro_file_t)
    (bytes payload rest : List Byte) (hv : is_varint bytes)
    (hk : bytes.length ≤ MAX_INTEGER_SIZE)
    (hL : avro_decode (varint_sum bytes 0 % U64) = payload.length)
    (hnn : payload.length < 2 ^ 63)
    (hd : remaining file = bytes ++ payload ++ rest)
    (hm : malloc (payload.length + 1) = true) :
    maxavro_read_string malloc file =
      some (some (payload ++ [0]), advance file (bytes.length + payload.length)) ∧
    (advance file (bytes.length + payload.length)).last_error = file.last_error ∧
    (payload = [] →
      maxavro_read_string malloc file = some (some [0], advance file bytes.length)) := by
  have h := read_string_on_wire malloc file { len_bytes := bytes, payload := payload } rest
    ⟨hv, hk, hL, hnn⟩ (by simpa [wire_string.bytes] using hd) hm
  simp only [wire_string.bytes, List.length_append] at h
  refine ⟨h, rfl, ?_⟩
  intro hp
  rw [h, hp]
  rfl

theorem read_string_returns_payload_witness :
    (maxavro_read_string (fun _ => true) (source_of [0x04, 0x61, 0x62, 0x63]) =
      some (some ([0x61, 0x62] ++ [0]), advance (source_of [0x04, 0x61, 0x62, 0x63]) (1 + 2)) ∧
    (advance (source_of [0x04, 0x61, 0x62, 0x63]) (1 + 2)).last_error
      = (source_of [0x04, 0x61, 0x62, 0x63]).last_error ∧
    (([0x61, 0x62] : List Byte) = [] →
      maxavro_read_string (fun _ => true) (source_of [0x04, 0x61, 0x62, 0x63]) =
        some (some [0], advance (source_of [0x04, 0x61, 0x62, 0x63]) 1))) ∧
    maxavro_read_string (fun _ => true) (source_of [0x00, 0x61]) =
      some (some [0], advance (source_of [0x00, 0x61]) 1) :=
  ⟨read_string_returns_payload (fun _ => true) (source_of [0x04, 0x61, 0x62, 0x63])
      [0x04] [0x61, 0x62] [0x63] (by decide) (by decide) (by decide) (by decide) rfl rfl,
   (read_string_returns_payload (fun _ => true) (source_of [0x00, 0x61])
      [0x00] [] [0x61] (by decide) (by decide) (by decide) (by decide) rfl rfl).2.2 rfl⟩

/-- C13: on a source holding only the length byte `0x02` (`L = 1`) the length
is consumed, no payload byte is left, and `maxavro_read_string` returns `NULL`
with `last_error` still `MAXAVRO_ERR_NONE`: no I/O error is recorded. -/
theorem read_string_no_payload_no_error :
    avro_decode 0x02 = 1 ∧
    maxavro_read_string (fun _ => true) (source_of [0x02]) =
      some (none, { file := { data := [0x02], pos := 1 }, last_error := MAXAVRO_ERR_NONE }) := by
  decide

/-- The truncated payload: when `maxavro_read_string` has consumed a length
prefix `L`, positive as an `int64_t`, the allocation succeeded and fewer than `L`
payload bytes are left, it returns `NULL`; it records `MAXAVRO_ERR_IO` when at least one
payload byte was left and leaves `last_error` unchanged when none was. When the
source is already at its end it returns `NULL`, consumes nothing and leaves
`last_error` unchanged. -/
theorem read_string_truncated_payload (malloc : Nat → Bool) (file : maxavro_file_t) :
    (∀ bytes tail : List Byte, is_varint bytes → bytes.length ≤ MAX_INTEGER_SIZE →
      remaining file = bytes ++ tail →
      tail.length < avro_decode (varint_sum bytes 0 % U64) →
      avro_decode (varint_sum bytes 0 % U64) < 2 ^ 63 →
      malloc (avro_decode (varint_sum bytes 0 % U64) + 1) = true →
      (0 < tail.length →
        maxavro_read_string malloc file =
          some (none, { advance file (bytes.length + tail.length) with
            last_error := MAXAVRO_ERR_IO })) ∧
      (tail.length = 0 →
        maxavro_read_string malloc file = some (none, advance file bytes.length) ∧
        (advance file bytes.length).last_error = file.last_error)) ∧
    (remaining file = [] → maxavro_read_string malloc file = some (none, file)) := by
  refine ⟨?_, read_string_at_end malloc file⟩
  intro bytes tail hv hk hd hL hnn hm
  have h := read_string_on_short_payload malloc file bytes tail hv hk hd hL hnn hm
  constructor
  · intro h0
    rw [h, if_pos (by omega)]
  · intro h0
    rw [h, if_neg (by omega)]
    exact ⟨rfl, rfl⟩

theorem read_string_truncated_payload_witness :
    maxavro_read_string (fun _ => true) (source_of [0x06, 0x61]) =
      some (none, { advance (source_of [0x06, 0x61]) (1 + 1) with
        last_error := MAXAVRO_ERR_IO }) ∧
    (maxavro_read_string (fun _ => true) (source_of [0x06]) =
      some (none, advance (source_of [0x06]) 1) ∧
      (advance (source_of [0x06]) 1).last_error = (source_of [0x06]).last_error) ∧
    maxavro_read_string (fun _ => true) (source_of []) = some (none, source_of []) :=
  ⟨((read_string_truncated_payload (fun _ => true) (source_of [0x06, 0x61])).1
      [0x06] [0x61] (by decide) (by decide) rfl (by decide) (by decide) rfl).1 (by decide),
   ((read_string_truncated_payload (fun _ => true) (source_of [0x06])).1
      [0x06] [] (by decide) (by decide) rfl (by decide) (by decide) rfl).2 rfl,
   (read_string_truncated_payload (fun _ => true) (source_of [])).2 rfl⟩

/-- C14: `maxavro_read_float` (width 4) and `maxavro_read_double` (width 8)
return true exactly when the full width is left in the source, and `dest`, an
object of that width, then holds those bytes; when between 1 and width - 1 bytes
are left they return false and set `last_error` to `MAXAVRO_ERR_IO`; when no
byte is left they return false and leave the file, `last_error` included, and
`dest` unchanged. -/
theorem read_float_double_outcomes (file : maxavro_file_t) (dest4 dest8 : List Byte)
    (h4 : dest4.length = 4) (h8 : dest8.length = 8) :
    (((maxavro_read_float file dest4).1 = true ↔ 4 ≤ (remaining file).length) ∧
     (4 ≤ (remaining file).length →
       maxavro_read_float file dest4 = (true, (remaining file).take 4, advance file 4)) ∧
     (0 < (remaining file).length → (remaining file).length < 4 →
       (maxavro_read_float file dest4).1 = false ∧
       (maxavro_read_float file dest4).2.2.last_error = MAXAVRO_ERR_IO) ∧
     ((remaining file).length = 0 → maxavro_read_float file dest4 = (false, dest4, file))) ∧
    (((maxavro_read_double file dest8).1 = true ↔ 8 ≤ (remaining file).length) ∧
     (8 ≤ (remaining file).length →
       maxavro_read_double file dest8 = (true, (remaining file).take 8, advance file 8)) ∧
     (0 < (remaining file).length → (remaining file).length < 8 →
       (maxavro_read_double file dest8).1 = false ∧
       (maxavro_read_double file dest8).2.2.last_error = MAXAVRO_ERR_IO) ∧
     ((remaining file).length = 0 →
       maxavro_read_double file dest8 = (false, dest8, file))) := by
  have d4 : dest4.drop 4 = [] := List.drop_eq_nil_of_le (by omega)
  have d8 : dest8.drop 8 = [] := List.drop_eq_nil_of_le (by omega)
  obtain ⟨a1, a2, a3, a4⟩ := read_fixed_cases 4 (by decide) file dest4
  obtain ⟨b1, b2, b3, b4⟩ := read_fixed_cases 8 (by decide) file dest8
  rw [d4, List.append_nil] at a2
  rw [d8, List.append_nil] at b2
  exact ⟨⟨a1, a2, a3, a4⟩, ⟨b1, b2, b3, b4⟩⟩

theorem nodes_of_length (bs : List wire_block) :
    (nodes_of bs).length = (bs.map (fun b => b.pairs.length)).sum := by
  induction bs with
  | nil => rfl
  | cons b bs ih => simp [nodes_of_cons, ih]

/-- C15: for every well-formed map encoding at the position of the source (blocks
with positive counts, each followed by that many key/value strings, ended by a
zero count), all allocations succeeding, `maxavro_map_read` returns the list
holding one node per encoded pair, each with the key and value buffers of its
pair, in reverse wire order (the pair read last at the head); duplicate keys
stay distinct nodes and the length of the list is the sum of the block counts.
The source is advanced past the encoding. -/
theorem map_read_returns_pairs (malloc : Nat → Bool) (file : maxavro_file_t) (w : wire_map)
    (rest : List Byte) (hok : w.ok) (hd : remaining file = w.bytes ++ rest)
    (hm : ∀ n, malloc n = true) :
    maxavro_map_read malloc true file =
      some ((nodes_of w.blocks).reverse, advance file w.bytes.length) ∧
    ((nodes_of w.blocks).reverse).length = (w.blocks.map (fun b => b.pairs.length)).sum := by
  refine ⟨?_, by rw [List.length_reverse, nodes_of_length]⟩
  obtain ⟨hbs, hterm, hlen, hzero⟩ := hok
  unfold wire_map.bytes at *
  cases hw : w.blocks with
  | nil =>
    rw [hw] at hd
    have hd1 : remaining file = w.terminator ++ rest := by simpa [blocks_bytes] using hd
    have hint := read_integer_on_varint file (some 0) w.terminator rest hterm hlen hd1
    simp [maxavro_map_read, hint, hzero, map_read_loop, nodes_of, blocks_bytes]
  | cons b bs =>
    rw [hw] at hd hbs
    have hb := hbs b (by simp)
    have hd1 : remaining file = b.count_bytes ++
        (pairs_bytes b.pairs ++ (blocks_bytes bs ++ (w.terminator ++ rest))) := by
      simpa [blocks_bytes_cons] using hd
    have hint := read_integer_on_varint file (some 0) b.count_bytes _ hb.1 hb.2.1 hd1
    have hd2 := remaining_advance _ _ _ hd1
    have hfuel : bs.length + 2 ≤ (remaining (advance file b.count_bytes.length)).length + 1 := by
      have h1 := blocks_bytes_length bs (fun c hc => hbs c (by simp [hc]))
      have h2 := is_varint_length_pos w.terminator hterm
      rw [hd2]
      simp only [List.length_append]
      omega
    have hloop := map_read_loop_on_blocks malloc hm w.terminator hterm hlen hzero bs
      ((remaining (advance file b.count_bytes.length)).length + 1) b.pairs
      (advance file b.count_bytes.length) [] rest (fun c hc => hbs c (by simp [hc]))
      hb.2.2.2.2 hb.2.2.2.1 hd2 hfuel
    unfold remaining at hloop
    simp only [maxavro_map_read, hint, if_true, Option.map_some', Option.getD_some, hb.2.2.1,
      hloop, advance_advance, nodes_of_cons, blocks_bytes_cons]
    simp [Nat.add_assoc]

theorem map_read_returns_pairs_witness :
    maxavro_map_read (fun _ => true) true
        (source_of [0x04, 0x02, 0x61, 0x02, 0x62, 0x02, 0x63, 0x00,
                    0x02, 0x02, 0x61, 0x02, 0x64, 0x00, 0x55]) =
      some ([{ key := [0x61, 0x00], value := [0x64, 0x00], blocks := 0 },
             { key := [0x63, 0x00], value := [0x00], blocks := 0 },
             { key := [0x61, 0x00], value := [0x62, 0x00], blocks := 0 }],
        advance (source_of [0x04, 0x02, 0x61, 0x02, 0x62, 0x02, 0x63, 0x00,
                            0x02, 0x02, 0x61, 0x02, 0x64, 0x00, 0x55]) 14) ∧
    List.length
        ([{ key := [0x61, 0x00], value := [0x64, 0x00], blocks := 0 },
          { key := [0x63, 0x00], value := [0x00], blocks := 0 },
          { key := [0x61, 0x00], value := [0x62, 0x00], blocks := 0 }] : List maxavro_map_t) =
      List.sum [2, 1] :=
  map_read_returns_pairs (fun _ => true)
    (source_of [0x04, 0x02, 0x61, 0x02, 0x62, 0x02, 0x63, 0x00,
                0x02, 0x02, 0x61, 0x02, 0x64, 0x00, 0x55])
    { blocks :=
        [{ count_bytes := [0x04],
           pairs := [(⟨[0x02], [0x61]⟩, ⟨[0x02], [0x62]⟩), (⟨[0x02], [0x63]⟩, ⟨[0x00], []⟩)] },
         { count_bytes := [0x02],
           pairs := [(⟨[0x02], [0x61]⟩, ⟨[0x02], [0x64]⟩)] }],
      terminator := [0x00] }
    [0x55] (by decide) rfl (fun _ => rfl)

/-- C16: the map read from the encoding of the single pair `("a", "b")` is
encoded by `avro_map_encode` into a zeroed buffer as 6 bytes that are all zero:
every part is stored at the start of `dest`, the last being the terminator.
Reading these bytes back gives the empty map. -/
theorem map_encode_overwrites_dest :
    maxavro_map_read (fun _ => true) true
        (source_of [0x02, 0x02, 0x61, 0x02, 0x62, 0x00]) =
      some ([{ key := [0x61, 0x00], value := [0x62, 0x00], blocks := 0 }],
        advance (source_of [0x02, 0x02, 0x61, 0x02, 0x62, 0x00]) 6) ∧
    avro_map_encode (List.replicate 6 0)
        [{ key := [0x61, 0x00], value := [0x62, 0x00], blocks := 0 }] =
      some (List.replicate 6 0, 6) ∧
    maxavro_map_read (fun _ => true) true (source_of (List.replicate 6 0)) =
      some ([], advance (source_of (List.replicate 6 0)) 1) := by
  decide

theorem read_float_double_outcomes_witness :
    maxavro_read_float (source_of [1, 2, 3, 4, 5]) [9, 9, 9, 9] =
      (true, (remaining (source_of [1, 2, 3, 4, 5])).take 4,
        advance (source_of [1, 2, 3, 4, 5]) 4) ∧
    ((maxavro_read_double (source_of [1, 2, 3, 4, 5]) (List.replicate 8 9)).1 = false ∧
      (maxavro_read_double (source_of [1, 2, 3, 4, 5]) (List.replicate 8 9)).2.2.last_error
        = MAXAVRO_ERR_IO) :=
  ⟨(read_float_double_outcomes (source_of [1, 2, 3, 4, 5]) [9, 9, 9, 9] (List.replicate 8 9)
      rfl rfl).1.2.1 (by decide),
   (read_float_double_outcomes (source_of [1, 2, 3, 4, 5]) [9, 9, 9, 9] (List.replicate 8 9)
      rfl rfl).2.2.2.1 (by decide) (by decide)⟩

/-! ## Table-map events -/

theorem notifications_append (a b : List effect) :
    notifications (a ++ b) = notifications a + notifications b := by
  simp [notifications]

theorem hashtable_fetch_add_delete {α : Type} (table : List (String × α)) (key : String)
    (value : α) :
    hashtable_fetch (hashtable_add (hashtable_delete table key) key value) key = some value := by
  have h : hashtable_fetch (hashtable_delete table key) key = none := by
    simp [hashtable_fetch, hashtable_delete]
  unfold hashtable_add
  rw [h]
  simp [hashtable_fetch]

/-- The branch for a new version notifies exactly when it succeeds and a prior
mapping exists. -/
theorem table_map_new_version_notifications (K : constants) (X : externals) (s : avro_state)
    (buf : List Byte) (ptr ev_len : Nat) (table_ident : String) (create : TABLE_CREATE)
    (old : Option TABLE_MAP) :
    notifications (table_map_new_version K X s buf ptr ev_len table_ident create old).2.effects =
      notifications s.effects +
        (if (table_map_new_version K X s buf ptr ev_len table_ident create old).1 = true
            ∧ old.isSome = true then 1 else 0) := by
  unfold table_map_new_version
  cases h1 : X.table_map_alloc buf ptr ev_len create with
  | none => simp [notifications]
  | some map =>
    cases h2 : X.json_new_schema_from_table map with
    | none => simp [h2, notifications]
    | some json_schema =>
      by_cases h3 : X.avro_table_alloc
          (avro_filepath K s.router.avrodir table_ident map.version) json_schema = true
      · cases old <;> simp [h2, h3, notifications]
      · simp [h2, h3, notifications]

/-- The branch for a new version succeeds exactly when the three set-up steps do. -/
theorem table_map_new_version_true_iff (K : constants) (X : externals) (s : avro_state)
    (buf : List Byte) (ptr ev_len : Nat) (table_ident : String) (create : TABLE_CREATE)
    (old : Option TABLE_MAP) :
    (table_map_new_version K X s buf ptr ev_len table_ident create old).1 = true ↔
      ∃ map json_schema, X.table_map_alloc buf ptr ev_len create = some map ∧
        X.json_new_schema_from_table map = some json_schema ∧
        X.avro_table_alloc (avro_filepath K s.router.avrodir table_ident map.version)
          json_schema = true := by
  unfold table_map_new_version
  cases h1 : X.table_map_alloc buf ptr ev_len create with
  | none => simp
  | some map =>
    cases h2 : X.json_new_schema_from_table map with
    | none => simp [h2]
    | some json_schema =>
      by_cases h3 : X.avro_table_alloc
          (avro_filepath K s.router.avrodir table_ident map.version) json_schema = true
      · simp [h2, h3]
      · simp [h2, h3]

/-- A table-map event adds one notification when a schema change is set up and
none otherwise. -/
theorem table_map_dispatch_notifications (K : constants) (X : externals) (s : avro_state)
    (buf : List Byte) (ptr ev_len : Nat) (ident : String) :
    (set_up_for K X s buf ptr ev_len ident ∧
      notifications (table_map_dispatch K X s buf ptr ev_len ident).2.effects
        = notifications s.effects + 1) ∨
    (¬ set_up_for K X s buf ptr ev_len ident ∧
      notifications (table_map_dispatch K X s buf ptr ev_len ident).2.effects
        = notifications s.effects) := by
  unfold set_up_for table_map_dispatch
  cases hc : hashtable_fetch s.router.created_tables ident with
  | none =>
    right
    simp [notifications]
  | some create =>
    cases ho : hashtable_fetch s.router.table_maps ident with
    | none =>
      right
      simp only [table_map_new_version_notifications]
      simp
    | some old =>
      by_cases hv : old.version = create.version
      · right
        simp [hv, table_map_same_version, notifications]
      · have hn := table_map_new_version_notifications K X s buf ptr ev_len ident
          create (some old)
        have ht := table_map_new_version_true_iff K X s buf ptr ev_len ident create (some old)
        simp only [ne_eq, hv, not_false_eq_true, if_true]
        by_cases hr : (table_map_new_version K X s buf ptr ev_len ident create (some old)).1
            = true
        · left
          obtain ⟨map, js, h1, h2, h3⟩ := ht.mp hr
          refine ⟨⟨create, old, map, js, rfl, rfl, hv, h1, h2, h3⟩, ?_⟩
          rw [hn]
          simp [hr]
        · right
          refine ⟨?_, ?_⟩
          · rintro ⟨c, o, map, js, e1, e2, _, h1, h2, h3⟩
            cases e1
            exact hr (ht.mpr ⟨map, js, h1, h2, h3⟩)
          · rw [hn]
            simp [hr]

/-- After a successful table-map event for an identity without a prior
mapping, the mapping returned by `table_map_alloc` is stored under the identity. -/
theorem table_map_dispatch_first_sight (K : constants) (X : externals) (s : avro_state)
    (buf : List Byte) (ptr ev_len : Nat) (ident : String) (create : TABLE_CREATE)
    (hc : hashtable_fetch s.router.created_tables ident = some create)
    (ho : hashtable_fetch s.router.table_maps ident = none)
    (hr : (table_map_dispatch K X s buf ptr ev_len ident).1 = true) :
    ∃ map, X.table_map_alloc buf ptr ev_len create = some map ∧
      hashtable_fetch (table_map_dispatch K X s buf ptr ev_len ident).2.router.table_maps
        ident = some map ∧
      (table_map_dispatch K X s buf ptr ev_len ident).2.router.event_type_hdr_lens
        = s.router.event_type_hdr_lens := by
  unfold table_map_dispatch at hr ⊢
  simp only [hc, ho] at hr ⊢
  unfold table_map_new_version at hr ⊢
  cases h1 : X.table_map_alloc buf ptr ev_len create with
  | none => simp [h1] at hr
  | some map =>
    cases h2 : X.json_new_schema_from_table map with
    | none => simp [h1, h2] at hr
    | some json_schema =>
      by_cases h3 : X.avro_table_alloc
          (avro_filepath K s.router.avrodir ident map.version) json_schema = true
      · refine ⟨map, rfl, ?_, ?_⟩
        · simp only [h2, h3, if_true]
          exact hashtable_fetch_add_delete _ _ _
        · simp [h2, h3]
      · simp [h1, h2, h3] at hr

theorem hashtable_replace_keys {α : Type} (table : List (String × α)) (key : String)
    (value : α) :
    (hashtable_replace table key value).map Prod.fst = table.map Prod.fst := by
  induction table with
  | nil => rfl
  | cons e rest ih =>
    unfold hashtable_replace
    by_cases h : (e.1 == key) = true
    · simp [h]
    · simp [h, ih]

theorem hashtable_fetch_replace_other {α : Type} (table : List (String × α))
    (key other : String) (value : α) (h : other ≠ key) :
    hashtable_fetch (hashtable_replace table key value) other = hashtable_fetch table other := by
  induction table with
  | nil => rfl
  | cons e rest ih =>
    unfold hashtable_replace
    by_cases hk : (e.1 == key) = true
    · have hek : e.1 = key := by simpa using hk
      have hne : ¬ (e.1 == other) = true := by
        simp only [beq_iff_eq]
        intro hc
        exact h (hc ▸ hek)
      simp [hk, hashtable_fetch, List.find?, hne, hek ▸ hne]
    · by_cases ho : (e.1 == other) = true
      · simp [hk, hashtable_fetch, List.find?, ho]
      · simp only [hashtable_fetch] at ih
        simp [hk, hashtable_fetch, List.find?, ho, ih]

theorem hashtable_fetch_replace_self {α : Type} (table : List (String × α)) (key : String)
    (value old : α) (h : hashtable_fetch table key = some old) :
    hashtable_fetch (hashtable_replace table key value) key = some value := by
  induction table with
  | nil => simp [hashtable_fetch] at h
  | cons e rest ih =>
    unfold hashtable_replace
    by_cases hk : (e.1 == key) = true
    · simp [hk, hashtable_fetch, List.find?]
    · have h2 : hashtable_fetch rest key = some old := by
        simpa [hashtable_fetch, List.find?, hk] using h
      have := ih h2
      simp only [hashtable_fetch] at this
      simp [hk, hashtable_fetch, List.find?, this]

theorem hashtable_replace_same {α : Type} (table : List (String × α)) (key : String)
    (old : α) (h : hashtable_fetch table key = some old) :
    hashtable_replace table key old = table := by
  induction table with
  | nil => rfl
  | cons e rest ih =>
    unfold hashtable_replace
    by_cases hk : (e.1 == key) = true
    · have h2 : e.2 = old := by
        simpa [hashtable_fetch, List.find?, hk] using h
      simp [hk, ← h2]
    · have h2 : hashtable_fetch rest key = some old := by
        simpa [hashtable_fetch, List.find?, hk] using h
      simp [hk, ih h2]

theorem active_maps_get_set (slots : List (Nat × TABLE_MAP)) (i : Nat) (map : TABLE_MAP) :
    active_maps_get (active_maps_set slots i (some map)) i = some map := by
  simp [active_maps_get, active_maps_set, List.find?]

/-- C19: `handle_table_map_event` calls `notify_all_clients` once when a create
definition exists, a prior mapping of the same table identity exists with a
version different from the create definition's, and the new mapping, its schema
and its output handle were set up successfully, and does not call it
otherwise; in particular it never notifies when the identity has no prior
mapping. For a first successful table-map event with the create definition at
version 1 followed, once the create definition is at version 2, by a
successful table-map event of the same identity, exactly one notification is
sent in total, `table_map_alloc` giving a mapping the version of its create
definition. -/
theorem table_map_event_notifies (K : constants) (X : externals) (s : avro_state)
    (hdr : REP_HEADER) (buf : List Byte) (ptr : Nat) :
    (schema_change_set_up K X s hdr buf ptr →
      notifications (handle_table_map_event K X s hdr buf ptr).2.effects
        = notifications s.effects + 1) ∧
    (¬ schema_change_set_up K X s hdr buf ptr →
      notifications (handle_table_map_event K X s hdr buf ptr).2.effects
        = notifications s.effects) ∧
    (hashtable_fetch s.router.table_maps (event_table_ident X s hdr buf ptr) = none →
      notifications (handle_table_map_event K X s hdr buf ptr).2.effects
        = notifications s.effects) ∧
    (∀ (created2 : List (String × TABLE_CREATE)) (hdr2 : REP_HEADER) (buf2 : List Byte)
      (ptr2 : Nat) (c1 c2 : TABLE_CREATE),
      (∀ b p l c m, X.table_map_alloc b p l c = some m → m.version = c.version) →
      hashtable_fetch s.router.table_maps (event_table_ident X s hdr buf ptr) = none →
      hashtable_fetch s.router.created_tables (event_table_ident X s hdr buf ptr) = some c1 →
      c1.version = 1 →
      event_table_ident X
          (with_created_tables (handle_table_map_event K X s hdr buf ptr).2 created2)
          hdr2 buf2 ptr2 = event_table_ident X s hdr buf ptr →
      hashtable_fetch created2 (event_table_ident X s hdr buf ptr) = some c2 →
      c2.version = 2 →
      (handle_table_map_event K X s hdr buf ptr).1 = true →
      (handle_table_map_event K X
        (with_created_tables (handle_table_map_event K X s hdr buf ptr).2 created2)
        hdr2 buf2 ptr2).1 = true →
      notifications (handle_table_map_event K X
        (with_created_tables (handle_table_map_event K X s hdr buf ptr).2 created2)
        hdr2 buf2 ptr2).2.effects = notifications s.effects + 1) := by
  have hmain := table_map_dispatch_notifications K X s buf ptr (event_hdr_len s hdr)
    (event_table_ident X s hdr buf ptr)
  have hfirst : hashtable_fetch s.router.table_maps (event_table_ident X s hdr buf ptr) = none →
      notifications (handle_table_map_event K X s hdr buf ptr).2.effects
        = notifications s.effects := by
    intro ho
    rcases hmain with ⟨hs, _⟩ | ⟨_, hn⟩
    · obtain ⟨_, old, _, _, _, h2, _⟩ := hs
      rw [ho] at h2
      cases h2
    · exact hn
  refine ⟨?_, ?_, hfirst, ?_⟩
  · intro hs
    rcases hmain with ⟨_, hn⟩ | ⟨hns, _⟩
    · exact hn
    · exact absurd hs hns
  · intro hns
    rcases hmain with ⟨hs, _⟩ | ⟨_, hn⟩
    · exact absurd hs hns
    · exact hn
  · intro created2 hdr2 buf2 ptr2 c1 c2 hX ho hc1 hv1 hid hc2 hv2 hr1 hr2
    obtain ⟨map1, ha1, hf1, hl1⟩ := table_map_dispatch_first_sight K X s buf ptr
      (event_hdr_len s hdr) (event_table_ident X s hdr buf ptr) c1 hc1 ho hr1
    have hm1 : map1.version = 1 := by rw [hX _ _ _ _ _ ha1, hv1]
    have h2 := table_map_dispatch_notifications K X
      (with_created_tables (handle_table_map_event K X s hdr buf ptr).2 created2) buf2 ptr2
      (event_hdr_len
        (with_created_tables (handle_table_map_event K X s hdr buf ptr).2 created2) hdr2)
      (event_table_ident X
        (with_created_tables (handle_table_map_event K X s hdr buf ptr).2 created2)
        hdr2 buf2 ptr2)
    have he : notifications
        (with_created_tables (handle_table_map_event K X s hdr buf ptr).2 created2).effects
          = notifications s.effects := hfirst ho
    rcases h2 with ⟨_, hn⟩ | ⟨hns, _⟩
    · have hn2 : notifications (handle_table_map_event K X
          (with_created_tables (handle_table_map_event K X s hdr buf ptr).2 created2)
          hdr2 buf2 ptr2).2.effects =
          notifications
            (with_created_tables (handle_table_map_event K X s hdr buf ptr).2 created2).effects
            + 1 := hn
      rw [hn2, he]
    · exfalso
      apply hns
      rw [hid]
      have hr2' : (table_map_dispatch K X
          (with_created_tables (handle_table_map_event K X s hdr buf ptr).2 created2) buf2 ptr2
          (event_hdr_len
            (with_created_tables (handle_table_map_event K X s hdr buf ptr).2 created2) hdr2)
          (event_table_ident X s hdr buf ptr)).1 = true := by
        rw [← hid]
        exact hr2
      have hfc : hashtable_fetch
          (with_created_tables (handle_table_map_event K X s hdr buf ptr).2 created2).router.created_tables
          (event_table_ident X s hdr buf ptr) = some c2 := hc2
      have hfm : hashtable_fetch
          (with_created_tables (handle_table_map_event K X s hdr buf ptr).2 created2).router.table_maps
          (event_table_ident X s hdr buf ptr) = some map1 := hf1
      have hne : map1.version ≠ c2.version := by rw [hm1, hv2]; decide
      unfold table_map_dispatch at hr2'
      simp only [hfc, hfm, ne_eq, hne, not_false_eq_true, if_true] at hr2'
      obtain ⟨map, js, h1, h2, h3⟩ := (table_map_new_version_true_iff K X _ buf2 ptr2 _
        (event_table_ident X s hdr buf ptr) c2 (some map1)).mp hr2'
      exact ⟨c2, map1, map, js, hfc, hfm, hne, h1, h2, h3⟩

theorem table_map_event_notifies_witness :
    notifications (handle_table_map_event sample_constants sample_externals
        (sample_mapped_state 2) sample_table_map_hdr sample_table_map_event 0).2.effects
      = notifications (sample_mapped_state 2).effects + 1 ∧
    notifications (handle_table_map_event sample_constants sample_externals
        (sample_mapped_state 1) sample_table_map_hdr sample_table_map_event 0).2.effects
      = notifications (sample_mapped_state 1).effects ∧
    notifications (handle_table_map_event sample_constants sample_externals
        (sample_state 1) sample_table_map_hdr sample_table_map_event 0).2.effects
      = notifications (sample_state 1).effects ∧
    notifications (handle_table_map_event sample_constants sample_externals
        (with_created_tables
          (handle_table_map_event sample_constants sample_externals (sample_state 1)
            sample_table_map_hdr sample_table_map_event 0).2 [("db.t", sample_create 2)])
        sample_table_map_hdr sample_table_map_event 0).2.effects
      = notifications (sample_state 1).effects + 1 :=
  ⟨(table_map_event_notifies sample_constants sample_externals (sample_mapped_state 2)
      sample_table_map_hdr sample_table_map_event 0).1
      ⟨sample_create 2, sample_map 7 (sample_create 1), sample_map 7 (sample_create 2),
        "schema", by decide, by decide, by decide, by decide, by decide, by decide⟩,
   (table_map_event_notifies sample_constants sample_externals (sample_mapped_state 1)
      sample_table_map_hdr sample_table_map_event 0).2.1
      (by
        rintro ⟨c, o, m, j, h1, h2, h3, _⟩
        have e1 : some (sample_create 1) = some c := h1
        have e2 : some (sample_map 7 (sample_create 1)) = some o := h2
        cases e1
        cases e2
        exact h3 rfl),
   (table_map_event_notifies sample_constants sample_externals (sample_state 1)
      sample_table_map_hdr sample_table_map_event 0).2.2.1 (by decide),
   (table_map_event_notifies sample_constants sample_externals (sample_state 1)
      sample_table_map_hdr sample_table_map_event 0).2.2.2
      [("db.t", sample_create 2)] sample_table_map_hdr sample_table_map_event 0
      (sample_create 1) (sample_create 2)
      (by intro b p l c m h; cases h; rfl)
      (by decide) (by decide) rfl (by decide) (by decide) rfl (by decide) (by decide)⟩

/-- C20: when a table-map event arrives for a table identity that has a create
definition and a mapping of the same version, `handle_table_map_event` returns
true; its only effect is the debug log entry, so no output handle is opened and
no notification sent; `open_tables` and the create definitions are unchanged;
`table_maps` keeps its keys and its other mappings, and the mapping of the
identity is the same object as changed by `table_map_remap` (`table_maps` is
unchanged when `table_map_remap` leaves the object as it is); that object is
active in the slot of its id. -/
theorem table_map_event_same_version (K : constants) (X : externals) (s : avro_state)
    (hdr : REP_HEADER) (buf : List Byte) (ptr : Nat) (create : TABLE_CREATE) (old : TABLE_MAP)
    (hc : hashtable_fetch s.router.created_tables (event_table_ident X s hdr buf ptr)
      = some create)
    (ho : hashtable_fetch s.router.table_maps (event_table_ident X s hdr buf ptr) = some old)
    (hv : old.version = create.version) :
    (handle_table_map_event K X s hdr buf ptr).1 = true ∧
    (handle_table_map_event K X s hdr buf ptr).2.effects
      = s.effects ++ [effect.MXS_DEBUG "Table %s re-mapped to %lu"] ∧
    notifications (handle_table_map_event K X s hdr buf ptr).2.effects
      = notifications s.effects ∧
    (handle_table_map_event K X s hdr buf ptr).2.router.open_tables = s.router.open_tables ∧
    (handle_table_map_event K X s hdr buf ptr).2.router.created_tables
      = s.router.created_tables ∧
    (handle_table_map_event K X s hdr buf ptr).2.router.table_maps.map Prod.fst
      = s.router.table_maps.map Prod.fst ∧
    (∀ key, key ≠ event_table_ident X s hdr buf ptr →
      hashtable_fetch (handle_table_map_event K X s hdr buf ptr).2.router.table_maps key
        = hashtable_fetch s.router.table_maps key) ∧
    hashtable_fetch (handle_table_map_event K X s hdr buf ptr).2.router.table_maps
        (event_table_ident X s hdr buf ptr)
      = some (X.table_map_remap buf ptr (event_hdr_len s hdr) old) ∧
    (X.table_map_remap buf ptr (event_hdr_len s hdr) old = old →
      (handle_table_map_event K X s hdr buf ptr).2.router.table_maps = s.router.table_maps) ∧
    active_maps_get (handle_table_map_event K X s hdr buf ptr).2.router.active_maps
        ((X.table_map_remap buf ptr (event_hdr_len s hdr) old).id % K.sizeof_active_maps)
      = some (X.table_map_remap buf ptr (event_hdr_len s hdr) old) := by
  have hrun : handle_table_map_event K X s hdr buf ptr =
      table_map_same_version K X s buf ptr (event_hdr_len s hdr)
        (event_table_ident X s hdr buf ptr) old := by
    show table_map_dispatch K X s buf ptr (event_hdr_len s hdr)
      (event_table_ident X s hdr buf ptr) = _
    unfold table_map_dispatch
    simp only [hc, ho, hv, ne_eq, not_true_eq_false, if_false]
  rw [hrun]
  unfold table_map_same_version
  refine ⟨rfl, rfl, ?_, rfl, rfl, ?_, ?_, ?_, ?_, ?_⟩
  · simp [notifications]
  · exact hashtable_replace_keys _ _ _
  · intro key hk
    exact hashtable_fetch_replace_other _ _ _ _ hk
  · exact hashtable_fetch_replace_self _ _ _ _ ho
  · intro hsame
    simp only [hsame]
    exact hashtable_replace_same _ _ _ ho
  · exact active_maps_get_set _ _ _

theorem table_map_event_same_version_witness :
    (handle_table_map_event sample_constants sample_externals (sample_mapped_state 1)
      sample_table_map_hdr [9, 0, 0, 0, 0, 0] 0).1 = true ∧
    (handle_table_map_event sample_constants sample_externals (sample_mapped_state 1)
      sample_table_map_hdr [9, 0, 0, 0, 0, 0] 0).2.effects
      = (sample_mapped_state 1).effects ++ [effect.MXS_DEBUG "Table %s re-mapped to %lu"] ∧
    (handle_table_map_event sample_constants sample_externals (sample_mapped_state 1)
      sample_table_map_hdr [9, 0, 0, 0, 0, 0] 0).2.router.open_tables
      = (sample_mapped_state 1).router.open_tables ∧
    active_maps_get (handle_table_map_event sample_constants sample_externals
        (sample_mapped_state 1) sample_table_map_hdr [9, 0, 0, 0, 0, 0] 0).2.router.active_maps 9
      = some (sample_map 9 (sample_create 1)) :=
  have h := table_map_event_same_version sample_constants sample_externals
    (sample_mapped_state 1) sample_table_map_hdr [9, 0, 0, 0, 0, 0] 0 (sample_create 1)
    (sample_map 7 (sample_create 1)) (by decide) (by decide) rfl
  ⟨h.1, h.2.1, h.2.2.2.1, h.2.2.2.2.2.2.2.2.2⟩

/-! ## Row events -/

/-- Decoding a present column leaves the router and the six common fields of
the record as they are. -/
theorem process_present_column_frame (K : constants) (X : externals) (map : TABLE_MAP)
    (buf : List Byte) (null_bitmap i : Nat) (name : String) (st st' : row_state)
    (h : process_present_column K X map buf null_bitmap i name st = some st') :
    st'.s.router = st.s.router ∧ record_head st'.record = record_head st.record := by
  unfold process_present_column at h
  simp only [] at h
  split_ifs at h <;> first
    | (cases h; exact ⟨rfl, rfl⟩)
    | (split at h
       · cases h; exact ⟨rfl, rfl⟩
       · cases h)
    | (split at h <;> cases h <;> exact ⟨rfl, rfl⟩)

/-- Where decoding a present column leaves the cursor does not depend on the
process state, the record or the column name. -/
theorem process_present_column_cursor (K : constants) (X : externals) (map : TABLE_MAP)
    (buf : List Byte) (null_bitmap i : Nat) (name1 name2 : String) (st1 st2 : row_state)
    (h : cursor_of st1 = cursor_of st2) :
    (process_present_column K X map buf null_bitmap i name1 st1).map cursor_of =
      (process_present_column K X map buf null_bitmap i name2 st2).map cursor_of := by
  simp only [cursor_of, Prod.mk.injEq] at h
  obtain ⟨h1, h2, h3, h4⟩ := h
  unfold process_present_column
  simp only [h1, h2, h3, h4]
  split_ifs <;> first
    | (simp [cursor_of, h1, h2, h3, h4]; done)
    | (split <;> simp [cursor_of])

theorem row_columns_loop_frame (K : constants) (X : externals) (map : TABLE_MAP)
    (create : TABLE_CREATE) (buf columns_present : List Byte) (null_bitmap : Nat) :
    ∀ (n i : Nat) (st st' : row_state),
      row_columns_loop K X map create buf columns_present null_bitmap n i st = some st' →
      st'.s.router = st.s.router ∧ record_head st'.record = record_head st.record := by
  intro n
  induction n with
  | zero =>
    intro i st st' h
    simp only [row_columns_loop, Option.some.injEq] at h
    subst h
    exact ⟨rfl, rfl⟩
  | succ n ih =>
    intro i st st' h
    unfold row_columns_loop at h
    split_ifs at h with h1 h2
    · cases hn : create.column_names[i]? with
      | none => simp [hn] at h
      | some name =>
        simp only [hn] at h
        cases hp : process_present_column K X map buf null_bitmap i name st with
        | none => simp [hp] at h
        | some st1 =>
          simp only [hp] at h
          obtain ⟨a1, a2⟩ := process_present_column_frame K X map buf null_bitmap i name
            st st1 hp
          obtain ⟨b1, b2⟩ := ih (i + 1) st1 st' h
          exact ⟨b1.trans a1, b2.trans a2⟩
    · cases hn : create.column_names[i]? with
      | none => simp [hn] at h
      | some name =>
        simp only [hn] at h
        exact ih (i + 1) st st' h
    · simp only [Option.some.injEq] at h
      subst h
      exact ⟨rfl, rfl⟩

theorem row_columns_loop_cursor (K : constants) (X : externals) (map : TABLE_MAP)
    (create : TABLE_CREATE) (buf columns_present : List Byte) (null_bitmap : Nat) :
    ∀ (n i : Nat) (st1 st2 : row_state), cursor_of st1 = cursor_of st2 →
      (row_columns_loop K X map create buf columns_present null_bitmap n i st1).map cursor_of =
      (row_columns_loop K X map create buf columns_present null_bitmap n i st2).map cursor_of := by
  intro n
  induction n with
  | zero =>
    intro i st1 st2 h
    simp [row_columns_loop, h]
  | succ n ih =>
    intro i st1 st2 h
    have hnp : st1.npresent = st2.npresent := by
      simp only [cursor_of, Prod.mk.injEq] at h
      exact h.2.1
    unfold row_columns_loop
    rw [hnp]
    split_ifs with h1 h2
    · cases hn : create.column_names[i]? with
      | none => rfl
      | some name =>
        simp only []
        have hc := process_present_column_cursor K X map buf null_bitmap i name name st1 st2 h
        cases hp1 : process_present_column K X map buf null_bitmap i name st1 with
        | none =>
          cases hp2 : process_present_column K X map buf null_bitmap i name st2 with
          | none => rfl
          | some b => rw [hp1, hp2] at hc; simp at hc
        | some a =>
          cases hp2 : process_present_column K X map buf null_bitmap i name st2 with
          | none => rw [hp1, hp2] at hc; simp at hc
          | some b =>
            rw [hp1, hp2] at hc
            simp only [Option.map_some', Option.some.injEq] at hc
            exact ih (i + 1) a b hc
    · cases hn : create.column_names[i]? with
      | none => rfl
      | some name => exact ih (i + 1) st1 st2 h
    · simp [h]

/-- Decoding a row leaves the router and the six common fields of the record as
they are. -/
theorem process_row_event_data_frame (K : constants) (X : externals) (s : avro_state)
    (map : TABLE_MAP) (create : TABLE_CREATE) (record : avro_record) (buf : List Byte)
    (ptr : Nat) (columns_present : List Byte) (r : avro_state × avro_record × Nat)
    (h : process_row_event_data K X s map create record buf ptr columns_present = some r) :
    r.1.router = s.router ∧ record_head r.2.1 = record_head record := by
  unfold process_row_event_data at h
  simp only [] at h
  split at h
  · cases h
  · next st hst =>
    cases h
    exact row_columns_loop_frame K X map create buf columns_present ptr map.columns 0 _ st hst

/-- Where a row ends does not depend on the process state or the record. -/
theorem process_row_event_data_cursor (K : constants) (X : externals) (s1 s2 : avro_state)
    (map : TABLE_MAP) (create : TABLE_CREATE) (r1 r2 : avro_record) (buf : List Byte)
    (ptr : Nat) (columns_present : List Byte) :
    (process_row_event_data K X s1 map create r1 buf ptr columns_present).map (fun r => r.2.2) =
    (process_row_event_data K X s2 map create r2 buf ptr columns_present).map (fun r => r.2.2) := by
  have h := row_columns_loop_cursor K X map create buf columns_present ptr map.columns 0
    { s := s1, record := r1, ptr := ptr + (map.columns + 7) / 8, npresent := 0,
      metadata_offset := 0, extra_bits := (map.columns + 7) / 8 * 8 - map.columns }
    { s := s2, record := r2, ptr := ptr + (map.columns + 7) / 8, npresent := 0,
      metadata_offset := 0, extra_bits := (map.columns + 7) / 8 * 8 - map.columns } rfl
  unfold process_row_event_data
  simp only []
  split <;> split <;> simp_all [cursor_of]

/-- The value of `get_event_type` for the three kinds of row events. -/
theorem get_event_type_kind (K : constants) (hd : codes_distinct K) (event : Nat) :
    (is_write_rows K event → (get_event_type K event).1 = WRITE_EVENT) ∧
    (is_update_rows K event → (get_event_type K event).1 = UPDATE_EVENT) ∧
    (is_delete_rows K event → (get_event_type K event).1 = DELETE_EVENT) ∧
    ((get_event_type K event).1 = UPDATE_EVENT → is_update_rows K event) := by
  obtain ⟨hw, hu⟩ := hd
  unfold is_write_rows is_update_rows is_delete_rows
  have m1 : event % 256 ∈ write_codes K ↔
      (event % 256 = K.WRITE_ROWS_EVENTv0 ∨ event % 256 = K.WRITE_ROWS_EVENTv1
        ∨ event % 256 = K.WRITE_ROWS_EVENTv2) := by simp [write_codes]
  have m2 : event % 256 ∈ update_codes K ↔
      (event % 256 = K.UPDATE_ROWS_EVENTv0 ∨ event % 256 = K.UPDATE_ROWS_EVENTv1
        ∨ event % 256 = K.UPDATE_ROWS_EVENTv2) := by simp [update_codes]
  have m3 : event % 256 ∈ delete_codes K ↔
      (event % 256 = K.DELETE_ROWS_EVENTv0 ∨ event % 256 = K.DELETE_ROWS_EVENTv1
        ∨ event % 256 = K.DELETE_ROWS_EVENTv2) := by simp [delete_codes]
  unfold get_event_type
  simp only [← m1, ← m2, ← m3]
  refine ⟨?_, ?_, ?_, ?_⟩
  · intro h
    simp [h]
  · intro h
    have : event % 256 ∉ write_codes K := fun hc => (hw _ hc).1 h
    simp [h, this]
  · intro h
    have h1 : event % 256 ∉ write_codes K := fun hc => (hw _ hc).2 h
    have h2 : event % 256 ∉ update_codes K := fun hc => hu _ hc h
    simp [h, h1, h2]
  · intro h
    split_ifs at h with a b c
    · simp [WRITE_EVENT, UPDATE_EVENT] at h
    · exact b
    · simp [DELETE_EVENT, UPDATE_EVENT] at h
    · simp [UPDATE_EVENT] at h

/-- Decoding the row image at `ptr` in any state ends where `row_image_end`
says, and leaves the router and the common fields of the record as they are. -/
theorem process_row_event_data_image (K : constants) (X : externals) (s : avro_state)
    (map : TABLE_MAP) (create : TABLE_CREATE) (record : avro_record)
    (buf col_present : List Byte) (ptr q : Nat)
    (hq : row_image_end K X map create buf col_present ptr = some q) :
    ∃ s' r', process_row_event_data K X s map create record buf ptr col_present
        = some (s', r', q) ∧
      s'.router = s.router ∧ record_head r' = record_head record := by
  have hc := process_row_event_data_cursor K X s blank_state map create record new_record
    buf ptr col_present
  unfold row_image_end at hq
  rw [hq] at hc
  cases hp : process_row_event_data K X s map create record buf ptr col_present with
  | none => rw [hp] at hc; simp at hc
  | some r =>
    rw [hp] at hc
    simp only [Option.map_some', Option.some.injEq] at hc
    obtain ⟨f1, f2⟩ := process_row_event_data_frame K X s map create record buf ptr
      col_present r hp
    obtain ⟨s', r', p'⟩ := r
    simp only at hc f1 f2
    subst hc
    exact ⟨s', r', rfl, f1, f2⟩

/-- The state `prepare_record` leaves: only the event number of the GTID
changes. -/
theorem prepare_record_state (s : avro_state) (hdr : REP_HEADER) (event_type : Int)
    (record : avro_record) :
    (prepare_record s hdr event_type record).1 =
      { s with router := { s.router with
          gtid := { s.router.gtid with event_num := s.router.gtid.event_num + 1 } } } := rfl

/-- The common fields of the record `prepare_record` leaves. -/
theorem prepare_record_head (s : avro_state) (hdr : REP_HEADER) (event_type : Int)
    (record : avro_record) :
    record_head (prepare_record s hdr event_type record).2 =
      (some s.router.gtid.domain, some s.router.gtid.server_id, some s.router.gtid.seq,
        some (s.router.gtid.event_num + 1), some hdr.timestamp, some event_type) := rfl

theorem advance_event_num_zero (router : AVRO_INSTANCE) :
    advance_event_num router 0 = router := rfl

theorem advance_event_num_add (router : AVRO_INSTANCE) (a b : Nat) :
    advance_event_num (advance_event_num router a) b = advance_event_num router (a + b) := by
  simp [advance_event_num, Nat.add_assoc]

theorem event_numbers_append (base a b : Nat) :
    event_numbers base a ++ event_numbers (base + a) b = event_numbers base (a + b) := by
  unfold event_numbers
  rw [List.range_add, List.map_append, List.map_map]
  congr 1
  apply List.map_congr_left
  intro k _
  simp only [Function.comp]
  congr 1
  omega

/-- One pass of the row loop of `handle_row_event` over a row entry. -/
theorem row_event_body_spec (K : constants) (X : externals) (hdr : REP_HEADER)
    (map : TABLE_MAP) (create : TABLE_CREATE) (buf col_present : List Byte)
    (hd : codes_distinct K) (st : rows_state) (q : Nat)
    (hq : row_entry_end K X hdr map create buf col_present st.ptr = some q) :
    ∃ st' new, row_event_body K X hdr map create buf col_present st = some st' ∧
      st'.ptr = q ∧ st'.appended = st.appended ++ new ∧
      new.map (fun r => r.event_type) = entry_tags (get_event_type K hdr.event_type).1 ∧
      new.map (fun r => r.event_number) =
        event_numbers st.s.router.gtid.event_num new.length ∧
      (∀ r ∈ new, stamped st.s.router.gtid hdr r) ∧
      st'.s.router = advance_event_num st.s.router new.length := by
  obtain ⟨_, hku, _, hkb⟩ := get_event_type_kind K hd hdr.event_type
  unfold row_entry_end at hq
  by_cases hu : is_update_rows K hdr.event_type
  · have hk := hku hu
    rw [if_pos hu] at hq
    cases h1 : row_image_end K X map create buf col_present st.ptr with
    | none => rw [h1] at hq; simp at hq
    | some q1 =>
      rw [h1] at hq
      simp only [Option.some_bind] at hq
      obtain ⟨s1, r1, e1, f1, g1⟩ := process_row_event_data_image K X
        (prepare_record { st.s with effects := st.s.effects ++ (get_event_type K hdr.event_type).2 }
          hdr (get_event_type K hdr.event_type).1 st.record).1
        map create
        (prepare_record { st.s with effects := st.s.effects ++ (get_event_type K hdr.event_type).2 }
          hdr (get_event_type K hdr.event_type).1 st.record).2
        buf col_present st.ptr q1 h1
      obtain ⟨s2, r2, e2, f2, g2⟩ := process_row_event_data_image K X
        (prepare_record s1 hdr UPDATE_EVENT_AFTER r1).1 map create
        (prepare_record s1 hdr UPDATE_EVENT_AFTER r1).2 buf col_present q1 q hq
      refine ⟨{ s := s2, record := r2, ptr := q, appended := st.appended ++ [r1] ++ [r2] },
        [r1, r2], ?_, rfl, by simp, ?_, ?_, ?_, ?_⟩
      · unfold row_event_body
        simp only [] at e1 ⊢
        rw [e1]
        simp only [hk, if_true]
        rw [e2]
      · rw [prepare_record_head] at g1 g2
        simp only [record_head, Prod.mk.injEq] at g1 g2
        simp [entry_tags, hk, g1.2.2.2.2.2, g2.2.2.2.2.2]
      · rw [prepare_record_head] at g1 g2
        rw [prepare_record_state] at f1
        simp only [record_head, Prod.mk.injEq] at g1 g2
        simp [event_numbers, List.range_succ, g1.2.2.2.1, g2.2.2.2.1, f1]
      · rw [prepare_record_head] at g1 g2
        rw [prepare_record_state] at f1
        simp only [record_head, Prod.mk.injEq] at g1 g2
        intro r hr
        simp only [List.mem_cons, List.mem_singleton, List.not_mem_nil, or_false] at hr
        rcases hr with rfl | rfl
        · exact ⟨g1.1, g1.2.1, g1.2.2.1, g1.2.2.2.2.1⟩
        · rw [f1] at g2
          exact ⟨g2.1, g2.2.1, g2.2.2.1, g2.2.2.2.2.1⟩
      · rw [prepare_record_state] at f1 f2
        simp only at f1 f2 ⊢
        rw [f2, f1]
        simp [advance_event_num, Nat.add_assoc]
  · have hk : ¬ (get_event_type K hdr.event_type).1 = UPDATE_EVENT := fun h => hu (hkb h)
    rw [if_neg hu] at hq
    obtain ⟨s1, r1, e1, f1, g1⟩ := process_row_event_data_image K X
      (prepare_record { st.s with effects := st.s.effects ++ (get_event_type K hdr.event_type).2 }
        hdr (get_event_type K hdr.event_type).1 st.record).1
      map create
      (prepare_record { st.s with effects := st.s.effects ++ (get_event_type K hdr.event_type).2 }
        hdr (get_event_type K hdr.event_type).1 st.record).2
      buf col_present st.ptr q hq
    refine ⟨{ s := s1, record := r1, ptr := q, appended := st.appended ++ [r1] },
      [r1], ?_, rfl, rfl, ?_, ?_, ?_, ?_⟩
    · unfold row_event_body
      simp only [] at e1 ⊢
      rw [e1]
      simp only [hk, if_false]
    · rw [prepare_record_head] at g1
      simp only [record_head, Prod.mk.injEq] at g1
      simp [entry_tags, hk, g1.2.2.2.2.2]
    · rw [prepare_record_head] at g1
      simp only [record_head, Prod.mk.injEq] at g1
      simp [event_numbers, List.range_succ, g1.2.2.2.1]
    · rw [prepare_record_head] at g1
      simp only [record_head, Prod.mk.injEq] at g1
      intro r hr
      simp only [List.mem_singleton] at hr
      subst hr
      exact ⟨g1.1, g1.2.1, g1.2.2.1, g1.2.2.2.2.1⟩
    · rw [prepare_record_state] at f1
      simp only at f1 ⊢
      rw [f1]
      rfl

/-- The row loop of `handle_row_event` over the row entries of an event: it
returns when the budget exceeds the number of entries, and the records it
appends carry, entry by entry, the tags of the event kind and consecutive event
numbers. -/
theorem row_event_loop_spec (K : constants) (X : externals) (hdr : REP_HEADER)
    (map : TABLE_MAP) (create : TABLE_CREATE) (buf col_present : List Byte) (start : Nat)
    (hd : codes_distinct K) :
    ∀ (ends : List Nat) (fuel : Nat) (st : rows_state),
      row_entries (row_entry_end K X hdr map create buf col_present) start
        (row_event_limit K hdr) st.ptr ends →
      ends.length < fuel →
      ∃ st' new, row_event_loop K X hdr map create buf col_present start fuel st = some st' ∧
        st'.appended = st.appended ++ new ∧
        new.map (fun r => r.event_type) =
          (List.replicate ends.length (entry_tags (get_event_type K hdr.event_type).1)).flatten ∧
        new.map (fun r => r.event_number) =
          event_numbers st.s.router.gtid.event_num new.length ∧
        (∀ r ∈ new, stamped st.s.router.gtid hdr r) ∧
        st'.s.router = advance_event_num st.s.router new.length := by
  intro ends
  induction ends with
  | nil =>
    intro fuel st hrows hf
    obtain ⟨f, rfl⟩ : ∃ f, fuel = f + 1 := ⟨fuel - 1, by simp at hf; omega⟩
    have hc : ¬ ((st.ptr : Int) - (start : Int) <
        row_event_limit K hdr) := hrows
    refine ⟨st, [], ?_, by simp, by simp, by simp [event_numbers], by simp, ?_⟩
    · simp only [row_event_loop, hc, if_false]
    · simp [advance_event_num_zero]
  | cons q ends ih =>
    intro fuel st hrows hf
    obtain ⟨f, rfl⟩ : ∃ f, fuel = f + 1 := ⟨fuel - 1, by simp at hf; omega⟩
    obtain ⟨hc, hq, hrest⟩ : (st.ptr : Int) - (start : Int) <
        row_event_limit K hdr ∧
        row_entry_end K X hdr map create buf col_present st.ptr = some q ∧
        row_entries (row_entry_end K X hdr map create buf col_present) start
          (row_event_limit K hdr) q ends := hrows
    obtain ⟨st1, new1, hb, hp1, ha1, ht1, hn1, hs1, hr1⟩ :=
      row_event_body_spec K X hdr map create buf col_present hd st q hq
    rw [← hp1] at hrest
    obtain ⟨st2, new2, hl, ha2, ht2, hn2, hs2, hr2⟩ := ih f st1 hrest (by simp at hf; omega)
    have hg : st1.s.router.gtid =
        { st.s.router.gtid with event_num := st.s.router.gtid.event_num + new1.length } := by
      rw [hr1]; rfl
    refine ⟨st2, new1 ++ new2, ?_, ?_, ?_, ?_, ?_, ?_⟩
    · simp only [row_event_loop, hc, if_true, hb, hl]
    · rw [ha2, ha1, List.append_assoc]
    · simp [List.replicate_succ, ht1, ht2]
    · rw [List.map_append, hn1, hn2, hg, List.length_append]
      exact event_numbers_append _ _ _
    · intro r hr
      rcases List.mem_append.mp hr with h | h
      · exact hs1 r h
      · have := hs2 r h
        rw [hg] at this
        exact this
    · rw [hr2, hr1, advance_event_num_add, List.length_append]

/-- An accepted row event holding the row entries `ends`, handled with a budget
above their number: `handle_row_event` returns true, the records `new` are
appended to the output handle of the mapping, and only the event number of the
GTID advances, by the number of records. -/
theorem handle_row_event_accepted (K : constants) (X : externals) (fuel : Nat)
    (s : avro_state) (hdr : REP_HEADER) (buf : List Byte) (ptr : Nat) (map : TABLE_MAP)
    (table : AVRO_TABLE) (create : TABLE_CREATE) (ends : List Nat) (hd : codes_distinct K)
    (hacc : accepted_row_event K X s hdr buf ptr map table create)
    (hrows : holds_row_entries K X s hdr buf ptr map create ends)
    (hf : ends.length < fuel) :
    ∃ s' new, handle_row_event K X fuel s hdr buf ptr = some (true, s') ∧
      hashtable_fetch s'.router.open_tables (table_ident_of K map)
        = some { table with records := table.records ++ new } ∧
      new.map (fun r => r.event_type) =
        (List.replicate ends.length (entry_tags (get_event_type K hdr.event_type).1)).flatten ∧
      new.map (fun r => r.event_number) =
        event_numbers s.router.gtid.event_num new.length ∧
      (∀ r ∈ new, stamped s.router.gtid hdr r) ∧
      s'.router.gtid = { s.router.gtid with
        event_num := s.router.gtid.event_num + new.length } := by
  obtain ⟨h1, h2, h3, h4, h5⟩ := hacc
  unfold row_event_table_id row_event_flags at h1
  unfold row_event_table_id at h2
  unfold row_event_ncolumns at h5
  obtain ⟨st', new, hl, ha, ht, hn, hs, hr⟩ := row_event_loop_spec K X hdr map create buf
    (row_event_col_present K X s hdr buf ptr) ptr hd ends fuel
    { s := s, record := new_record, ptr := row_event_rows_start K X s hdr buf ptr,
      appended := [] } hrows hf
  unfold row_event_col_present row_event_rows_start at hl
  simp only [List.nil_append] at ha
  have hot : st'.s.router.open_tables = s.router.open_tables := by rw [hr]; rfl
  refine ⟨{ st'.s with
      router := { st'.s.router with
        open_tables := hashtable_replace st'.s.router.open_tables (table_ident_of K map)
          { table with records := table.records ++ new } },
      effects := st'.s.effects ++ [effect.add_used_table (table_ident_of K map)] },
    new, ?_, ?_, ht, hn, hs, ?_⟩
  · unfold handle_row_event
    simp only [h1, if_false, h2, h3, h4, h5, if_true, hl, ha]
  · simp only [hot]
    exact hashtable_fetch_replace_self _ _ _ _ h3
  · simp only [hr]
    rfl

theorem flatten_replicate_singleton {α : Type} (n : Nat) (x : α) :
    (List.replicate n [x]).flatten = List.replicate n x := by
  induction n with
  | zero => rfl
  | succ n ih => simp [List.replicate_succ, ih]

theorem length_flatten_replicate_pair {α : Type} (n : Nat) (x y : α) :
    ((List.replicate n [x, y]).flatten).length = 2 * n := by
  induction n with
  | zero => rfl
  | succ n ih =>
    simp only [List.replicate_succ, List.flatten_cons, List.length_append, ih]
    simp
    omega

/-- C17: for every accepted row event holding `r` row entries, handled with a
budget above `r`, `handle_row_event` returns true and appends to the output
handle of the mapping exactly `r` records for a write event, all tagged
`WRITE_EVENT`, exactly `r` records for a delete event, all tagged
`DELETE_EVENT`, and exactly `2 * r` records for an update event, tagged
`UPDATE_EVENT` and `UPDATE_EVENT_AFTER` in turn, in row order. -/
theorem row_event_appends_tagged_records (K : constants) (X : externals) (fuel : Nat)
    (s : avro_state) (hdr : REP_HEADER) (buf : List Byte) (ptr : Nat) (map : TABLE_MAP)
    (table : AVRO_TABLE) (create : TABLE_CREATE) (ends : List Nat) (hd : codes_distinct K)
    (hacc : accepted_row_event K X s hdr buf ptr map table create)
    (hrows : holds_row_entries K X s hdr buf ptr map create ends)
    (hf : ends.length < fuel) :
    ∃ s' new, handle_row_event K X fuel s hdr buf ptr = some (true, s') ∧
      hashtable_fetch s'.router.open_tables (table_ident_of K map)
        = some { table with records := table.records ++ new } ∧
      (is_write_rows K hdr.event_type →
        new.length = ends.length ∧
        new.map (fun r => r.event_type) = List.replicate ends.length (some WRITE_EVENT)) ∧
      (is_delete_rows K hdr.event_type →
        new.length = ends.length ∧
        new.map (fun r => r.event_type) = List.replicate ends.length (some DELETE_EVENT)) ∧
      (is_update_rows K hdr.event_type →
        new.length = 2 * ends.length ∧
        new.map (fun r => r.event_type) =
          (List.replicate ends.length [some UPDATE_EVENT, some UPDATE_EVENT_AFTER]).flatten) := by
  obtain ⟨s', new, h1, h2, ht, _, _, _⟩ :=
    handle_row_event_accepted K X fuel s hdr buf ptr map table create ends hd hacc hrows hf
  obtain ⟨kw, ku, kd, _⟩ := get_event_type_kind K hd hdr.event_type
  have hlen : new.length = (new.map (fun r => r.event_type)).length := by simp
  refine ⟨s', new, h1, h2, ?_, ?_, ?_⟩
  · intro hw
    rw [kw hw] at ht
    have e : entry_tags WRITE_EVENT = [some WRITE_EVENT] := by decide
    rw [e, flatten_replicate_singleton] at ht
    exact ⟨by rw [hlen, ht, List.length_replicate], ht⟩
  · intro hdel
    rw [kd hdel] at ht
    have e : entry_tags DELETE_EVENT = [some DELETE_EVENT] := by decide
    rw [e, flatten_replicate_singleton] at ht
    exact ⟨by rw [hlen, ht, List.length_replicate], ht⟩
  · intro hu
    rw [ku hu] at ht
    have e : entry_tags UPDATE_EVENT = [some UPDATE_EVENT, some UPDATE_EVENT_AFTER] := by
      decide
    rw [e] at ht
    exact ⟨by rw [hlen, ht, length_flatten_replicate_pair], ht⟩

theorem row_event_appends_tagged_records_witness :
    accepted_row_event sample_constants sample_externals (sample_mapped_state 1)
      sample_update_hdr sample_update_event 0 (sample_map 7 (sample_create 1)) sample_table
      (sample_create 1) ∧
    holds_row_entries sample_constants sample_externals (sample_mapped_state 1)
      sample_update_hdr sample_update_event 0 (sample_map 7 (sample_create 1))
      (sample_create 1) [13, 15] ∧
    is_update_rows sample_constants sample_update_hdr.event_type ∧
    ∃ s' new, handle_row_event sample_constants sample_externals 3 (sample_mapped_state 1)
        sample_update_hdr sample_update_event 0 = some (true, s') ∧
      hashtable_fetch s'.router.open_tables "db.t"
        = some { sample_table with records := sample_table.records ++ new } ∧
      new.length = 4 ∧
      new.map (fun r => r.event_type) =
        [some UPDATE_EVENT, some UPDATE_EVENT_AFTER, some UPDATE_EVENT, some UPDATE_EVENT_AFTER] :=
  ⟨by decide, by decide, by decide,
   (row_event_appends_tagged_records sample_constants sample_externals 3
      (sample_mapped_state 1) sample_update_hdr sample_update_event 0
      (sample_map 7 (sample_create 1)) sample_table (sample_create 1) [13, 15]
      (by decide) (by decide) (by decide) (by decide)).elim
     (fun s' h => h.elim (fun new h =>
       ⟨s', new, h.1, h.2.1, (h.2.2.2.2 (by decide)).1, (h.2.2.2.2 (by decide)).2⟩))⟩

/-- C18: `prepare_record` increases `router->gtid.event_num` by exactly one and
changes nothing else of the state; the record then carries the new event
number, the domain, server id and sequence of the GTID, the timestamp of the
header and the event type. Consequently the records appended by one call of
`handle_row_event` for an accepted row event carry the event numbers
`n + 1`, `n + 2`, ... in the order appended, `n` being the event number before
the call, and the call leaves the event number advanced by the number of
records and the other GTID fields unchanged. -/
theorem prepare_record_numbers_records (K : constants) (X : externals) (s : avro_state)
    (hdr : REP_HEADER) :
    (∀ (event_type : Int) (record : avro_record),
      (prepare_record s hdr event_type record).1 =
        { s with router := advance_event_num s.router 1 } ∧
      (prepare_record s hdr event_type record).1.router.gtid.event_num
        = s.router.gtid.event_num + 1 ∧
      (prepare_record s hdr event_type record).1.router.gtid.domain = s.router.gtid.domain ∧
      (prepare_record s hdr event_type record).1.router.gtid.server_id
        = s.router.gtid.server_id ∧
      (prepare_record s hdr event_type record).1.router.gtid.seq = s.router.gtid.seq ∧
      (prepare_record s hdr event_type record).2 =
        { record with
          domain := some s.router.gtid.domain, server_id := some s.router.gtid.server_id,
          sequence := some s.router.gtid.seq,
          event_number := some (s.router.gtid.event_num + 1),
          timestamp := some hdr.timestamp, event_type := some event_type }) ∧
    (∀ (fuel : Nat) (buf : List Byte) (ptr : Nat) (map : TABLE_MAP) (table : AVRO_TABLE)
      (create : TABLE_CREATE) (ends : List Nat),
      codes_distinct K →
      accepted_row_event K X s hdr buf ptr map table create →
      holds_row_entries K X s hdr buf ptr map create ends →
      ends.length < fuel →
      ∃ s' new, handle_row_event K X fuel s hdr buf ptr = some (true, s') ∧
        hashtable_fetch s'.router.open_tables (table_ident_of K map)
          = some { table with records := table.records ++ new } ∧
        new.map (fun r => r.event_number) =
          event_numbers s.router.gtid.event_num new.length ∧
        (∀ r ∈ new, stamped s.router.gtid hdr r) ∧
        s'.router.gtid = { s.router.gtid with
          event_num := s.router.gtid.event_num + new.length }) := by
  constructor
  · intro event_type record
    exact ⟨rfl, rfl, rfl, rfl, rfl, rfl⟩
  · intro fuel buf ptr map table create ends hd hacc hrows hf
    obtain ⟨s', new, h1, h2, _, hn, hs, hg⟩ :=
      handle_row_event_accepted K X fuel s hdr buf ptr map table create ends hd hacc hrows hf
    exact ⟨s', new, h1, h2, hn, hs, hg⟩

theorem prepare_record_numbers_records_witness :
    ∃ s' new, handle_row_event sample_constants sample_externals 3 (sample_mapped_state 1)
        sample_update_hdr sample_update_event 0 = some (true, s') ∧
      hashtable_fetch s'.router.open_tables "db.t"
        = some { sample_table with records := sample_table.records ++ new } ∧
      new.map (fun r => r.event_number) =
        event_numbers (sample_mapped_state 1).router.gtid.event_num new.length ∧
      (∀ r ∈ new, stamped (sample_mapped_state 1).router.gtid sample_update_hdr r) ∧
      s'.router.gtid = { (sample_mapped_state 1).router.gtid with
        event_num := (sample_mapped_state 1).router.gtid.event_num + new.length } :=
  (prepare_record_numbers_records sample_constants sample_externals (sample_mapped_state 1)
    sample_update_hdr).2 3 sample_update_event 0 (sample_map 7 (sample_create 1)) sample_table
    (sample_create 1) [13, 15] (by decide) (by decide) (by decide) (by decide)

/-! ## Rejected row events and table-map events without a create definition -/

/-- The four ways in which `handle_row_event` rejects an event that is not the
release marker: it returns false, whatever the budget, and only logs one
error. -/
theorem handle_row_event_rejected (K : constants) (X : externals) (fuel : Nat)
    (s : avro_state) (hdr : REP_HEADER) (buf : List Byte) (ptr : Nat)
    (hm : ¬ is_release_marker K s hdr buf ptr) :
    (row_event_mapping K s hdr buf ptr = none →
      handle_row_event K X fuel s hdr buf ptr = some (false, logged s unmapped_table_error)) ∧
    (∀ map, row_event_mapping K s hdr buf ptr = some map →
      hashtable_fetch s.router.open_tables (table_ident_of K map) = none →
      handle_row_event K X fuel s hdr buf ptr = some (false, logged s missing_handle_error)) ∧
    (∀ map table, row_event_mapping K s hdr buf ptr = some map →
      hashtable_fetch s.router.open_tables (table_ident_of K map) = some table →
      map.table_create = none →
      handle_row_event K X fuel s hdr buf ptr = some (false, logged s missing_create_error)) ∧
    (∀ map table create, row_event_mapping K s hdr buf ptr = some map →
      hashtable_fetch s.router.open_tables (table_ident_of K map) = some table →
      map.table_create = some create →
      row_event_ncolumns K X s hdr buf ptr ≠ map.columns →
      handle_row_event K X fuel s hdr buf ptr = some (false, logged s column_count_error)) := by
  unfold is_release_marker row_event_table_id row_event_flags at hm
  unfold row_event_mapping row_event_table_id row_event_ncolumns
  refine ⟨?_, ?_, ?_, ?_⟩
  · intro h
    unfold handle_row_event
    simp only [hm, if_false, h]
    rfl
  · intro map h h2
    unfold handle_row_event
    simp only [hm, if_false, h, h2]
    rfl
  · intro map table h h2 h3
    unfold handle_row_event
    simp only [hm, if_false, h, h2, h3]
    rfl
  · intro map table create h h2 h3 h4
    unfold handle_row_event
    simp only [hm, if_false, h, h2, h3, h4]
    rfl

/-- C21: when no create definition is registered for the table identity of a
table-map event, `handle_table_map_event` returns false and only logs one
warning: the router (mappings, active slots, output handles, create definitions,
GTID) and the warning flags are unchanged and no notification is sent. A row
event that is not the release marker and whose table id selected an empty slot
before the table-map event is still rejected after it: `handle_row_event`
returns false and leaves the router unchanged. -/
theorem table_map_event_without_create (K : constants) (X : externals) (s : avro_state)
    (hdr : REP_HEADER) (buf : List Byte) (ptr : Nat)
    (hc : hashtable_fetch s.router.created_tables (event_table_ident X s hdr buf ptr) = none) :
    handle_table_map_event K X s hdr buf ptr = (false, logged s create_missing_warning) ∧
    (handle_table_map_event K X s hdr buf ptr).2.router = s.router ∧
    notifications (handle_table_map_event K X s hdr buf ptr).2.effects
      = notifications s.effects ∧
    (∀ (fuel : Nat) (rhdr : REP_HEADER) (rbuf : List Byte) (rptr : Nat),
      ¬ is_release_marker K s rhdr rbuf rptr →
      row_event_mapping K s rhdr rbuf rptr = none →
      ∃ s', handle_row_event K X fuel (handle_table_map_event K X s hdr buf ptr).2
          rhdr rbuf rptr = some (false, s') ∧ s'.router = s.router) := by
  have h : handle_table_map_event K X s hdr buf ptr
      = (false, logged s create_missing_warning) := by
    unfold event_table_ident event_hdr_len at hc
    unfold handle_table_map_event table_map_dispatch
    simp only [hc]
    rfl
  rw [h]
  refine ⟨rfl, rfl, ?_, ?_⟩
  · simp [logged, notifications, create_missing_warning]
  · intro fuel rhdr rbuf rptr hm hn
    exact ⟨_, (handle_row_event_rejected K X fuel (logged s create_missing_warning) rhdr rbuf
      rptr hm).1 hn, rfl⟩

theorem table_map_event_without_create_witness :
    handle_table_map_event sample_constants sample_externals sample_state_without_create
        sample_table_map_hdr sample_table_map_event 0
      = (false, logged sample_state_without_create create_missing_warning) ∧
    ∃ s', handle_row_event sample_constants sample_externals 0
        (handle_table_map_event sample_constants sample_externals sample_state_without_create
          sample_table_map_hdr sample_table_map_event 0).2
        sample_write_hdr sample_write_event 0 = some (false, s') ∧
      s'.router = sample_state_without_create.router :=
  ⟨(table_map_event_without_create sample_constants sample_externals
      sample_state_without_create sample_table_map_hdr sample_table_map_event 0
      (by decide)).1,
   (table_map_event_without_create sample_constants sample_externals
      sample_state_without_create sample_table_map_hdr sample_table_map_event 0
      (by decide)).2.2.2 0 sample_write_hdr sample_write_event 0 (by decide) (by decide)⟩

/-! ## Output handles -/

theorem count_keys_delete {α : Type} (table : List (String × α)) (key k : String) :
    ((hashtable_delete table key).map (fun e => e.1)).count k =
      if k = key then 0 else (table.map (fun e => e.1)).count k := by
  induction table with
  | nil => simp [hashtable_delete]
  | cons e rest ih =>
    unfold hashtable_delete at ih ⊢
    by_cases he : e.1 = key
    · by_cases hk : k = key
      · simp [List.filter_cons, he, hk] at ih ⊢
        exact ih
      · have hne : ¬ (key = k) := fun h => hk h.symm
        simp [List.filter_cons, he, hk, hne, List.count_cons] at ih ⊢
        exact ih
    · by_cases hk : k = key
      · have hne : ¬ (e.1 = k) := fun h => he (h.trans hk)
        simp [List.filter_cons, he, hk, List.count_cons] at ih ⊢
        subst hk
        simp [ih, hne]
      · simp [List.filter_cons, he, hk, List.count_cons] at ih ⊢
        rw [ih]

theorem hashtable_fetch_delete_self {α : Type} (table : List (String × α)) (key : String) :
    hashtable_fetch (hashtable_delete table key) key = none := by
  simp [hashtable_fetch, hashtable_delete]

theorem count_keys_add_delete {α : Type} (table : List (String × α)) (key k : String)
    (value : α) :
    ((hashtable_add (hashtable_delete table key) key value).map (fun e => e.1)).count k =
      if k = key then 1 else (table.map (fun e => e.1)).count k := by
  unfold hashtable_add
  rw [hashtable_fetch_delete_self]
  simp only [Option.isSome_none, Bool.false_eq_true, if_false, List.map_cons, List.count_cons,
    count_keys_delete]
  by_cases hk : k = key
  · subst hk
    simp
  · have hne : ¬ (key = k) := fun h => hk h.symm
    simp [hk, hne]

/-- What the branch for a new version does to `open_tables`: on success the
entry of the identity is replaced by the new handle, on failure the table is
as before or has lost the entry of the identity. -/
theorem table_map_new_version_open_tables (K : constants) (X : externals) (s : avro_state)
    (buf : List Byte) (ptr ev_len : Nat) (table_ident : String) (create : TABLE_CREATE)
    (old : Option TABLE_MAP) :
    ((table_map_new_version K X s buf ptr ev_len table_ident create old).1 = true ∧
      ∃ map json_schema, X.table_map_alloc buf ptr ev_len create = some map ∧
        X.json_new_schema_from_table map = some json_schema ∧
        (table_map_new_version K X s buf ptr ev_len table_ident create old).2.router.open_tables
          = hashtable_add (hashtable_delete s.router.open_tables table_ident) table_ident
              (new_handle K s table_ident map json_schema)) ∨
    ((table_map_new_version K X s buf ptr ev_len table_ident create old).1 = false ∧
      ((table_map_new_version K X s buf ptr ev_len table_ident create old).2.router.open_tables
          = s.router.open_tables ∨
        (table_map_new_version K X s buf ptr ev_len table_ident create old).2.router.open_tables
          = hashtable_delete s.router.open_tables table_ident)) := by
  unfold table_map_new_version
  cases h1 : X.table_map_alloc buf ptr ev_len create with
  | none => right; simp
  | some map =>
    cases h2 : X.json_new_schema_from_table map with
    | none => right; simp [h2]
    | some json_schema =>
      by_cases h3 : X.avro_table_alloc
          (avro_filepath K s.router.avrodir table_ident map.version) json_schema = true
      · left
        simp only [h2, h3, if_true, true_and]
        exact ⟨map, json_schema, rfl, h2, rfl⟩
      · right
        simp [h2, h3]

/-- A table-map event leaves at most one handle for an identity that had at
most one, and the handles of the other identities as they were. -/
theorem table_map_dispatch_handles (K : constants) (X : externals) (s : avro_state)
    (buf : List Byte) (ptr ev_len : Nat) (ident k : String) :
    handles_open (table_map_dispatch K X s buf ptr ev_len ident).2 k ≤ 1 ∨
    handles_open (table_map_dispatch K X s buf ptr ev_len ident).2 k = handles_open s k := by
  unfold table_map_dispatch
  have hnew : ∀ create old,
      handles_open (table_map_new_version K X s buf ptr ev_len ident create old).2 k ≤ 1 ∨
      handles_open (table_map_new_version K X s buf ptr ev_len ident create old).2 k
        = handles_open s k := by
    intro create old
    rcases table_map_new_version_open_tables K X s buf ptr ev_len ident create old with
      ⟨_, map, js, _, _, h⟩ | ⟨_, h | h⟩
    · unfold handles_open
      rw [h, count_keys_add_delete]
      split_ifs
      · left; exact Nat.le_refl 1
      · right; rfl
    · right
      unfold handles_open
      rw [h]
    · unfold handles_open
      rw [h, count_keys_delete]
      split_ifs
      · left; exact Nat.zero_le 1
      · right; rfl
  cases hc : hashtable_fetch s.router.created_tables ident with
  | none => right; rfl
  | some create =>
    cases ho : hashtable_fetch s.router.table_maps ident with
    | none => exact hnew create none
    | some old =>
      by_cases hv : old.version = create.version
      · right
        simp [hv, table_map_same_version, handles_open]
      · simp only [ne_eq, hv, not_false_eq_true, if_true]
        exact hnew create (some old)
theorem hashtable_fetch_delete_other {α : Type} (table : List (String × α)) (key k : String)
    (hk : k ≠ key) :
    hashtable_fetch (hashtable_delete table key) k = hashtable_fetch table k := by
  induction table with
  | nil => rfl
  | cons e rest ih =>
    unfold hashtable_fetch hashtable_delete at ih ⊢
    by_cases he : e.1 = key
    · have hb : (e.1 == key) = true := by simp [he]
      have hb2 : (e.1 == k) = false := by
        simp only [beq_eq_false_iff_ne, ne_eq]
        exact fun h => hk (h.symm.trans he)
      rw [List.filter_cons, List.find?_cons]
      simp only [hb, hb2, Bool.not_true, Bool.false_eq_true, if_false]
      exact ih
    · have hb : (e.1 == key) = false := by simp [he]
      rw [List.filter_cons]
      simp only [hb, Bool.not_false, if_true, List.find?_cons]
      cases hb2 : (e.1 == k)
      · exact ih
      · rfl

theorem hashtable_fetch_add_delete_other {α : Type} (table : List (String × α))
    (key k : String) (value : α) (hk : k ≠ key) :
    hashtable_fetch (hashtable_add (hashtable_delete table key) key value) k
      = hashtable_fetch table k := by
  unfold hashtable_add
  rw [hashtable_fetch_delete_self]
  simp only [Option.isSome_none, Bool.false_eq_true, if_false]
  have hne : ¬ (key = k) := fun h => hk h.symm
  have h := hashtable_fetch_delete_other table key k hk
  unfold hashtable_fetch at h ⊢
  simp [List.find?_cons, hne]
  simpa using h

/-- C22: after a successful table-map event for an identity that has no
mapping yet or a mapping of another version than its create definition,
`open_tables` holds exactly one output handle for the identity, the one just
opened for the new mapping, so that a previous handle of the identity is gone;
the handles of the other identities are as before. Across any sequence of
table-map events, with any changes of the create definitions in between,
`open_tables` never holds more than one handle for an identity when it held at
most one for each at the start. -/
theorem table_map_event_one_handle (K : constants) (X : externals) (s : avro_state)
    (hdr : REP_HEADER) (buf : List Byte) (ptr : Nat) :
    (∀ create,
      hashtable_fetch s.router.created_tables (event_table_ident X s hdr buf ptr)
        = some create →
      (∀ old, hashtable_fetch s.router.table_maps (event_table_ident X s hdr buf ptr)
        = some old → old.version ≠ create.version) →
      (handle_table_map_event K X s hdr buf ptr).1 = true →
      ∃ map json_schema,
        X.table_map_alloc buf ptr (event_hdr_len s hdr) create = some map ∧
        X.json_new_schema_from_table map = some json_schema ∧
        hashtable_fetch (handle_table_map_event K X s hdr buf ptr).2.router.open_tables
            (event_table_ident X s hdr buf ptr)
          = some (new_handle K s (event_table_ident X s hdr buf ptr) map json_schema) ∧
        handles_open (handle_table_map_event K X s hdr buf ptr).2
          (event_table_ident X s hdr buf ptr) = 1 ∧
        ∀ k, k ≠ event_table_ident X s hdr buf ptr →
          handles_open (handle_table_map_event K X s hdr buf ptr).2 k = handles_open s k ∧
          hashtable_fetch (handle_table_map_event K X s hdr buf ptr).2.router.open_tables k
            = hashtable_fetch s.router.open_tables k) ∧
    ((∀ k, handles_open s k ≤ 1) →
      ∀ events k, handles_open (run_table_map_events K X s events) k ≤ 1) := by
  constructor
  · intro create hc hv hr
    unfold event_table_ident event_hdr_len at *
    unfold handle_table_map_event at hr ⊢
    simp only [] at hr ⊢
    generalize (X.read_table_info buf ptr
      (s.router.event_type_hdr_lens.getD hdr.event_type 0)).2 = ident at *
    generalize s.router.event_type_hdr_lens.getD hdr.event_type 0 = ev_len at *
    have key : ∀ old, table_map_dispatch K X s buf ptr ev_len ident
        = table_map_new_version K X s buf ptr ev_len ident create old →
        ∃ map json_schema,
          X.table_map_alloc buf ptr ev_len create = some map ∧
          X.json_new_schema_from_table map = some json_schema ∧
          hashtable_fetch (table_map_dispatch K X s buf ptr ev_len ident).2.router.open_tables
              ident = some (new_handle K s ident map json_schema) ∧
          handles_open (table_map_dispatch K X s buf ptr ev_len ident).2 ident = 1 ∧
          ∀ k, k ≠ ident →
            handles_open (table_map_dispatch K X s buf ptr ev_len ident).2 k
              = handles_open s k ∧
            hashtable_fetch (table_map_dispatch K X s buf ptr ev_len ident).2.router.open_tables k
              = hashtable_fetch s.router.open_tables k := by
      intro old e
      rw [e] at hr ⊢
      rcases table_map_new_version_open_tables K X s buf ptr ev_len ident create old with
        ⟨_, map, js, h1, h2, h⟩ | ⟨hf, _⟩
      · refine ⟨map, js, h1, h2, ?_, ?_, ?_⟩
        · rw [h]
          exact hashtable_fetch_add_delete _ _ _
        · unfold handles_open
          rw [h, count_keys_add_delete]
          simp
        · intro k hk
          unfold handles_open
          rw [h, count_keys_add_delete]
          exact ⟨by simp [hk], hashtable_fetch_add_delete_other _ _ _ _ hk⟩
      · rw [hf] at hr
        cases hr
    cases ho : hashtable_fetch s.router.table_maps ident with
    | none =>
      apply key none
      unfold table_map_dispatch
      simp only [hc, ho]
    | some old =>
      apply key (some old)
      unfold table_map_dispatch
      simp only [hc, ho, ne_eq, hv old ho, not_false_eq_true, if_true]
  · intro h0 events
    induction events generalizing s with
    | nil => exact h0
    | cons e rest ih =>
      intro k
      unfold run_table_map_events
      apply ih
      intro k2
      have hd := table_map_dispatch_handles K X (with_created_tables s e.created) e.buf e.ptr
        ((with_created_tables s e.created).router.event_type_hdr_lens.getD e.hdr.event_type 0)
        (X.read_table_info e.buf e.ptr
          ((with_created_tables s e.created).router.event_type_hdr_lens.getD
            e.hdr.event_type 0)).2 k2
      have h2 : handles_open (with_created_tables s e.created) k2 = handles_open s k2 := rfl
      unfold handle_table_map_event
      rcases hd with hd | hd
      · exact hd
      · simp only [] at hd ⊢
        rw [hd, h2]
        exact h0 k2

theorem table_map_event_one_handle_witness :
    (∃ map json_schema,
      sample_externals.table_map_alloc sample_table_map_event 0
          (event_hdr_len (sample_mapped_state 2) sample_table_map_hdr) (sample_create 2)
        = some map ∧
      sample_externals.json_new_schema_from_table map = some json_schema ∧
      hashtable_fetch (handle_table_map_event sample_constants sample_externals
          (sample_mapped_state 2) sample_table_map_hdr sample_table_map_event 0).2.router.open_tables
          (event_table_ident sample_externals (sample_mapped_state 2) sample_table_map_hdr
            sample_table_map_event 0)
        = some (new_handle sample_constants (sample_mapped_state 2)
            (event_table_ident sample_externals (sample_mapped_state 2) sample_table_map_hdr
              sample_table_map_event 0) map json_schema) ∧
      handles_open (handle_table_map_event sample_constants sample_externals
          (sample_mapped_state 2) sample_table_map_hdr sample_table_map_event 0).2
        (event_table_ident sample_externals (sample_mapped_state 2) sample_table_map_hdr
          sample_table_map_event 0) = 1 ∧
      ∀ k, k ≠ event_table_ident sample_externals (sample_mapped_state 2) sample_table_map_hdr
          sample_table_map_event 0 →
        handles_open (handle_table_map_event sample_constants sample_externals
            (sample_mapped_state 2) sample_table_map_hdr sample_table_map_event 0).2 k
          = handles_open (sample_mapped_state 2) k ∧
        hashtable_fetch (handle_table_map_event sample_constants sample_externals
            (sample_mapped_state 2) sample_table_map_hdr sample_table_map_event 0).2.router.open_tables
            k
          = hashtable_fetch (sample_mapped_state 2).router.open_tables k) ∧
    handles_open (run_table_map_events sample_constants sample_externals (sample_state 1)
      [{ created := [("db.t", sample_create 1)], hdr := sample_table_map_hdr,
         buf := sample_table_map_event, ptr := 0 },
       { created := [("db.t", sample_create 2)], hdr := sample_table_map_hdr,
         buf := sample_table_map_event, ptr := 0 }]) "db.t" ≤ 1 :=
  ⟨(table_map_event_one_handle sample_constants sample_externals (sample_mapped_state 2)
      sample_table_map_hdr sample_table_map_event 0).1 (sample_create 2) (by decide)
      (by
        intro old h
        have e : some (sample_map 7 (sample_create 1)) = some old := h
        cases e
        decide)
      (by decide),
   (table_map_event_one_handle sample_constants sample_externals (sample_state 1)
      sample_table_map_hdr sample_table_map_event 0).2 (fun _ => Nat.zero_le 1) _ "db.t"⟩

/-! ## The active mapping of a table id -/

/-- C23: `handle_row_event` takes the mapping from the slot
`table_id % sizeof(router->active_maps)` and never compares the id of the
mapping with the table id of the event. After the one table-map event that maps
table id 7 to `db.t`, an update event for table id 8199, for which no table-map
event was seen, is decoded against the mapping with id 7: `handle_row_event`
returns true and the four records of the event are appended to the output
handle of `db.t`. -/
theorem row_event_decoded_against_other_id :
    row_event_table_id (sample_mapped_state 1) sample_update_hdr sample_other_id_event 0
      = 8199 ∧
    (sample_mapped_state 1).router.active_maps = [(7, sample_map 7 (sample_create 1))] ∧
    row_event_mapping sample_constants (sample_mapped_state 1) sample_update_hdr
      sample_other_id_event 0 = some (sample_map 7 (sample_create 1)) ∧
    (sample_map 7 (sample_create 1)).id ≠ 8199 ∧
    ∃ s' new, handle_row_event sample_constants sample_externals 3 (sample_mapped_state 1)
        sample_update_hdr sample_other_id_event 0 = some (true, s') ∧
      hashtable_fetch s'.router.open_tables "db.t"
        = some { sample_table with records := sample_table.records ++ new } ∧
      new.length = 4 := by
  refine ⟨by decide, by decide, by decide, by decide, ?_⟩
  obtain ⟨s', new, h1, h2, ht, _⟩ := handle_row_event_accepted sample_constants
    sample_externals 3 (sample_mapped_state 1) sample_update_hdr sample_other_id_event 0
    (sample_map 7 (sample_create 1)) sample_table (sample_create 1) [13, 15]
    (by decide) (by decide) (by decide) (by decide)
  refine ⟨s', new, h1, h2, ?_⟩
  have hl := congrArg List.length ht
  rw [List.length_map] at hl
  rw [hl]
  decide

/-! ## Dropped row events -/

/-- The release marker: `handle_row_event` returns true at once, whatever the
budget, the state, the event type and the rest of the event. -/
theorem handle_row_event_release_marker (K : constants) (X : externals) (fuel : Nat)
    (s : avro_state) (hdr : REP_HEADER) (buf : List Byte) (ptr : Nat)
    (hm : is_release_marker K s hdr buf ptr) :
    handle_row_event K X fuel s hdr buf ptr = some (true, s) := by
  unfold is_release_marker row_event_table_id row_event_flags at hm
  unfold handle_row_event
  simp only [hm, ne_eq, not_false_eq_true, and_self, if_true]

/-- C24, as stated, fails on the release marker: a write event with the table
id `TABLE_DUMMY_ID` and the end-of-statement flag, whose table id has no active
mapping, makes `handle_row_event` return true without any log entry. -/
theorem write_release_marker_logs_nothing :
    is_write_rows sample_constants sample_write_hdr.event_type ∧
    row_event_mapping sample_constants (sample_state 1) sample_write_hdr sample_marker_event 0
      = none ∧
    handle_row_event sample_constants sample_externals 1 (sample_state 1) sample_write_hdr
      sample_marker_event 0 = some (true, sample_state 1) ∧
    (sample_state 1).effects = [] :=
  ⟨by decide, by decide,
   handle_row_event_release_marker sample_constants sample_externals 1 (sample_state 1)
     sample_write_hdr sample_marker_event 0 (by decide),
   rfl⟩

/-- C24, amended: for every row event, a write event included, that is not the
release marker and whose table id selects an empty slot of `active_maps`,
`handle_row_event` returns false whatever the budget; the state after the call
is the state before it with exactly one more log entry, the error for an
unknown table, so that no record is appended and the mappings, the output
handles, the create definitions and the GTID are unchanged. -/
theorem unmapped_row_event_dropped (K : constants) (X : externals) (fuel : Nat)
    (s : avro_state) (hdr : REP_HEADER) (buf : List Byte) (ptr : Nat)
    (hm : ¬ is_release_marker K s hdr buf ptr)
    (hn : row_event_mapping K s hdr buf ptr = none) :
    ∃ s', handle_row_event K X fuel s hdr buf ptr = some (false, s') ∧
      s'.effects = s.effects ++ [unmapped_table_error] ∧
      s'.router = s.router ∧
      s'.router.open_tables = s.router.open_tables ∧
      s'.router.gtid = s.router.gtid :=
  ⟨logged s unmapped_table_error,
    (handle_row_event_rejected K X fuel s hdr buf ptr hm).1 hn, rfl, rfl, rfl, rfl⟩

theorem unmapped_row_event_dropped_witness :
    is_write_rows sample_constants sample_write_hdr.event_type ∧
    ∃ s', handle_row_event sample_constants sample_externals 1 (sample_state 1)
        sample_write_hdr sample_write_event 0 = some (false, s') ∧
      s'.effects = (sample_state 1).effects ++ [unmapped_table_error] ∧
      s'.router = (sample_state 1).router ∧
      s'.router.open_tables = (sample_state 1).router.open_tables ∧
      s'.router.gtid = (sample_state 1).router.gtid :=
  ⟨by decide,
   unmapped_row_event_dropped sample_constants sample_externals 1 (sample_state 1)
     sample_write_hdr sample_write_event 0 (by decide) (by decide)⟩

/-- C25, as stated, fails when the output handle of the mapping is missing:
the write event declares two columns, the active mapping has three, and
`handle_row_event` returns false after logging the error for the missing file
handle, not the error for the column counts. -/
theorem column_count_mismatch_other_error :
    row_event_mapping sample_constants sample_unopened_state sample_write_hdr
      sample_two_column_event 0 = some (sample_map 7 (sample_create 1)) ∧
    row_event_ncolumns sample_constants sample_externals sample_unopened_state
      sample_write_hdr sample_two_column_event 0 = 2 ∧
    (sample_map 7 (sample_create 1)).columns = 3 ∧
    handle_row_event sample_constants sample_externals 1 sample_unopened_state
      sample_write_hdr sample_two_column_event 0
      = some (false, logged sample_unopened_state missing_handle_error) ∧
    missing_handle_error ≠ column_count_error :=
  ⟨by decide, by decide, by decide,
   (handle_row_event_rejected sample_constants sample_externals 1 sample_unopened_state
     sample_write_hdr sample_two_column_event 0 (by decide)).2.1
     (sample_map 7 (sample_create 1)) (by decide) (by decide),
   by decide⟩

/-- C25, amended: for every row event that is not the release marker and whose
column count differs from the column count of the active mapping,
`handle_row_event` returns false whatever the budget; the state after the call
is the state before it with exactly one more log entry, so that no record is
appended and the GTID is unchanged. The entry is the error for the column
counts when the mapping has an output handle and a create definition, the
error for the missing file handle when it has no output handle, and the error
for the missing create definition otherwise. -/
theorem column_count_mismatch_rejected (K : constants) (X : externals) (fuel : Nat)
    (s : avro_state) (hdr : REP_HEADER) (buf : List Byte) (ptr : Nat) (map : TABLE_MAP)
    (hm : ¬ is_release_marker K s hdr buf ptr)
    (ha : row_event_mapping K s hdr buf ptr = some map)
    (hn : row_event_ncolumns K X s hdr buf ptr ≠ map.columns) :
    ∃ s' e, handle_row_event K X fuel s hdr buf ptr = some (false, s') ∧
      s'.effects = s.effects ++ [e] ∧
      s'.router = s.router ∧
      s'.router.open_tables = s.router.open_tables ∧
      s'.router.gtid = s.router.gtid ∧
      (e = column_count_error ↔
        (hashtable_fetch s.router.open_tables (table_ident_of K map)).isSome = true ∧
          map.table_create.isSome = true) ∧
      (e = missing_handle_error ↔
        hashtable_fetch s.router.open_tables (table_ident_of K map) = none) ∧
      (e = missing_create_error ↔
        (hashtable_fetch s.router.open_tables (table_ident_of K map)).isSome = true ∧
          map.table_create = none) := by
  obtain ⟨_, h2, h3, h4⟩ := handle_row_event_rejected K X fuel s hdr buf ptr hm
  cases ht : hashtable_fetch s.router.open_tables (table_ident_of K map) with
  | none =>
    refine ⟨logged s missing_handle_error, missing_handle_error, h2 map ha ht,
      rfl, rfl, rfl, rfl, ?_, ?_, ?_⟩
    · simp only [Option.isSome_none, Bool.false_eq_true, false_and, iff_false]
      decide
    · simp
    · simp only [Option.isSome_none, Bool.false_eq_true, false_and, iff_false]
      decide
  | some table =>
    cases hc : map.table_create with
    | none =>
      refine ⟨logged s missing_create_error, missing_create_error, h3 map table ha ht hc,
        rfl, rfl, rfl, rfl, ?_, ?_, ?_⟩
      · simp only [Option.isSome_none, Bool.false_eq_true, and_false, iff_false]
        decide
      · simp only [reduceCtorEq, iff_false]
        decide
      · simp
    | some create =>
      refine ⟨logged s column_count_error, column_count_error,
        h4 map table create ha ht hc hn, rfl, rfl, rfl, rfl, ?_, ?_, ?_⟩
      · simp
      · simp only [reduceCtorEq, iff_false]
        decide
      · simp only [reduceCtorEq, and_false, iff_false]
        decide

theorem column_count_mismatch_rejected_witness :
    ∃ s' e, handle_row_event sample_constants sample_externals 1 (sample_mapped_state 1)
        sample_write_hdr sample_two_column_event 0 = some (false, s') ∧
      s'.effects = (sample_mapped_state 1).effects ++ [e] ∧
      s'.router = (sample_mapped_state 1).router ∧
      s'.router.open_tables = (sample_mapped_state 1).router.open_tables ∧
      s'.router.gtid = (sample_mapped_state 1).router.gtid ∧
      (e = column_count_error ↔
        (hashtable_fetch (sample_mapped_state 1).router.open_tables
            (table_ident_of sample_constants (sample_map 7 (sample_create 1)))).isSome = true ∧
          (sample_map 7 (sample_create 1)).table_create.isSome = true) ∧
      (e = missing_handle_error ↔
        hashtable_fetch (sample_mapped_state 1).router.open_tables
          (table_ident_of sample_constants (sample_map 7 (sample_create 1))) = none) ∧
      (e = missing_create_error ↔
        (hashtable_fetch (sample_mapped_state 1).router.open_tables
            (table_ident_of sample_constants (sample_map 7 (sample_create 1)))).isSome = true ∧
          (sample_map 7 (sample_create 1)).table_create = none) :=
  column_count_mismatch_rejected sample_constants sample_externals 1 (sample_mapped_state 1)
    sample_write_hdr sample_two_column_event 0 (sample_map 7 (sample_create 1))
    (by decide) (by decide) (by decide)

/-- Reading bytes that lie inside a prefix of the event gives the same value
whatever follows the prefix. -/
theorem le_bytes_take_append (buf rest : List Byte) (n : Nat) (hn : n ≤ buf.length) :
    ∀ (k ptr : Nat), ptr + k ≤ n → le_bytes (buf.take n ++ rest) ptr k = le_bytes buf ptr k := by
  intro k
  induction k with
  | zero => intro ptr _; rfl
  | succ k ih =>
    intro ptr h
    have h1 : ptr < (buf.take n).length := by
      rw [List.length_take]
      omega
    have h2 : ptr < buf.length := by omega
    have h3 : ptr < n := by omega
    simp only [le_bytes]
    rw [ih (ptr + 1) (by omega)]
    congr 2
    simp [List.getD_eq_getElem?_getD, List.getElem?_append_left h1, List.getElem?_take, h3]

/-- C27: for every row event whose table id is `TABLE_DUMMY_ID` and whose flags
have a bit of `ROW_EVENT_END_STATEMENT`, `handle_row_event` returns true and
the state after the call is the state before it, so that no record is appended
and nothing is logged; this holds for every budget, every event type and every
state, whatever mappings are active, and it still holds when the bytes of the
event after the flags are replaced by any others. -/
theorem release_marker_changes_nothing (K : constants) (X : externals) (fuel : Nat)
    (s : avro_state) (hdr : REP_HEADER) (buf : List Byte) (ptr : Nat)
    (hid : row_event_table_id s hdr buf ptr = K.TABLE_DUMMY_ID)
    (hfl : row_event_flags s hdr buf ptr &&& K.ROW_EVENT_END_STATEMENT ≠ 0) :
    handle_row_event K X fuel s hdr buf ptr = some (true, s) ∧
    (ptr + (if event_hdr_len s hdr = 6 then 4 else 6) + 2 ≤ buf.length →
      ∀ rest : List Byte,
        handle_row_event K X fuel s hdr
          (buf.take (ptr + (if event_hdr_len s hdr = 6 then 4 else 6) + 2) ++ rest) ptr
          = some (true, s)) := by
  refine ⟨handle_row_event_release_marker K X fuel s hdr buf ptr ⟨hid, hfl⟩, ?_⟩
  intro hlen rest
  apply handle_row_event_release_marker
  unfold is_release_marker
  unfold row_event_table_id at hid ⊢
  unfold row_event_flags at hfl ⊢
  unfold event_hdr_len at hlen ⊢
  rw [le_bytes_take_append buf rest _ hlen _ _ (by omega),
    le_bytes_take_append buf rest _ hlen _ _ (by omega)]
  exact ⟨hid, hfl⟩

theorem release_marker_changes_nothing_witness :
    handle_row_event sample_constants sample_externals 0 (sample_mapped_state 1)
      sample_write_hdr sample_marker_event 0 = some (true, sample_mapped_state 1) ∧
    handle_row_event sample_constants sample_externals 0 (sample_mapped_state 1)
      sample_write_hdr
      (sample_marker_event.take
          (0 + (if event_hdr_len (sample_mapped_state 1) sample_write_hdr = 6 then 4 else 6) + 2)
        ++ [1, 2, 3]) 0
      = some (true, sample_mapped_state 1) :=
  ⟨(release_marker_changes_nothing sample_constants sample_externals 0 (sample_mapped_state 1)
      sample_write_hdr sample_marker_event 0 (by decide) (by decide)).1,
   (release_marker_changes_nothing sample_constants sample_externals 0 (sample_mapped_state 1)
      sample_write_hdr sample_marker_event 0 (by decide) (by decide)).2 (by decide) [1, 2, 3]⟩

/-! ## The column count of the create definition -/

/-- For an accepted row event, `handle_row_event` is its row loop followed by
the update of the output handle. -/
theorem handle_row_event_of_accepted (K : constants) (X : externals) (fuel : Nat)
    (s : avro_state) (hdr : REP_HEADER) (buf : List Byte) (ptr : Nat) (map : TABLE_MAP)
    (table : AVRO_TABLE) (create : TABLE_CREATE)
    (hacc : accepted_row_event K X s hdr buf ptr map table create) :
    handle_row_event K X fuel s hdr buf ptr =
      (row_event_loop K X hdr map create buf (row_event_col_present K X s hdr buf ptr) ptr fuel
        { s := s, record := new_record, ptr := row_event_rows_start K X s hdr buf ptr,
          appended := [] }).map
        (fun st => (true, { st.s with
          router := { st.s.router with
            open_tables := hashtable_replace st.s.router.open_tables (table_ident_of K map)
              { table with records := table.records ++ st.appended } },
          effects := st.s.effects ++ [effect.add_used_table (table_ident_of K map)] })) := by
  obtain ⟨h1, h2, h3, h4, h5⟩ := hacc
  unfold row_event_table_id row_event_flags at h1
  unfold row_event_table_id at h2
  unfold row_event_ncolumns at h5
  unfold row_event_col_present row_event_rows_start
  unfold handle_row_event
  simp only [h1, if_false, h2, h3, h4, h5, if_true]
  split <;> simp_all

/-- C26: `handle_row_event` compares the column count of the event with the
mapping only, and `process_row_event_data` reads `create->column_names[i]` for
every column of the mapping. A write event of two columns for a mapping of two
columns whose create definition has three is not rejected: `handle_row_event`
returns true and a record is appended. A write event of four columns for a
mapping of four columns whose create definition has three makes
`process_row_event_data` read the column name at index 3, outside the three
names, so that the call has no defined result. -/
theorem create_column_count_not_checked :
    (row_event_mapping sample_constants sample_narrow_state sample_write_hdr
        sample_two_column_event 0 = some sample_narrow_map ∧
      sample_narrow_map.columns = 2 ∧
      sample_narrow_map.table_create = some (sample_create 1) ∧
      (sample_create 1).columns = 3 ∧
      ∃ s' new, handle_row_event sample_constants sample_externals 2 sample_narrow_state
          sample_write_hdr sample_two_column_event 0 = some (true, s') ∧
        hashtable_fetch s'.router.open_tables "db.t"
          = some { sample_table with records := sample_table.records ++ new } ∧
        new.length = 1) ∧
    (row_event_mapping sample_constants sample_wide_state sample_write_hdr
        sample_four_column_event 0 = some sample_wide_map ∧
      sample_wide_map.columns = 4 ∧
      sample_wide_map.table_create = some (sample_create 1) ∧
      (sample_create 1).columns = 3 ∧
      (sample_create 1).column_names[3]? = none ∧
      process_row_event_data sample_constants sample_externals sample_wide_state
        sample_wide_map (sample_create 1) new_record sample_four_column_event 10 [15] = none ∧
      ∀ fuel, handle_row_event sample_constants sample_externals fuel sample_wide_state
        sample_write_hdr sample_four_column_event 0 = none) := by
  refine ⟨⟨by decide, by decide, by decide, by decide, ?_⟩,
    ⟨by decide, by decide, by decide, by decide, by decide, by decide, ?_⟩⟩
  · obtain ⟨s', new, h1, h2, ht, _⟩ := handle_row_event_accepted sample_constants
      sample_externals 2 sample_narrow_state sample_write_hdr sample_two_column_event 0
      sample_narrow_map sample_table (sample_create 1) [11]
      (by decide) (by decide) (by decide) (by decide)
    refine ⟨s', new, h1, h2, ?_⟩
    have hl := congrArg List.length ht
    rw [List.length_map] at hl
    rw [hl]
    decide
  · intro fuel
    rw [handle_row_event_of_accepted sample_constants sample_externals fuel sample_wide_state
      sample_write_hdr sample_four_column_event 0 sample_wide_map sample_table
      (sample_create 1) (by decide)]
    have hc : row_event_col_present sample_constants sample_externals sample_wide_state
        sample_write_hdr sample_four_column_event 0 = [15] := by decide
    have hs : row_event_rows_start sample_constants sample_externals sample_wide_state
        sample_write_hdr sample_four_column_event 0 = 10 := by decide
    have hb : row_event_body sample_constants sample_externals sample_write_hdr sample_wide_map
        (sample_create 1) sample_four_column_event [15]
        { s := sample_wide_state, record := new_record, ptr := 10, appended := [] }
        = none := by decide
    rw [hc, hs]
    cases fuel with
    | zero => rfl
    | succ f =>
      have hlt : ((10 : Nat) : Int) - ((0 : Nat) : Int)
          < row_event_limit sample_constants sample_write_hdr := by decide
      simp only [row_event_loop, hlt, if_true, hb, Option.map_none']

/-! ## All or nothing -/

/-- Where `process_row_event_data` returns a pointer, `row_image_end` gives the
same pointer. -/
theorem row_image_end_of_data (K : constants) (X : externals) (s : avro_state)
    (map : TABLE_MAP) (create : TABLE_CREATE) (record : avro_record)
    (buf col_present : List Byte) (ptr : Nat) (r : avro_state × avro_record × Nat)
    (h : process_row_event_data K X s map create record buf ptr col_present = some r) :
    row_image_end K X map create buf col_present ptr = some r.2.2 := by
  have hc := process_row_event_data_cursor K X s blank_state map create record new_record
    buf ptr col_present
  rw [h] at hc
  unfold row_image_end
  rw [← hc]
  rfl

/-- A pass of the row loop that returns has read one row entry. -/
theorem row_event_body_entry (K : constants) (X : externals) (hdr : REP_HEADER)
    (map : TABLE_MAP) (create : TABLE_CREATE) (buf col_present : List Byte)
    (hd : codes_distinct K) (st st' : rows_state)
    (h : row_event_body K X hdr map create buf col_present st = some st') :
    row_entry_end K X hdr map create buf col_present st.ptr = some st'.ptr := by
  obtain ⟨_, hku, _, hkb⟩ := get_event_type_kind K hd hdr.event_type
  unfold row_event_body at h
  simp only [] at h
  split at h
  · cases h
  · next s1 r1 p1 e1 =>
    have i1 := row_image_end_of_data K X _ map create _ buf col_present st.ptr _ e1
    simp only [] at i1
    split_ifs at h with hk
    · split at h
      · cases h
      · next s2 r2 p2 e2 =>
        have i2 := row_image_end_of_data K X _ map create _ buf col_present p1 _ e2
        simp only [] at i2
        cases h
        unfold row_entry_end
        rw [if_pos (hkb hk), i1]
        exact i2
    · cases h
      unfold row_entry_end
      rw [if_neg (fun hu => hk (hku hu))]
      exact i1

/-- A row loop that returns has read a sequence of row entries that fills the
event, with fewer entries than the budget. -/
theorem row_event_loop_entries (K : constants) (X : externals) (hdr : REP_HEADER)
    (map : TABLE_MAP) (create : TABLE_CREATE) (buf col_present : List Byte) (start : Nat)
    (hd : codes_distinct K) :
    ∀ (fuel : Nat) (st st' : rows_state),
      row_event_loop K X hdr map create buf col_present start fuel st = some st' →
      ∃ ends, row_entries (row_entry_end K X hdr map create buf col_present) start
          (row_event_limit K hdr) st.ptr ends ∧
        ends.length < fuel := by
  intro fuel
  induction fuel with
  | zero =>
    intro st st' h
    simp [row_event_loop] at h
  | succ f ih =>
    intro st st' h
    unfold row_event_loop at h
    split_ifs at h with hc
    · cases hb : row_event_body K X hdr map create buf col_present st with
      | none => simp [hb] at h
      | some st1 =>
        simp only [hb] at h
        obtain ⟨ends, he, hl⟩ := ih st1 st' h
        have hq := row_event_body_entry K X hdr map create buf col_present hd st st1 hb
        exact ⟨st1.ptr :: ends, ⟨hc, hq, he⟩, by simp; omega⟩
    · exact ⟨[], hc, by simp⟩
/-- Whatever `handle_row_event` returns is all or nothing. When it returns
false, the state after the call is the state before it with one more log
entry, one of the four rejection errors: no record is appended and the GTID is
unchanged. When it returns true, the event is either the release marker, and
the state is unchanged, or an accepted event whose rows split into row
entries, and one record was appended for every row image of every entry, the
event number having advanced by the number of records. A result is produced
for the release marker, for every event that is not accepted, and for every
accepted event that holds a sequence of row entries shorter than the
budget. -/
theorem row_event_all_or_nothing (K : constants) (X : externals) (fuel : Nat)
    (s : avro_state) (hdr : REP_HEADER) (buf : List Byte) (ptr : Nat)
    (hd : codes_distinct K) :
    (∀ b s', handle_row_event K X fuel s hdr buf ptr = some (b, s') →
      (b = false ∧ s'.router = s.router ∧ ∃ e ∈ rejection_errors, s' = logged s e) ∨
      (b = true ∧ is_release_marker K s hdr buf ptr ∧ s' = s) ∨
      (b = true ∧ ∃ map table create ends new,
        accepted_row_event K X s hdr buf ptr map table create ∧
        holds_row_entries K X s hdr buf ptr map create ends ∧
        hashtable_fetch s'.router.open_tables (table_ident_of K map)
          = some { table with records := table.records ++ new } ∧
        new.map (fun r => r.event_type) =
          (List.replicate ends.length
            (entry_tags (get_event_type K hdr.event_type).1)).flatten ∧
        s'.router.gtid = { s.router.gtid with
          event_num := s.router.gtid.event_num + new.length })) ∧
    (is_release_marker K s hdr buf ptr →
      handle_row_event K X fuel s hdr buf ptr = some (true, s)) ∧
    (¬ is_release_marker K s hdr buf ptr →
      (∀ map table create, ¬ accepted_row_event K X s hdr buf ptr map table create) →
      ∃ e ∈ rejection_errors,
        handle_row_event K X fuel s hdr buf ptr = some (false, logged s e)) ∧
    (∀ map table create ends,
      accepted_row_event K X s hdr buf ptr map table create →
      holds_row_entries K X s hdr buf ptr map create ends →
      ends.length < fuel →
      ∃ s', handle_row_event K X fuel s hdr buf ptr = some (true, s')) := by
  have hrej : ¬ is_release_marker K s hdr buf ptr →
      (∃ e ∈ rejection_errors,
        handle_row_event K X fuel s hdr buf ptr = some (false, logged s e)) ∨
      ∃ map table create, accepted_row_event K X s hdr buf ptr map table create := by
    intro hm
    obtain ⟨r1, r2, r3, r4⟩ := handle_row_event_rejected K X fuel s hdr buf ptr hm
    cases ha : row_event_mapping K s hdr buf ptr with
    | none => exact Or.inl ⟨_, by simp [rejection_errors], r1 ha⟩
    | some map =>
      cases ht : hashtable_fetch s.router.open_tables (table_ident_of K map) with
      | none => exact Or.inl ⟨_, by simp [rejection_errors], r2 map ha ht⟩
      | some table =>
        cases hc : map.table_create with
        | none => exact Or.inl ⟨_, by simp [rejection_errors], r3 map table ha ht hc⟩
        | some create =>
          by_cases hn : row_event_ncolumns K X s hdr buf ptr = map.columns
          · exact Or.inr ⟨map, table, create, hm, ha, ht, hc, hn⟩
          · exact Or.inl ⟨_, by simp [rejection_errors], r4 map table create ha ht hc hn⟩
  refine ⟨?_, ?_, ?_, ?_⟩
  · intro b s' h
    by_cases hm : is_release_marker K s hdr buf ptr
    · rw [handle_row_event_release_marker K X fuel s hdr buf ptr hm] at h
      cases h
      exact Or.inr (Or.inl ⟨rfl, hm, rfl⟩)
    · rcases hrej hm with ⟨e, he, hr⟩ | ⟨map, table, create, hacc⟩
      · rw [hr] at h
        cases h
        exact Or.inl ⟨rfl, rfl, e, he, rfl⟩
      · have h0 := h
        rw [handle_row_event_of_accepted K X fuel s hdr buf ptr map table create hacc] at h
        cases hl : row_event_loop K X hdr map create buf
            (row_event_col_present K X s hdr buf ptr) ptr fuel
            { s := s, record := new_record, ptr := row_event_rows_start K X s hdr buf ptr,
              appended := [] } with
        | none => simp [hl] at h
        | some st =>
          obtain ⟨ends, he, hlen⟩ := row_event_loop_entries K X hdr map create buf
            (row_event_col_present K X s hdr buf ptr) ptr hd fuel _ st hl
          obtain ⟨s'', new, h1, h2, ht, _, _, hg⟩ := handle_row_event_accepted K X fuel s hdr
            buf ptr map table create ends hd hacc he hlen
          rw [h1] at h0
          cases h0
          exact Or.inr (Or.inr ⟨rfl, map, table, create, ends, new, hacc, he, h2, ht, hg⟩)
  · exact handle_row_event_release_marker K X fuel s hdr buf ptr
  · intro hm hna
    rcases hrej hm with h | ⟨map, table, create, hacc⟩
    · exact h
    · exact absurd hacc (hna map table create)
  · intro map table create ends hacc he hlen
    obtain ⟨s', _, h1, _⟩ := handle_row_event_accepted K X fuel s hdr buf ptr map table create
      ends hd hacc he hlen
    exact ⟨s', h1⟩

theorem row_event_all_or_nothing_witness :
    ((false = false ∧ (logged (sample_state 1) unmapped_table_error).router
          = (sample_state 1).router ∧
        ∃ e ∈ rejection_errors,
          logged (sample_state 1) unmapped_table_error = logged (sample_state 1) e) ∨
      (false = true ∧ is_release_marker sample_constants (sample_state 1) sample_write_hdr
          sample_write_event 0 ∧
        logged (sample_state 1) unmapped_table_error = sample_state 1) ∨
      (false = true ∧ ∃ map table create ends new,
        accepted_row_event sample_constants sample_externals (sample_state 1) sample_write_hdr
          sample_write_event 0 map table create ∧
        holds_row_entries sample_constants sample_externals (sample_state 1) sample_write_hdr
          sample_write_event 0 map create ends ∧
        hashtable_fetch (logged (sample_state 1) unmapped_table_error).router.open_tables
            (table_ident_of sample_constants map)
          = some { table with records := table.records ++ new } ∧
        new.map (fun r => r.event_type) =
          (List.replicate ends.length
            (entry_tags (get_event_type sample_constants
              sample_write_hdr.event_type).1)).flatten ∧
        (logged (sample_state 1) unmapped_table_error).router.gtid =
          { (sample_state 1).router.gtid with
            event_num := (sample_state 1).router.gtid.event_num + new.length })) ∧
    ∃ s', handle_row_event sample_constants sample_externals 3 (sample_mapped_state 1)
      sample_update_hdr sample_update_event 0 = some (true, s') :=
  ⟨(row_event_all_or_nothing sample_constants sample_externals 1 (sample_state 1)
      sample_write_hdr sample_write_event 0 (by decide)).1 false
      (logged (sample_state 1) unmapped_table_error)
      ((handle_row_event_rejected sample_constants sample_externals 1 (sample_state 1)
        sample_write_hdr sample_write_event 0 (by decide)).1 (by decide)),
   (row_event_all_or_nothing sample_constants sample_externals 3 (sample_mapped_state 1)
      sample_update_hdr sample_update_event 0 (by decide)).2.2.2
      (sample_map 7 (sample_create 1)) sample_table (sample_create 1) [13, 15]
      (by decide) (by decide) (by decide)⟩

/-! ## The layout of a row event -/

/-- C29, as stated, fails for `UPDATE_ROWS_EVENTv0`: it is an update event,
yet `handle_row_event` passes over one bitmap only. In the sample event the
rows start at offset 10, one byte before the offset 11 of the claim. -/
theorem update_v0_reads_one_bitmap :
    is_update_rows sample_constants sample_update_v0_hdr.event_type ∧
    (get_event_type sample_constants sample_update_v0_hdr.event_type).1 = UPDATE_EVENT ∧
    row_event_rows_start sample_constants sample_externals (sample_mapped_state 1)
      sample_update_v0_hdr sample_update_event 0 = 10 ∧
    claimed_rows_offset sample_constants sample_externals (sample_mapped_state 1)
      sample_update_v0_hdr sample_update_event 0 = 11 := by
  decide

/-- C29, amended: for a column count `n` whose bitmap size `ceil(n/8)` fits an
`int` (it is below `2 ^ 31`), the first row body starts at payload offset
`T + 2 + X + len + B * ceil(n/8)`, where `T` is 4 when the post-header length
of the event type is 6 and 6 otherwise, `X` is `2 + extra_len` when the event
type code is above `DELETE_ROWS_EVENTv1` and 0 otherwise, `n` is the column
count read by `leint_consume`, `len` the number of bytes it consumed, and `B`
is 2 for `UPDATE_ROWS_EVENTv1` and `UPDATE_ROWS_EVENTv2` and 1 for every other
event type, `UPDATE_ROWS_EVENTv0` included. The bitmap of the columns present
is the `ceil(n/8)` bytes after the column count. -/
theorem rows_start_offset (K : constants) (X : externals) (s : avro_state) (hdr : REP_HEADER)
    (buf : List Byte) (ptr n len : Nat)
    (hcount : X.leint_consume buf (ptr + table_id_width s hdr + 2 + extra_width K s hdr buf ptr)
      = (n, ptr + table_id_width s hdr + 2 + extra_width K s hdr buf ptr + len))
    (hsize : (n + 7) / 8 < 2 ^ 31) :
    row_event_ncolumns K X s hdr buf ptr = n ∧
    row_event_rows_start K X s hdr buf ptr =
      ptr + (table_id_width s hdr + 2 + extra_width K s hdr buf ptr + len
        + bitmaps_read K hdr * ((n + 7) / 8)) ∧
    row_event_col_present K X s hdr buf ptr =
      (buf.drop (ptr + (table_id_width s hdr + 2 + extra_width K s hdr buf ptr + len))).take
        ((n + 7) / 8) ∧
    (bitmaps_read K hdr = 2 ↔
      hdr.event_type = K.UPDATE_ROWS_EVENTv1 ∨ hdr.event_type = K.UPDATE_ROWS_EVENTv2) ∧
    (bitmaps_read K hdr = 1 ↔
      ¬ (hdr.event_type = K.UPDATE_ROWS_EVENTv1 ∨ hdr.event_type = K.UPDATE_ROWS_EVENTv2)) := by
  have e1 : ptr + (if s.router.event_type_hdr_lens.getD hdr.event_type 0 = 6 then 4 else 6) + 2
      = ptr + table_id_width s hdr + 2 := rfl
  have e2 : (if hdr.event_type > K.DELETE_ROWS_EVENTv1 then
        ptr + table_id_width s hdr + 2 + (2 + le_bytes buf (ptr + table_id_width s hdr + 2) 2)
      else ptr + table_id_width s hdr + 2)
      = ptr + table_id_width s hdr + 2 + extra_width K s hdr buf ptr := by
    unfold extra_width
    split_ifs <;> rfl
  have hn : n % U64 = n := Nat.mod_eq_of_lt (by unfold U64; omega)
  have h7 : (n + 7) % U64 = n + 7 := Nat.mod_eq_of_lt (by unfold U64; omega)
  have hi : to_int ((n + 7) / 8) = (((n + 7) / 8 : Nat) : Int) := by
    unfold to_int
    rw [Nat.mod_eq_of_lt (by omega : (n + 7) / 8 < 2 ^ 32), if_pos hsize]
  refine ⟨?_, ?_, ?_, ?_, ?_⟩
  · unfold row_event_ncolumns row_event_header
    simp only [e1, e2, hcount, hn]
  · unfold row_event_rows_start row_event_header bitmaps_read
    simp only [e1, e2, hcount, hn, h7, hi]
    split_ifs <;> omega
  · unfold row_event_col_present row_event_header
    simp only [e1, e2, hcount, hn, h7, hi, Int.toNat_ofNat]
    congr 2
    omega
  · unfold bitmaps_read
    split_ifs with h <;> simp [h]
  · unfold bitmaps_read
    split_ifs with h <;> simp [h]

theorem rows_start_offset_witness :
    row_event_ncolumns sample_constants sample_externals (sample_mapped_state 1)
      sample_update_hdr sample_update_event 0 = 3 ∧
    row_event_rows_start sample_constants sample_externals (sample_mapped_state 1)
        sample_update_hdr sample_update_event 0 =
      0 + (table_id_width (sample_mapped_state 1) sample_update_hdr + 2
        + extra_width sample_constants (sample_mapped_state 1) sample_update_hdr
            sample_update_event 0 + 1
        + bitmaps_read sample_constants sample_update_hdr * ((3 + 7) / 8)) ∧
    row_event_col_present sample_constants sample_externals (sample_mapped_state 1)
        sample_update_hdr sample_update_event 0 =
      (sample_update_event.drop (0 + (table_id_width (sample_mapped_state 1) sample_update_hdr
        + 2 + extra_width sample_constants (sample_mapped_state 1) sample_update_hdr
            sample_update_event 0 + 1))).take ((3 + 7) / 8) ∧
    (bitmaps_read sample_constants sample_update_hdr = 2 ↔
      sample_update_hdr.event_type = sample_constants.UPDATE_ROWS_EVENTv1 ∨
        sample_update_hdr.event_type = sample_constants.UPDATE_ROWS_EVENTv2) ∧
    (bitmaps_read sample_constants sample_update_hdr = 1 ↔
      ¬ (sample_update_hdr.event_type = sample_constants.UPDATE_ROWS_EVENTv1 ∨
        sample_update_hdr.event_type = sample_constants.UPDATE_ROWS_EVENTv2)) :=
  rows_start_offset sample_constants sample_externals (sample_mapped_state 1) sample_update_hdr
    sample_update_event 0 3 1 (by decide) (by decide)

/-! ## Null and absent columns -/

/-- The bit `bit_is_set` tests: bit `i % 8` of the byte `i / 8` of the
bitfield. -/
theorem bit_is_set_eq (mem : List Byte) (ptr columns i : Nat) :
    bit_is_set mem ptr columns i =
      decide (((mem.getD (ptr + i / 8) 0).val &&& (1 <<< (i % 8))) ≠ 0) := by
  unfold bit_is_set
  by_cases h : i ≥ 8
  · simp only [h, if_true]
  · have h1 : i / 8 = 0 := by omega
    have h2 : i % 8 = i := by omega
    simp only [h, if_false, h1, h2, Nat.add_zero]

theorem record_get_set (record : avro_record) (name k : String) (v : avro_value) :
    record_get (record_set record name v) k =
      if k = name then some v else record_get record k := by
  unfold record_get record_set
  by_cases hk : k = name
  · subst hk
    simp [List.find?_cons]
  · have hb : (name == k) = false := by
      simp only [beq_eq_false_iff_ne, ne_eq]
      exact fun h => hk h.symm
    simp only [List.find?_cons, hb, hk, if_false]
    congr 1
    induction record.columns with
    | nil => rfl
    | cons e rest ih =>
      by_cases he : e.1 = name
      · have hb1 : (e.1 == name) = true := by simp [he]
        have hb2 : (e.1 == k) = false := by
          simp only [beq_eq_false_iff_ne, ne_eq]
          exact fun h => hk (h.symm.trans he)
        rw [List.filter_cons, List.find?_cons]
        simp only [hb1, hb2, Bool.not_true, Bool.false_eq_true, if_false]
        exact ih
      · have hb1 : (e.1 == name) = false := by simp [he]
        rw [List.filter_cons]
        simp only [hb1, Bool.not_false, if_true, List.find?_cons]
        cases (e.1 == k)
        · exact ih
        · rfl

/-- A present column whose bit in the null bitmap is set: the field is set to
null and the pointer stays. -/
theorem process_present_column_null (K : constants) (X : externals) (map : TABLE_MAP)
    (buf : List Byte) (null_bitmap i : Nat) (name : String) (st : row_state)
    (hnull : bit_is_set buf null_bitmap map.columns i = true) :
    process_present_column K X map buf null_bitmap i name st =
      some { st with
        npresent := st.npresent + 1,
        record := record_set st.record name avro_value.null,
        metadata_offset := st.metadata_offset
          + get_metadata_len K (map.column_types.getD i 0).val } := by
  unfold process_present_column
  simp only [hnull, if_true]

/-- The loop of `process_row_event_data` over the columns from `i` on when
every present column has its bit in the null bitmap set. -/
theorem row_columns_loop_all_null (K : constants) (X : externals) (map : TABLE_MAP)
    (create : TABLE_CREATE) (buf columns_present : List Byte) (null_bitmap : Nat)
    (hnames : map.columns ≤ create.column_names.length) :
    ∀ (n i : Nat) (st : row_state), i + n = map.columns → st.npresent ≤ i →
      (∀ j, i ≤ j → j < map.columns → bit_is_set columns_present 0 map.columns j = true →
        bit_is_set buf null_bitmap map.columns j = true) →
      ∃ st', row_columns_loop K X map create buf columns_present null_bitmap n i st = some st' ∧
        st'.ptr = st.ptr ∧ st'.s = st.s ∧
        (∀ name, record_get st'.record name = some avro_value.null ∨
          record_get st'.record name = record_get st.record name) ∧
        (∀ j name, i ≤ j → j < map.columns → create.column_names[j]? = some name →
          bit_is_set columns_present 0 map.columns j = true →
          record_get st'.record name = some avro_value.null) := by
  intro n
  induction n with
  | zero =>
    intro i st hi _ _
    refine ⟨st, rfl, rfl, rfl, fun _ => Or.inr rfl, ?_⟩
    intro j name h1 h2
    omega
  | succ n ih =>
    intro i st hi hnp hall
    have hlt : st.npresent < map.columns := by omega
    have hil : i < create.column_names.length := by omega
    have hname : create.column_names[i]? = some (create.column_names[i]) :=
      List.getElem?_eq_getElem hil
    unfold row_columns_loop
    simp only [hlt, if_true, hname]
    by_cases hp : bit_is_set columns_present 0 map.columns i = true
    · have hnull := hall i (Nat.le_refl i) (by omega) hp
      simp only [hp, if_true, process_present_column_null K X map buf null_bitmap i _ st hnull]
      obtain ⟨st', hl, h1, h2, h3, h4⟩ := ih (i + 1)
        { st with
          npresent := st.npresent + 1,
          record := record_set st.record (create.column_names[i]) avro_value.null,
          metadata_offset := st.metadata_offset
            + get_metadata_len K (map.column_types.getD i 0).val }
        (by omega) (by simp only []; omega)
        (fun j hj1 hj2 hj3 => hall j (by omega) hj2 hj3)
      refine ⟨st', hl, h1, h2, ?_, ?_⟩
      · intro name
        rcases h3 name with h | h
        · exact Or.inl h
        · rw [h, record_get_set]
          split_ifs
          · exact Or.inl rfl
          · exact Or.inr rfl
      · intro j name hj1 hj2 hjn hjp
        by_cases hji : j = i
        · subst hji
          rw [hname] at hjn
          cases hjn
          rcases h3 (create.column_names[j]) with h | h
          · exact h
          · rw [h, record_get_set]
            simp
        · exact h4 j name (by omega) hj2 hjn hjp
    · simp only [hp, Bool.false_eq_true, if_false]
      obtain ⟨st', hl, h1, h2, h3, h4⟩ := ih (i + 1) st (by omega) (by omega)
        (fun j hj1 hj2 hj3 => hall j (by omega) hj2 hj3)
      refine ⟨st', hl, h1, h2, h3, ?_⟩
      intro j name hj1 hj2 hjn hjp
      by_cases hji : j = i
      · subst hji
        exact absurd hjp hp
      · exact h4 j name (by omega) hj2 hjn hjp
/-- C30: in `process_row_event_data` the bit of column `i` in the null bitmap is
bit `i % 8` of the byte `i / 8` after the input cursor, which lies within the
first `ceil(columns/8)` bytes of the row. A present column whose bit in the
null bitmap is set is stored as null and leaves the cursor where it is; a
column whose bit in the bitmap of the columns present is clear leaves the
whole state of the loop as it is. For a row whose present columns all have
their null bit set, the create definition naming every column of the mapping,
`process_row_event_data` returns the cursor exactly `ceil(columns/8)` bytes
past the input cursor, changes nothing of the process state, and leaves the
field of every present column null. -/
theorem null_and_absent_columns_consume_nothing (K : constants) (X : externals)
    (map : TABLE_MAP) (create : TABLE_CREATE) (buf columns_present : List Byte)
    (s : avro_state) (record : avro_record) (ptr : Nat) :
    (∀ i, i < map.columns →
      bit_is_set buf ptr map.columns i =
        decide (((buf.getD (ptr + i / 8) 0).val &&& (1 <<< (i % 8))) ≠ 0) ∧
      i / 8 < (map.columns + 7) / 8) ∧
    (∀ i name st, bit_is_set buf ptr map.columns i = true →
      ∃ st', process_present_column K X map buf ptr i name st = some st' ∧
        st'.ptr = st.ptr ∧ st'.s = st.s ∧
        st'.record = record_set st.record name avro_value.null) ∧
    (∀ n i name st, st.npresent < map.columns → create.column_names[i]? = some name →
      bit_is_set columns_present 0 map.columns i = false →
      row_columns_loop K X map create buf columns_present ptr (n + 1) i st
        = row_columns_loop K X map create buf columns_present ptr n (i + 1) st) ∧
    (map.columns ≤ create.column_names.length →
      (∀ i, i < map.columns → bit_is_set columns_present 0 map.columns i = true →
        bit_is_set buf ptr map.columns i = true) →
      ∃ record', process_row_event_data K X s map create record buf ptr columns_present
          = some (s, record', ptr + (map.columns + 7) / 8) ∧
        ∀ i name, i < map.columns → create.column_names[i]? = some name →
          bit_is_set columns_present 0 map.columns i = true →
          record_get record' name = some avro_value.null) := by
  refine ⟨?_, ?_, ?_, ?_⟩
  · intro i hi
    exact ⟨bit_is_set_eq buf ptr map.columns i, by omega⟩
  · intro i name st hnull
    exact ⟨_, process_present_column_null K X map buf ptr i name st hnull, rfl, rfl, rfl⟩
  · intro n i name st hlt hname hp
    conv_lhs => unfold row_columns_loop
    simp only [hlt, if_true, hname, hp, Bool.false_eq_true, if_false]
  · intro hnames hall
    obtain ⟨st', hl, h1, h2, _, h4⟩ := row_columns_loop_all_null K X map create buf
      columns_present ptr hnames map.columns 0
      { s := s, record := record, ptr := ptr + (map.columns + 7) / 8, npresent := 0,
        metadata_offset := 0, extra_bits := (map.columns + 7) / 8 * 8 - map.columns }
      (by omega) (Nat.le_refl 0) (fun j _ hj2 hj3 => hall j hj2 hj3)
    refine ⟨st'.record, ?_, ?_⟩
    · unfold process_row_event_data
      simp only [hl]
      rw [h1, h2]
    · intro i name hi hn hp
      exact h4 i name (Nat.zero_le i) hi hn hp

theorem null_and_absent_columns_consume_nothing_witness :
    ∃ record', process_row_event_data sample_constants sample_externals
        (sample_mapped_state 1) (sample_map 7 (sample_create 1)) (sample_create 1) new_record
        sample_update_event 11 [7]
        = some (sample_mapped_state 1, record',
            11 + ((sample_map 7 (sample_create 1)).columns + 7) / 8) ∧
      ∀ i name, i < (sample_map 7 (sample_create 1)).columns →
        (sample_create 1).column_names[i]? = some name →
        bit_is_set [7] 0 (sample_map 7 (sample_create 1)).columns i = true →
        record_get record' name = some avro_value.null :=
  (null_and_absent_columns_consume_nothing sample_constants sample_externals
    (sample_map 7 (sample_create 1)) (sample_create 1) sample_update_event [7]
    (sample_mapped_state 1) new_record 11).2.2.2 (by decide) (by decide)

/-! ## The IP address check, the seed of the generator and the empty map -/

/-- C34: `valid_ip` stops at the terminating NUL without looking at it, so the
octet that ends with the string is never compared with 255: the strings
`1.2.3.999` and `999` are accepted, while `1.2.3.999/24`, where a `/` ends the
last octet, and `1.999.3.4` are rejected. -/
theorem valid_ip_last_octet_unchecked :
    valid_ip (ip_chars "1.2.3.999") = some true ∧
    valid_ip (ip_chars "999") = some true ∧
    valid_ip (ip_chars "1.2.3.999/24") = some false ∧
    valid_ip (ip_chars "1.999.3.4") = some false := by
  decide

/-- For a value of `random_jkiss_devrand` below `2 ^ 31` the carry is seeded
within `1 <= c < 698769069`. -/
theorem seed_carry_in_range (devrand : Nat → Nat) (st : jkiss_state)
    (h0 : 0 < devrand 3) (h1 : devrand 3 < 2 ^ 31) :
    1 ≤ (random_init_jkiss_seed devrand st).c ∧
      (random_init_jkiss_seed devrand st).c < 698769069 := by
  have hm : devrand 3 % 2 ^ 32 = devrand 3 := Nat.mod_eq_of_lt (by omega)
  have hi : to_int (devrand 3) = ((devrand 3 : Nat) : Int) := by
    unfold to_int
    rw [hm, if_pos h1]
  have hne : to_int (devrand 3) ≠ 0 := by
    rw [hi]
    omega
  have ht : Int.tmod (to_int (devrand 3)) 698769068 = ((devrand 3 : Nat) : Int) % 698769068 := by
    rw [hi]
    exact Int.tmod_eq_emod (by omega) (by decide)
  unfold random_init_jkiss_seed
  simp only [hne, ne_eq, not_false_eq_true, if_true, ht]
  unfold to_unsigned
  omega

/-- C35: `random_init_jkiss` keeps the value of `random_jkiss_devrand` in an
`int`, so a value from `2 ^ 31` on is negative, the remainder of the division
by 698769068 is negative or zero, and the carry is not in the range
`1 <= c < 698769069`: the value `0xFFFFFFFF` gives `c = 0` and the value
`0x80000000` gives `c = 4243790853`. -/
theorem seed_carry_out_of_range :
    (random_init_jkiss_seed (fun _ => 0xFFFFFFFF) jkiss_initial).c = 0 ∧
    (random_init_jkiss_seed (fun _ => 0x80000000) jkiss_initial).c = 4243790853 ∧
    ¬ (4243790853 < 698769069) := by
  decide

/-- C40: `maxavro_map_read` returns `NULL` for the well-formed encoding of the
empty map, the single byte `0x00`, as it does for an empty source, for a map
cut off after the key of its first pair and when the allocation of a node
fails; but for the last case `last_error` is `MAXAVRO_ERR_NONE` every time, and
only the number of bytes consumed differs. -/
theorem map_read_empty_map_is_null :
    (maxavro_map_read (fun _ => true) true (source_of [0])).map
        (fun r => (r.1, r.2.last_error, r.2.file.pos)) = some ([], MAXAVRO_ERR_NONE, 1) ∧
    (maxavro_map_read (fun _ => true) true (source_of [])).map
        (fun r => (r.1, r.2.last_error, r.2.file.pos)) = some ([], MAXAVRO_ERR_NONE, 0) ∧
    (maxavro_map_read (fun _ => true) true (source_of [2, 2, 0x61])).map
        (fun r => (r.1, r.2.last_error, r.2.file.pos)) = some ([], MAXAVRO_ERR_NONE, 3) ∧
    (maxavro_map_read (fun _ => true) false (source_of [2, 2, 0x61, 2, 0x62, 0])).map
        (fun r => (r.1, r.2.last_error, r.2.file.pos)) = some ([], MAXAVRO_ERR_MEMORY, 1) := by
  decide

/-! ## Failed set-up of a new version -/

/-- When the mapping or its schema cannot be made, the branch for a new version
returns false and leaves the router as it is. -/
theorem table_map_new_version_early_failure (K : constants) (X : externals) (s : avro_state)
    (buf : List Byte) (ptr ev_len : Nat) (table_ident : String) (create : TABLE_CREATE)
    (old : Option TABLE_MAP)
    (h : X.table_map_alloc buf ptr ev_len create = none ∨
      ∃ map, X.table_map_alloc buf ptr ev_len create = some map ∧
        X.json_new_schema_from_table map = none) :
    (table_map_new_version K X s buf ptr ev_len table_ident create old).1 = false ∧
    (table_map_new_version K X s buf ptr ev_len table_ident create old).2.router = s.router := by
  unfold table_map_new_version
  rcases h with h | ⟨map, h1, h2⟩
  · simp [h]
  · simp [h1, h2]

/-- C39: when the output file of the new version cannot be opened,
`handle_table_map_event` returns false, sends no notification and leaves
`table_maps` and `active_maps` as they were, but the output handle that was
open for the table identity is gone from `open_tables`: `hashtable_delete` is
called before `avro_table_alloc`. -/
theorem failed_open_loses_handle :
    hashtable_fetch (sample_mapped_state 2).router.created_tables "db.t"
      = some (sample_create 2) ∧
    hashtable_fetch (sample_mapped_state 2).router.table_maps "db.t"
      = some (sample_map 7 (sample_create 1)) ∧
    hashtable_fetch (sample_mapped_state 2).router.open_tables "db.t" = some sample_table ∧
    handle_table_map_event sample_constants sample_failing_externals (sample_mapped_state 2)
      sample_table_map_hdr sample_table_map_event 0 = (false, sample_unopened_state) ∧
    hashtable_fetch sample_unopened_state.router.open_tables "db.t" = none ∧
    sample_unopened_state.router.table_maps = (sample_mapped_state 2).router.table_maps ∧
    sample_unopened_state.router.active_maps = (sample_mapped_state 2).router.active_maps ∧
    notifications sample_unopened_state.effects = 0 := by
  decide

/-! ## Numeric fields -/

/-- C33: `set_numeric_field_value` copies the bytes of the column into an
`int64_t` that was set to 0, so for the widths 1, 2, 3 and 4 the integer it
passes on is the unsigned value of the bytes: a TINY byte `0xFF` gives 255 for
every choice of the type codes, and with the type codes of the protocol SHORT,
INT24 and LONG bytes that are all `0xFF` give 65535, 16777215 and 4294967295,
where the sign-aware value is -1. Only LONGLONG, which fills the eight bytes,
gives -1. -/
theorem numeric_field_zero_extended :
    (∀ (K : constants) (value : List Byte),
      set_numeric_field_value K K.TABLE_COL_TYPE_TINY value
        = some (avro_value.int ((value.getD 0 0).val : Nat))) ∧
    (∀ K : constants, set_numeric_field_value K K.TABLE_COL_TYPE_TINY [0xff]
      = some (avro_value.int 255)) ∧
    sign_aware 1 [0xff] = -1 ∧
    set_numeric_field_value sample_constants sample_constants.TABLE_COL_TYPE_SHORT [0xff, 0xff]
      = some (avro_value.int 65535) ∧
    sign_aware 2 [0xff, 0xff] = -1 ∧
    set_numeric_field_value sample_constants sample_constants.TABLE_COL_TYPE_INT24
      [0xff, 0xff, 0xff] = some (avro_value.int 16777215) ∧
    sign_aware 3 [0xff, 0xff, 0xff] = -1 ∧
    set_numeric_field_value sample_constants sample_constants.TABLE_COL_TYPE_LONG
      [0xff, 0xff, 0xff, 0xff] = some (avro_value.int 4294967295) ∧
    sign_aware 4 [0xff, 0xff, 0xff, 0xff] = -1 ∧
    set_numeric_field_value sample_constants sample_constants.TABLE_COL_TYPE_LONGLONG
      [0xff, 0xff, 0xff, 0xff, 0xff, 0xff, 0xff, 0xff] = some (avro_value.int (-1)) ∧
    sign_aware 8 [0xff, 0xff, 0xff, 0xff, 0xff, 0xff, 0xff, 0xff] = -1 := by
  have h : ∀ (K : constants) (value : List Byte),
      set_numeric_field_value K K.TABLE_COL_TYPE_TINY value
        = some (avro_value.int ((value.getD 0 0).val : Nat)) := by
    intro K value
    have hb : (value.getD 0 0).val < 256 := (value.getD 0 0).isLt
    have hU : U64 = 2 ^ 64 := rfl
    have hm : (value.getD 0 0).val % U64 = (value.getD 0 0).val :=
      Nat.mod_eq_of_lt (by omega)
    unfold set_numeric_field_value to_int64
    simp only [if_true, hm]
    rw [if_pos (by omega)]
  refine ⟨h, fun K => h K [0xff], by decide, by decide, by decide, by decide, by decide,
    by decide, by decide, by decide, by decide⟩

/-! ## Warnings for unsupported types -/

/-- What decoding a present column does to the warning flags and the log: the
flag of BIT is set exactly by a BIT column that is not null, the flag of
DECIMAL exactly by a DECIMAL column that is not null, a clear flag of ENUM and
SET stays clear with no warning of that kind logged, and each of the two
warnings is logged when its flag goes from clear to set. -/
theorem process_present_column_warnings (K : constants) (X : externals) (map : TABLE_MAP)
    (buf : List Byte) (null_bitmap i : Nat) (name : String) (st st' : row_state)
    (h : process_present_column K X map buf null_bitmap i name st = some st') :
    st'.npresent = st.npresent + 1 ∧
    (st'.s.warn_bit = true ↔ st.s.warn_bit = true ∨
      (bit_is_set buf null_bitmap map.columns i = false ∧ bit_column X map i)) ∧
    (st'.s.warn_decimal = true ↔ st.s.warn_decimal = true ∨
      (bit_is_set buf null_bitmap map.columns i = false ∧ decimal_column X map i)) ∧
    (st.s.warn_large_enumset = false →
      st'.s.warn_large_enumset = false ∧
        st'.s.effects.count enumset_warning = st.s.effects.count enumset_warning) ∧
    (warnings_match st.s → warnings_match st'.s) := by
  have e1 : (decimal_warning == bit_warning) = false := by decide
  have e2 : (bit_warning == decimal_warning) = false := by decide
  have e3 : (bit_warning == enumset_warning) = false := by decide
  have e4 : (decimal_warning == enumset_warning) = false := by decide
  have e5 : (enumset_warning == bit_warning) = false := by decide
  have e6 : (enumset_warning == decimal_warning) = false := by decide
  unfold process_present_column at h
  simp only [] at h
  unfold bit_column decimal_column column_type warnings_match
  cases hn : bit_is_set buf null_bitmap map.columns i
  · cases hf : X.column_is_fixed_string (map.column_types.getD i 0).val
    · cases hb : X.column_is_bit (map.column_types.getD i 0).val
      · cases hd : X.column_is_decimal (map.column_types.getD i 0).val
        · simp only [hn, hf, hb, hd, Bool.false_eq_true, if_false] at h
          split_ifs at h <;> cases h <;> simp
        · simp only [hn, hf, hb, hd, Bool.false_eq_true, if_false, if_true] at h
          split at h
          · cases hw : st.s.warn_decimal <;> simp only [hw] at h <;> cases h <;>
              simp [hw, List.count_append, List.count_singleton, decimal_warning, bit_warning,
                enumset_warning]
          · cases h
      · simp only [hn, hf, hb, Bool.false_eq_true, if_false, if_true] at h
        cases hw : st.s.warn_bit <;> simp only [hw] at h <;> cases h <;>
          simp [hw, List.count_append, List.count_singleton, decimal_warning, bit_warning,
            enumset_warning]
    · simp only [hn, hf, Bool.false_eq_true, if_false, if_true] at h
      split_ifs at h with he hl <;> cases h <;> simp_all
      intro _ _
      exact ⟨by decide, by decide⟩
  · simp only [hn, if_true] at h
    cases h
    simp

theorem exists_from_split (c i : Nat) (P : Nat → Prop) (hi : i < c) :
    (∃ j, i ≤ j ∧ j < c ∧ P j) ↔ (P i ∨ ∃ j, i + 1 ≤ j ∧ j < c ∧ P j) := by
  constructor
  · rintro ⟨j, h1, h2, h3⟩
    by_cases hj : j = i
    · subst hj
      exact Or.inl h3
    · exact Or.inr ⟨j, by omega, h2, h3⟩
  · rintro (h | ⟨j, h1, h2, h3⟩)
    · exact ⟨i, Nat.le_refl i, hi, h⟩
    · exact ⟨j, by omega, h2, h3⟩

/-- The loop of `process_row_event_data` over the columns from `i` on: a
warning flag is set after it exactly when it was set before or a column of its
kind is decoded. -/
theorem row_columns_loop_warnings (K : constants) (X : externals) (map : TABLE_MAP)
    (create : TABLE_CREATE) (buf columns_present : List Byte) (null_bitmap : Nat) :
    ∀ (n i : Nat) (st st' : row_state),
      row_columns_loop K X map create buf columns_present null_bitmap n i st = some st' →
      i + n = map.columns → st.npresent ≤ i →
      (st'.s.warn_bit = true ↔ st.s.warn_bit = true ∨
        ∃ j, i ≤ j ∧ j < map.columns ∧
          decoded_as (bit_column X map) map buf columns_present null_bitmap j) ∧
      (st'.s.warn_decimal = true ↔ st.s.warn_decimal = true ∨
        ∃ j, i ≤ j ∧ j < map.columns ∧
          decoded_as (decimal_column X map) map buf columns_present null_bitmap j) ∧
      (st.s.warn_large_enumset = false →
        st'.s.warn_large_enumset = false ∧
          st'.s.effects.count enumset_warning = st.s.effects.count enumset_warning) ∧
      (warnings_match st.s → warnings_match st'.s) := by
  intro n
  induction n with
  | zero =>
    intro i st st' h hi _
    simp only [row_columns_loop, Option.some.injEq] at h
    subst h
    refine ⟨?_, ?_, fun h => ⟨h, rfl⟩, fun h => h⟩
    · constructor
      · exact Or.inl
      · rintro (h | ⟨j, h1, h2, _⟩)
        · exact h
        · omega
    · constructor
      · exact Or.inl
      · rintro (h | ⟨j, h1, h2, _⟩)
        · exact h
        · omega
  | succ n ih =>
    intro i st st' h hi hnp
    have hlt : st.npresent < map.columns := by omega
    have hic : i < map.columns := by omega
    unfold row_columns_loop at h
    simp only [hlt, if_true] at h
    cases hname : create.column_names[i]? with
    | none => simp [hname] at h
    | some name =>
      simp only [hname] at h
      cases hp : bit_is_set columns_present 0 map.columns i
      · simp only [hp, Bool.false_eq_true, if_false] at h
        obtain ⟨a1, a2, a3, a4⟩ := ih (i + 1) st st' h (by omega) (by omega)
        refine ⟨?_, ?_, a3, a4⟩
        · rw [a1, exists_from_split map.columns i _ hic]
          simp [decoded_as, hp]
        · rw [a2, exists_from_split map.columns i _ hic]
          simp [decoded_as, hp]
      · simp only [hp, if_true] at h
        cases hc : process_present_column K X map buf null_bitmap i name st with
        | none => simp [hc] at h
        | some st1 =>
          simp only [hc] at h
          obtain ⟨b0, b1, b2, b3, b4⟩ := process_present_column_warnings K X map buf
            null_bitmap i name st st1 hc
          obtain ⟨a1, a2, a3, a4⟩ := ih (i + 1) st1 st' h (by omega) (by omega)
          refine ⟨?_, ?_, ?_, fun hm => a4 (b4 hm)⟩
          · rw [a1, b1, exists_from_split map.columns i _ hic]
            simp only [decoded_as, hp, true_and]
            exact or_assoc
          · rw [a2, b2, exists_from_split map.columns i _ hic]
            simp only [decoded_as, hp, true_and]
            exact or_assoc
          · intro hf
            obtain ⟨c1, c2⟩ := b3 hf
            obtain ⟨d1, d2⟩ := a3 c1
            exact ⟨d1, d2.trans c2⟩

/-- One call of `process_row_event_data`: a warning flag is set after it exactly
when it was set before or the call decodes a column of its kind. -/
theorem process_row_event_data_warnings (K : constants) (X : externals) (s : avro_state)
    (c : row_call) (r : avro_state × avro_record × Nat)
    (h : process_row_event_data K X s c.map c.create c.record c.buf c.ptr c.columns_present
      = some r) :
    (r.1.warn_bit = true ↔ s.warn_bit = true ∨ call_decodes (bit_column X) c) ∧
    (r.1.warn_decimal = true ↔ s.warn_decimal = true ∨ call_decodes (decimal_column X) c) ∧
    (s.warn_large_enumset = false →
      r.1.warn_large_enumset = false ∧
        r.1.effects.count enumset_warning = s.effects.count enumset_warning) ∧
    (warnings_match s → warnings_match r.1) := by
  unfold process_row_event_data at h
  simp only [] at h
  split at h
  · cases h
  · next st hst =>
    cases h
    obtain ⟨a1, a2, a3, a4⟩ := row_columns_loop_warnings K X c.map c.create c.buf
      c.columns_present c.ptr c.map.columns 0 _ st hst (by omega) (Nat.le_refl 0)
    refine ⟨?_, ?_, a3, a4⟩
    · rw [a1]
      unfold call_decodes
      simp
    · rw [a2]
      unfold call_decodes
      simp

/-- A sequence of calls of `process_row_event_data`: a warning flag is set after
it exactly when it was set before or one of the calls decodes a column of its
kind. -/
theorem run_row_calls_warnings (K : constants) (X : externals) :
    ∀ (calls : List row_call) (s s' : avro_state), run_row_calls K X s calls = some s' →
      (s'.warn_bit = true ↔ s.warn_bit = true ∨ ∃ c ∈ calls, call_decodes (bit_column X) c) ∧
      (s'.warn_decimal = true ↔
        s.warn_decimal = true ∨ ∃ c ∈ calls, call_decodes (decimal_column X) c) ∧
      (s.warn_large_enumset = false →
        s'.warn_large_enumset = false ∧
          s'.effects.count enumset_warning = s.effects.count enumset_warning) ∧
      (warnings_match s → warnings_match s') := by
  intro calls
  induction calls with
  | nil =>
    intro s s' h
    simp only [run_row_calls, Option.some.injEq] at h
    subst h
    simp
  | cons c rest ih =>
    intro s s' h
    unfold run_row_calls at h
    cases hc : process_row_event_data K X s c.map c.create c.record c.buf c.ptr
        c.columns_present with
    | none => simp [hc] at h
    | some r =>
      simp only [hc] at h
      obtain ⟨b1, b2, b3, b4⟩ := process_row_event_data_warnings K X s c r hc
      obtain ⟨a1, a2, a3, a4⟩ := ih r.1 s' h
      refine ⟨?_, ?_, ?_, fun hm => a4 (b4 hm)⟩
      · rw [a1, b1]
        simp only [List.mem_cons, exists_eq_or_imp]
        exact or_assoc
      · rw [a2, b2]
        simp only [List.mem_cons, exists_eq_or_imp]
        exact or_assoc
      · intro hf
        obtain ⟨c1, c2⟩ := b3 hf
        obtain ⟨d1, d2⟩ := a3 c1
        exact ⟨d1, d2.trans c2⟩

/-! ## DECIMAL columns -/

theorem dig_bytes_of_index (k : Nat) (hk : k < 10) :
    dig_bytes (k : Int) = some (dig_bytes_at k : Int) := by
  interval_cases k <;> rfl

theorem dig_bytes_some_bounds (i d : Int) (h : dig_bytes i = some d) :
    0 ≤ i ∧ i < 10 ∧ 0 ≤ d := by
  unfold dig_bytes at h
  split_ifs at h with hi
  refine ⟨hi.1, hi.2, ?_⟩
  obtain ⟨k, rfl⟩ := Int.eq_ofNat_of_zero_le hi.1
  have hk : k < 10 := by omega
  simp only [Int.toNat_ofNat] at h
  interval_cases k <;> simp at h <;> omega

/-- With `d <= p` the two indices are the remainders of `p - d` and of `d` by
9. -/
theorem decimal_indices (p d : Nat) (hpd : d ≤ p) :
    decimal_ipart2 p d = (((p - d) % 9 : Nat) : Int) ∧
    decimal_fpart2 d = ((d % 9 : Nat) : Int) ∧
    Int.tdiv ((p : Int) - (d : Int)) 9 = (((p - d) / 9 : Nat) : Int) ∧
    Int.tdiv (d : Int) 9 = ((d / 9 : Nat) : Int) := by
  have h1 : Int.tdiv ((p : Int) - (d : Int)) 9 = ((p : Int) - (d : Int)) / 9 :=
    Int.tdiv_eq_ediv (by omega) (by decide)
  have h2 : Int.tdiv (d : Int) 9 = (d : Int) / 9 := Int.tdiv_eq_ediv (by omega) (by decide)
  unfold decimal_ipart2 decimal_fpart2
  rw [h1, h2]
  refine ⟨by omega, by omega, by omega, by omega⟩

/-- The DECIMAL branch of `process_row_event_data` for a column with
`d <= p`: both lookups are inside the table, the pointer advances by the width
of the value and the field is set to the integer 0. -/
theorem process_present_column_decimal (K : constants) (X : externals) (map : TABLE_MAP)
    (buf : List Byte) (null_bitmap i : Nat) (name : String) (st : row_state)
    (hn : bit_is_set buf null_bitmap map.columns i = false)
    (hc : decimal_column X map i)
    (hpd : decimal_decimals map st.metadata_offset ≤ decimal_precision map st.metadata_offset) :
    ∃ st', process_present_column K X map buf null_bitmap i name st = some st' ∧
      st'.ptr = st.ptr + decimal_width (decimal_precision map st.metadata_offset)
        (decimal_decimals map st.metadata_offset) ∧
      st'.record = record_set st.record name (avro_value.int 0) := by
  obtain ⟨hf, hb, hd⟩ := hc
  unfold column_type at hf hb hd
  obtain ⟨i1, i2, i3, i4⟩ := decimal_indices _ _ hpd
  unfold decimal_ipart2 at i1
  unfold decimal_fpart2 at i2
  unfold decimal_precision decimal_decimals at *
  have l1 := dig_bytes_of_index
    (((map.column_metadata.getD st.metadata_offset 0).val
      - (map.column_metadata.getD (st.metadata_offset + 1) 0).val) % 9) (by omega)
  have l2 := dig_bytes_of_index
    ((map.column_metadata.getD (st.metadata_offset + 1) 0).val % 9) (by omega)
  rw [i3] at i1
  rw [i4] at i2
  unfold process_present_column
  simp only [hn, hf, hb, hd, Bool.false_eq_true, if_false, if_true, i3, i4, i1, i2, l1, l2]
  refine ⟨_, rfl, ?_, ?_⟩
  · simp only [decimal_width]
    omega
  · rfl

/-- The BIT branch of `process_row_event_data`: the field is set to the integer
0 whatever the row holds, and the call has a result. -/
theorem process_present_column_bit (K : constants) (X : externals) (map : TABLE_MAP)
    (buf : List Byte) (null_bitmap i : Nat) (name : String) (st : row_state)
    (hn : bit_is_set buf null_bitmap map.columns i = false)
    (hc : bit_column X map i) :
    ∃ st', process_present_column K X map buf null_bitmap i name st = some st' ∧
      st'.record = record_set st.record name (avro_value.int 0) := by
  obtain ⟨hf, hb⟩ := hc
  unfold column_type at hf hb
  unfold process_present_column
  simp only [hn, hf, hb, Bool.false_eq_true, if_false, if_true]
  exact ⟨_, rfl, rfl⟩

/-- C31: the warning for ENUM and SET values of more than one byte is guarded by
`bytes > 1 && warn_large_enumset`, and `warn_large_enumset` is false at the
start and set nowhere else, so the warning is never logged. Decoding a
two-byte ENUM value in a process that has logged nothing stores the decimal
text of the first byte and moves the cursor past the two bytes, and the
process state after the call is the state before it: no warning, the flag
still clear. The same holds of a second call. -/
theorem enumset_warning_never_logged :
    sample_typed_externals.unpack_enum sample_enum_row 1 sample_enum_map.column_metadata
      = ([1, 2], 2) ∧
    process_row_event_data sample_constants sample_typed_externals blank_state sample_enum_map
        sample_enum_create new_record sample_enum_row 0 [1]
      = some (blank_state, record_set new_record "e" (avro_value.string (ip_chars "1")), 3) ∧
    run_row_calls sample_constants sample_typed_externals blank_state
        [{ map := sample_enum_map, create := sample_enum_create, record := new_record,
           buf := sample_enum_row, ptr := 0, columns_present := [1] },
         { map := sample_enum_map, create := sample_enum_create, record := new_record,
           buf := sample_enum_row, ptr := 0, columns_present := [1] }]
      = some blank_state ∧
    blank_state.warn_large_enumset = false ∧
    blank_state.effects.count enumset_warning = 0 := by
  decide

/-- C32: over any sequence of calls of `process_row_event_data` that starts
with both flags clear and neither warning logged, the BIT warning is in the
log exactly once when one of the calls decodes a BIT column that is not null
and not at all otherwise, and likewise the DECIMAL warning for DECIMAL
columns. A BIT column that is not null is stored as the integer 0 and its
decoding always has a result; so has a DECIMAL column that is not null when its
decimals do not exceed its precision. -/
theorem unsupported_type_warnings (K : constants) (X : externals) :
    (∀ (calls : List row_call) (s s' : avro_state),
      s.warn_bit = false → s.warn_decimal = false →
      s.effects.count bit_warning = 0 → s.effects.count decimal_warning = 0 →
      run_row_calls K X s calls = some s' →
      ((∃ c ∈ calls, call_decodes (bit_column X) c) → s'.effects.count bit_warning = 1) ∧
      ((¬ ∃ c ∈ calls, call_decodes (bit_column X) c) → s'.effects.count bit_warning = 0) ∧
      ((∃ c ∈ calls, call_decodes (decimal_column X) c) →
        s'.effects.count decimal_warning = 1) ∧
      ((¬ ∃ c ∈ calls, call_decodes (decimal_column X) c) →
        s'.effects.count decimal_warning = 0)) ∧
    (∀ (map : TABLE_MAP) (buf : List Byte) (null_bitmap i : Nat) (name : String)
      (st : row_state),
      bit_is_set buf null_bitmap map.columns i = false → bit_column X map i →
      ∃ st', process_present_column K X map buf null_bitmap i name st = some st' ∧
        st'.record = record_set st.record name (avro_value.int 0)) ∧
    (∀ (map : TABLE_MAP) (buf : List Byte) (null_bitmap i : Nat) (name : String)
      (st : row_state),
      bit_is_set buf null_bitmap map.columns i = false → decimal_column X map i →
      decimal_decimals map st.metadata_offset ≤ decimal_precision map st.metadata_offset →
      ∃ st', process_present_column K X map buf null_bitmap i name st = some st' ∧
        st'.record = record_set st.record name (avro_value.int 0)) := by
  refine ⟨?_, ?_, ?_⟩
  · intro calls s s' hb hd cb cd h
    obtain ⟨a1, a2, _, a4⟩ := run_row_calls_warnings K X calls s s' h
    obtain ⟨m1, m2⟩ := a4 ⟨by simp [hb, cb], by simp [hd, cd]⟩
    simp only [hb, Bool.false_eq_true, false_or] at a1
    simp only [hd, Bool.false_eq_true, false_or] at a2
    refine ⟨?_, ?_, ?_, ?_⟩
    · intro he
      rw [m1, if_pos (a1.mpr he)]
    · intro he
      rw [m1, if_neg (fun hw => he (a1.mp hw))]
    · intro he
      rw [m2, if_pos (a2.mpr he)]
    · intro he
      rw [m2, if_neg (fun hw => he (a2.mp hw))]
  · intro map buf null_bitmap i name st hn hc
    exact process_present_column_bit K X map buf null_bitmap i name st hn hc
  · intro map buf null_bitmap i name st hn hc hpd
    obtain ⟨st', h1, _, h3⟩ := process_present_column_decimal K X map buf null_bitmap i name st
      hn hc hpd
    exact ⟨st', h1, h3⟩

theorem unsupported_type_warnings_witness :
    List.count bit_warning [bit_warning, decimal_warning] = 1 ∧
    List.count decimal_warning [bit_warning, decimal_warning] = 1 ∧
    blank_state.effects.count bit_warning = 0 ∧
    ∃ st', process_present_column sample_constants sample_typed_externals
        sample_bit_decimal_map sample_bit_decimal_row 0 1 "d"
        { s := blank_state, record := new_record, ptr := 1, npresent := 1,
          metadata_offset := 2, extra_bits := 0 } = some st' ∧
      st'.record = record_set new_record "d" (avro_value.int 0) :=
  ⟨((unsupported_type_warnings sample_constants sample_typed_externals).1
      [sample_bit_decimal_call, sample_bit_decimal_call] blank_state
      { blank_state with
        warn_bit := true, warn_decimal := true, effects := [bit_warning, decimal_warning] }
      rfl rfl (by decide) (by decide) (by decide)).1
      ⟨sample_bit_decimal_call, by simp, 0, by decide, by decide, by decide, by decide,
        by decide⟩,
   ((unsupported_type_warnings sample_constants sample_typed_externals).1
      [sample_bit_decimal_call, sample_bit_decimal_call] blank_state
      { blank_state with
        warn_bit := true, warn_decimal := true, effects := [bit_warning, decimal_warning] }
      rfl rfl (by decide) (by decide) (by decide)).2.2.1
      ⟨sample_bit_decimal_call, by simp, 1, by decide, by decide, by decide, by decide,
        by decide, by decide⟩,
   ((unsupported_type_warnings sample_constants sample_typed_externals).1 []
      blank_state blank_state rfl rfl (by decide) (by decide) rfl).2.1 (by simp),
   (unsupported_type_warnings sample_constants sample_typed_externals).2.2
      sample_bit_decimal_map sample_bit_decimal_row 0 1 "d"
      { s := blank_state, record := new_record, ptr := 1, npresent := 1, metadata_offset := 2,
        extra_bits := 0 }
      (by decide) ⟨by decide, by decide, by decide⟩ (by decide)⟩

/-- C38: for a DECIMAL column that is not null, with precision `p` and `d`
decimals and `d <= p`, the two indices into `dig_bytes` are `(p - d) % 9` and
`d % 9`, both between 0 and 8, the cursor advances by exactly
`4*((p-d)/9) + dig_bytes[(p-d)%9] + 4*(d/9) + dig_bytes[d%9]` bytes and the
field is set to the integer 0. Without `d <= p` the first index can be
negative: for `p = 0` and `d = 1` it is -1, outside the table, and the
decoding has no defined result. -/
theorem decimal_column_in_bounds (K : constants) (X : externals) (map : TABLE_MAP)
    (buf : List Byte) (null_bitmap i : Nat) (name : String) (st : row_state)
    (hn : bit_is_set buf null_bitmap map.columns i = false)
    (hc : decimal_column X map i)
    (hpd : decimal_decimals map st.metadata_offset ≤ decimal_precision map st.metadata_offset) :
    (decimal_ipart2 (decimal_precision map st.metadata_offset)
        (decimal_decimals map st.metadata_offset)
      = (((decimal_precision map st.metadata_offset
          - decimal_decimals map st.metadata_offset) % 9 : Nat) : Int) ∧
      (decimal_precision map st.metadata_offset
        - decimal_decimals map st.metadata_offset) % 9 ≤ 8) ∧
    (decimal_fpart2 (decimal_decimals map st.metadata_offset)
      = ((decimal_decimals map st.metadata_offset % 9 : Nat) : Int) ∧
      decimal_decimals map st.metadata_offset % 9 ≤ 8) ∧
    (∃ st', process_present_column K X map buf null_bitmap i name st = some st' ∧
      st'.ptr = st.ptr + decimal_width (decimal_precision map st.metadata_offset)
        (decimal_decimals map st.metadata_offset) ∧
      st'.record = record_set st.record name (avro_value.int 0)) ∧
    (decimal_ipart2 0 1 = -1 ∧ dig_bytes (-1) = none ∧
      process_present_column sample_constants sample_typed_externals sample_bad_decimal_map
        [0, 1, 2] 0 0 "e"
        { s := blank_state, record := new_record, ptr := 1, npresent := 0,
          metadata_offset := 0, extra_bits := 7 } = none) := by
  obtain ⟨i1, i2, _, _⟩ := decimal_indices _ _ hpd
  exact ⟨⟨i1, by omega⟩, ⟨i2, by omega⟩,
    process_present_column_decimal K X map buf null_bitmap i name st hn hc hpd,
    by decide, by decide, by decide⟩

theorem decimal_column_in_bounds_witness :
    (decimal_ipart2 10 2 = ((8 : Nat) : Int) ∧ (10 - 2) % 9 ≤ 8) ∧
    (decimal_fpart2 2 = ((2 : Nat) : Int) ∧ 2 % 9 ≤ 8) ∧
    ∃ st', process_present_column sample_constants sample_typed_externals
        sample_bit_decimal_map sample_bit_decimal_row 0 1 "d"
        { s := blank_state, record := new_record, ptr := 1, npresent := 1,
          metadata_offset := 2, extra_bits := 0 } = some st' ∧
      st'.ptr = 1 + decimal_width 10 2 ∧
      st'.record = record_set new_record "d" (avro_value.int 0) :=
  ⟨(decimal_column_in_bounds sample_constants sample_typed_externals sample_bit_decimal_map
      sample_bit_decimal_row 0 1 "d"
      { s := blank_state, record := new_record, ptr := 1, npresent := 1, metadata_offset := 2,
        extra_bits := 0 }
      (by decide) ⟨by decide, by decide, by decide⟩ (by decide)).1,
   (decimal_column_in_bounds sample_constants sample_typed_externals sample_bit_decimal_map
      sample_bit_decimal_row 0 1 "d"
      { s := blank_state, record := new_record, ptr := 1, npresent := 1, metadata_offset := 2,
        extra_bits := 0 }
      (by decide) ⟨by decide, by decide, by decide⟩ (by decide)).2.1,
   (decimal_column_in_bounds sample_constants sample_typed_externals sample_bit_decimal_map
      sample_bit_decimal_row 0 1 "d"
      { s := blank_state, record := new_record, ptr := 1, npresent := 1, metadata_offset := 2,
        extra_bits := 0 }
      (by decide) ⟨by decide, by decide, by decide⟩ (by decide)).2.2.1⟩

/-- C37: `process_row_event_data` adds `get_metadata_len` to the metadata offset
only for columns that are present. In a mapping of a VARCHAR column, with two
metadata bytes, and a BLOB column, whose metadata byte is at offset 2, a row in
which only the BLOB column is present is decoded with the metadata offset 0
for the BLOB column: the first metadata byte of the VARCHAR column, 2, is
taken as the size of the length, so the value `41` is stored and the cursor
ends at 4, where the metadata at offset 2 gives the value `00` and the
cursor 3. -/
theorem metadata_offset_skips_absent_columns :
    aligned_metadata_offset sample_constants sample_blob_map 1 = 2 ∧
    bit_is_set [2] 0 sample_blob_map.columns 0 = false ∧
    bit_is_set [2] 0 sample_blob_map.columns 1 = true ∧
    (row_columns_loop sample_constants sample_typed_externals sample_blob_map
        sample_blob_create sample_blob_row [2] 0 1 0
        { s := blank_state, record := new_record, ptr := 1, npresent := 0,
          metadata_offset := 0, extra_bits := 6 }).map (fun st => st.metadata_offset)
      = some 0 ∧
    process_row_event_data sample_constants sample_typed_externals blank_state sample_blob_map
        sample_blob_create new_record sample_blob_row 0 [2]
      = some (blank_state, record_set new_record "b" (avro_value.bytes [65]), 4) ∧
    (process_present_column sample_constants sample_typed_externals sample_blob_map
        sample_blob_row 0 1 "b"
        { s := blank_state, record := new_record, ptr := 1, npresent := 0,
          metadata_offset := 2, extra_bits := 6 }).map (fun st => (st.record, st.ptr))
      = some (record_set new_record "b" (avro_value.bytes [0]), 3) := by
  decide

/-! ## Termination of the row loop -/

/-- The number of bytes of a DECIMAL value is not negative whenever both
lookups into `dig_bytes` are inside the table. -/
theorem decimal_bytes_nonneg (p d : Nat) (d1 d2 : Int)
    (h1 : dig_bytes (((p : Int) - (d : Int)) - Int.tdiv ((p : Int) - (d : Int)) 9 * 9) = some d1)
    (h2 : dig_bytes ((d : Int) - Int.tdiv (d : Int) 9 * 9) = some d2) :
    0 ≤ Int.tdiv ((p : Int) - (d : Int)) 9 * 4 + d1 + (Int.tdiv (d : Int) 9 * 4 + d2) := by
  obtain ⟨a1, a2, a3⟩ := dig_bytes_some_bounds _ _ h1
  obtain ⟨_, _, b3⟩ := dig_bytes_some_bounds _ _ h2
  have hd : Int.tdiv (d : Int) 9 = (d : Int) / 9 := Int.tdiv_eq_ediv (by omega) (by decide)
  rw [hd]
  by_cases hp : (0 : Int) ≤ (p : Int) - (d : Int)
  · have e : Int.tdiv ((p : Int) - (d : Int)) 9 = ((p : Int) - (d : Int)) / 9 :=
      Int.tdiv_eq_ediv hp (by decide)
    rw [e]
    omega
  · have e : Int.tdiv ((p : Int) - (d : Int)) 9 = -(((d : Int) - (p : Int)) / 9) := by
      have e0 : (p : Int) - (d : Int) = -((d : Int) - (p : Int)) := by omega
      rw [e0, Int.neg_tdiv, Int.tdiv_eq_ediv (by omega) (by decide)]
    rw [e] at a1 a2 ⊢
    omega

/-- Decoding a present column never moves the pointer backwards when
`lestr_consume` does not. -/
theorem process_present_column_advances (K : constants) (X : externals) (map : TABLE_MAP)
    (buf : List Byte) (null_bitmap i : Nat) (name : String) (st st' : row_state)
    (hle : ∀ b p, p ≤ (X.lestr_consume b p).2)
    (h : process_present_column K X map buf null_bitmap i name st = some st') :
    st.ptr ≤ st'.ptr := by
  unfold process_present_column at h
  simp only [] at h
  split_ifs at h <;> first
    | (cases h; simp only []; first | exact Nat.le_refl _ | exact hle _ _ | omega)
    | (split at h
       · next d1 d2 h1 h2 =>
         cases h
         have hn := decimal_bytes_nonneg _ _ d1 d2 h1 h2
         simp only []
         omega
       · cases h)

theorem row_columns_loop_advances (K : constants) (X : externals) (map : TABLE_MAP)
    (create : TABLE_CREATE) (buf columns_present : List Byte) (null_bitmap : Nat)
    (hle : ∀ b p, p ≤ (X.lestr_consume b p).2) :
    ∀ (n i : Nat) (st st' : row_state),
      row_columns_loop K X map create buf columns_present null_bitmap n i st = some st' →
      st.ptr ≤ st'.ptr := by
  intro n
  induction n with
  | zero =>
    intro i st st' h
    simp only [row_columns_loop, Option.some.injEq] at h
    subst h
    exact Nat.le_refl _
  | succ n ih =>
    intro i st st' h
    unfold row_columns_loop at h
    split_ifs at h with h1 h2
    · cases hn : create.column_names[i]? with
      | none => simp [hn] at h
      | some name =>
        simp only [hn] at h
        cases hp : process_present_column K X map buf null_bitmap i name st with
        | none => simp [hp] at h
        | some st1 =>
          simp only [hp] at h
          exact Nat.le_trans
            (process_present_column_advances K X map buf null_bitmap i name st st1 hle hp)
            (ih (i + 1) st1 st' h)
    · cases hn : create.column_names[i]? with
      | none => simp [hn] at h
      | some name =>
        simp only [hn] at h
        exact ih (i + 1) st st' h
    · simp only [Option.some.injEq] at h
      subst h
      exact Nat.le_refl _

/-- The pointer `process_row_event_data` returns is at least `ceil(columns/8)`
bytes after the pointer it was given. -/
theorem process_row_event_data_advances (K : constants) (X : externals) (s : avro_state)
    (map : TABLE_MAP) (create : TABLE_CREATE) (record : avro_record) (buf : List Byte)
    (ptr : Nat) (columns_present : List Byte) (r : avro_state × avro_record × Nat)
    (hle : ∀ b p, p ≤ (X.lestr_consume b p).2)
    (h : process_row_event_data K X s map create record buf ptr columns_present = some r) :
    ptr + (map.columns + 7) / 8 ≤ r.2.2 := by
  unfold process_row_event_data at h
  simp only [] at h
  split at h
  · cases h
  · next st hst =>
    cases h
    exact row_columns_loop_advances K X map create buf columns_present ptr hle map.columns 0 _
      st hst

/-- A row entry of a mapping with at least one column ends after its start. -/
theorem row_entry_end_advances (K : constants) (X : externals) (hdr : REP_HEADER)
    (map : TABLE_MAP) (create : TABLE_CREATE) (buf col_present : List Byte) (p q : Nat)
    (hle : ∀ b p, p ≤ (X.lestr_consume b p).2) (hcol : 1 ≤ map.columns)
    (h : row_entry_end K X hdr map create buf col_present p = some q) : p < q := by
  have himg : ∀ a b, row_image_end K X map create buf col_present a = some b → a < b := by
    intro a b hab
    unfold row_image_end at hab
    cases hr : process_row_event_data K X blank_state map create new_record buf a col_present with
    | none => simp [hr] at hab
    | some r =>
      simp only [hr, Option.map_some', Option.some.injEq] at hab
      have := process_row_event_data_advances K X blank_state map create new_record buf a
        col_present r hle hr
      omega
  unfold row_entry_end at h
  split_ifs at h
  · cases h1 : row_image_end K X map create buf col_present p with
    | none => simp [h1] at h
    | some m =>
      simp only [h1, Option.some_bind] at h
      have := himg p m h1
      have := himg m q h
      omega
  · exact himg p q h

/-- When every row entry ends after its start, the entries from `p` on fill the
event, and there are at most as many as bytes are left of the declared size. -/
theorem row_entries_exist (next : Nat → Option Nat) (start : Nat) (limit : Int)
    (hnext : ∀ p, ∃ q, next p = some q ∧ p < q) :
    ∀ (m p : Nat), start ≤ p → (limit - ((p : Int) - (start : Int))).toNat ≤ m →
      ∃ ends, row_entries next start limit p ends ∧ ends.length ≤ m := by
  intro m
  induction m with
  | zero =>
    intro p _ hm
    refine ⟨[], ?_, Nat.le_refl 0⟩
    show ¬ ((p : Int) - (start : Int) < limit)
    omega
  | succ m ih =>
    intro p hp hm
    by_cases hc : (p : Int) - (start : Int) < limit
    · obtain ⟨q, hq, hpq⟩ := hnext p
      obtain ⟨ends, he, hl⟩ := ih q (by omega) (by omega)
      exact ⟨q :: ends, ⟨hc, hq, he⟩, by simp; omega⟩
    · exact ⟨[], hc, by simp⟩

/-- Decoding a present column has a result when no column type takes the
DECIMAL branch. -/
theorem process_present_column_defined (K : constants) (X : externals) (map : TABLE_MAP)
    (buf : List Byte) (null_bitmap i : Nat) (name : String) (st : row_state)
    (hdec : ∀ t, X.column_is_decimal t = false) :
    (process_present_column K X map buf null_bitmap i name st).isSome = true := by
  unfold process_present_column
  simp only [hdec, Bool.false_eq_true, if_false]
  split_ifs <;> rfl

theorem row_columns_loop_defined (K : constants) (X : externals) (map : TABLE_MAP)
    (create : TABLE_CREATE) (buf columns_present : List Byte) (null_bitmap : Nat)
    (hdec : ∀ t, X.column_is_decimal t = false) :
    ∀ (n i : Nat) (st : row_state), i + n ≤ create.column_names.length →
      (row_columns_loop K X map create buf columns_present null_bitmap n i st).isSome = true := by
  intro n
  induction n with
  | zero => intro i st _; rfl
  | succ n ih =>
    intro i st hi
    have hil : i < create.column_names.length := by omega
    have hname : create.column_names[i]? = some (create.column_names[i]) :=
      List.getElem?_eq_getElem hil
    unfold row_columns_loop
    simp only [hname]
    split_ifs
    · cases hp : process_present_column K X map buf null_bitmap i (create.column_names[i]) st with
      | none =>
        have := process_present_column_defined K X map buf null_bitmap i
          (create.column_names[i]) st hdec
        rw [hp] at this
        cases this
      | some st1 => exact ih (i + 1) st1 (by omega)
    · exact ih (i + 1) st (by omega)
    · rfl

/-- Every row entry has an end when the create definition names every column of
the mapping and no column type takes the DECIMAL branch. -/
theorem row_entry_end_defined (K : constants) (X : externals) (hdr : REP_HEADER)
    (map : TABLE_MAP) (create : TABLE_CREATE) (buf col_present : List Byte)
    (hdec : ∀ t, X.column_is_decimal t = false)
    (hnames : map.columns ≤ create.column_names.length) (p : Nat) :
    (row_entry_end K X hdr map create buf col_present p).isSome = true := by
  have himg : ∀ a, ∃ b, row_image_end K X map create buf col_present a = some b := by
    intro a
    have h := row_columns_loop_defined K X map create buf col_present a hdec map.columns 0
      { s := blank_state, record := new_record, ptr := a + (map.columns + 7) / 8,
        npresent := 0, metadata_offset := 0,
        extra_bits := (map.columns + 7) / 8 * 8 - map.columns } (by omega)
    obtain ⟨st, hst⟩ := Option.isSome_iff_exists.mp h
    refine ⟨st.ptr, ?_⟩
    unfold row_image_end process_row_event_data
    simp only [hst, Option.map_some']
  unfold row_entry_end
  split_ifs
  · obtain ⟨b, hb⟩ := himg p
    obtain ⟨c, hc⟩ := himg b
    simp [hb, hc]
  · obtain ⟨b, hb⟩ := himg p
    simp [hb]

/-- When `lestr_consume` never moves the pointer backwards, every call of
`process_row_event_data` that has a result returns a pointer at least
`ceil(columns/8)` bytes after the pointer it was given, so strictly after it
when the mapping has at least one column. For an accepted row event of such a
mapping whose rows start at or after the start of the event and all have a
result, the row data splits into at most `row_event_limit` row entries, one
per pass of the row loop, and `handle_row_event` returns true for every budget
above that number. The limit is `event_size - BINLOG_EVENT_HDR_LEN` when the
declared size is at least the length of the header, and that number plus
`2 ^ 32` when it is below. -/
theorem rows_advance_and_loop_terminates (K : constants) (X : externals)
    (hle : ∀ b p, p ≤ (X.lestr_consume b p).2) :
    (∀ (s : avro_state) (map : TABLE_MAP) (create : TABLE_CREATE) (record : avro_record)
      (buf : List Byte) (ptr : Nat) (columns_present : List Byte)
      (r : avro_state × avro_record × Nat),
      process_row_event_data K X s map create record buf ptr columns_present = some r →
      ptr + (map.columns + 7) / 8 ≤ r.2.2 ∧ (1 ≤ map.columns → ptr < r.2.2)) ∧
    (∀ (s : avro_state) (hdr : REP_HEADER) (buf : List Byte) (ptr : Nat) (map : TABLE_MAP)
      (table : AVRO_TABLE) (create : TABLE_CREATE),
      codes_distinct K →
      accepted_row_event K X s hdr buf ptr map table create →
      1 ≤ map.columns →
      ptr ≤ row_event_rows_start K X s hdr buf ptr →
      (∀ p, (row_entry_end K X hdr map create buf (row_event_col_present K X s hdr buf ptr)
        p).isSome = true) →
      ∃ ends, holds_row_entries K X s hdr buf ptr map create ends ∧
        ends.length ≤ (row_event_limit K hdr).toNat ∧
        ∀ fuel, (row_event_limit K hdr).toNat < fuel →
          ∃ s', handle_row_event K X fuel s hdr buf ptr = some (true, s')) := by
  refine ⟨?_, ?_⟩
  · intro s map create record buf ptr columns_present r h
    have := process_row_event_data_advances K X s map create record buf ptr columns_present r
      hle h
    exact ⟨this, fun hc => by omega⟩
  · intro s hdr buf ptr map table create hd hacc hcol hstart hdef
    have hnext : ∀ p, ∃ q,
        row_entry_end K X hdr map create buf (row_event_col_present K X s hdr buf ptr) p
          = some q ∧ p < q := by
      intro p
      obtain ⟨q, hq⟩ := Option.isSome_iff_exists.mp (hdef p)
      exact ⟨q, hq, row_entry_end_advances K X hdr map create buf _ p q hle hcol hq⟩
    obtain ⟨ends, he, hl⟩ := row_entries_exist _ ptr
      (row_event_limit K hdr) hnext
      (row_event_limit K hdr).toNat
      (row_event_rows_start K X s hdr buf ptr) hstart (by omega)
    refine ⟨ends, he, hl, ?_⟩
    intro fuel hf
    obtain ⟨s', _, h1, _⟩ := handle_row_event_accepted K X fuel s hdr buf ptr map table create
      ends hd hacc he (by omega)
    exact ⟨s', h1⟩

theorem rows_advance_and_loop_terminates_witness :
    (11 + ((sample_map 7 (sample_create 1)).columns + 7) / 8
        ≤ (sample_mapped_state 1, record_set (record_set (record_set new_record "a"
            avro_value.null) "b" avro_value.null) "c" avro_value.null, 12).2.2 ∧
      (1 ≤ (sample_map 7 (sample_create 1)).columns →
        11 < (sample_mapped_state 1, record_set (record_set (record_set new_record "a"
            avro_value.null) "b" avro_value.null) "c" avro_value.null, 12).2.2)) ∧
    ∃ ends, holds_row_entries sample_constants sample_externals (sample_mapped_state 1)
        sample_update_hdr sample_update_event 0 (sample_map 7 (sample_create 1))
        (sample_create 1) ends ∧
      ends.length ≤ (row_event_limit sample_constants sample_update_hdr).toNat ∧
      ∀ fuel, (row_event_limit sample_constants sample_update_hdr).toNat < fuel →
        ∃ s', handle_row_event sample_constants sample_externals fuel (sample_mapped_state 1)
          sample_update_hdr sample_update_event 0 = some (true, s') :=
  ⟨(rows_advance_and_loop_terminates sample_constants sample_externals
      (fun b p => Nat.le_trans (Nat.le_add_right p 1) (Nat.le_add_right (p + 1) _))).1
      (sample_mapped_state 1) (sample_map 7 (sample_create 1)) (sample_create 1) new_record
      sample_update_event 11 [7] _ (by decide),
   (rows_advance_and_loop_terminates sample_constants sample_externals
      (fun b p => Nat.le_trans (Nat.le_add_right p 1) (Nat.le_add_right (p + 1) _))).2
      (sample_mapped_state 1) sample_update_hdr sample_update_event 0
      (sample_map 7 (sample_create 1)) sample_table (sample_create 1)
      (by decide) (by decide) (by decide) (by decide)
      (row_entry_end_defined sample_constants sample_externals sample_update_hdr
        (sample_map 7 (sample_create 1)) (sample_create 1) sample_update_event _
        (fun _ => rfl) (by decide))⟩

/-! ## Row loops that do not end with the event -/

/-- The limit of the row loop is `event_size - BINLOG_EVENT_HDR_LEN` when the
declared size, a `uint32_t`, is at least the length of the header, and that
number plus `2 ^ 32` when it is below. -/
theorem row_event_limit_eq (K : constants) (hdr : REP_HEADER)
    (hs : hdr.event_size < 2 ^ 32) (hk : K.BINLOG_EVENT_HDR_LEN ≤ 2 ^ 32) :
    (K.BINLOG_EVENT_HDR_LEN ≤ hdr.event_size →
      row_event_limit K hdr = (hdr.event_size : Int) - (K.BINLOG_EVENT_HDR_LEN : Int)) ∧
    (hdr.event_size < K.BINLOG_EVENT_HDR_LEN →
      row_event_limit K hdr
        = (hdr.event_size : Int) - (K.BINLOG_EVENT_HDR_LEN : Int) + 2 ^ 32) := by
  unfold row_event_limit
  constructor <;> intro h <;> omega

end MaxScale
